import Mathlib

/-!
# Verification of the ASE Gaussian / CRYSTAL file-format adapters

This file gives a shallow embedding, in Lean 4, of the two Python source
files of the repository:

* `ase/io/gaussian.py` — writer (`write_gaussian_in`) and parser
  (`GaussianConfiguration.parse_gaussian_input`, `read_gaussian_in`,
  `read_gaussian_out`) for Gaussian input/output files;
* `ase/calculators/crystal.py` — the CRYSTAL calculator's input writer
  (`CRYSTAL.write_crystal_in`) and point-charge potential
  (`PointChargePotential.write_mmcharges`).

Python strings are embedded as `String`; Python numbers as exact decimal
values (`Dec` below) — the code under verification only formats and
parses decimal text, and every numeric value any claim touches is an
exact decimal; Python `dict`s as insertion-ordered association lists;
exceptions as `Except` values.  External toolkit services that the two
files import (the `ase.io.zmatrix.parse_zmatrix` routine, the
`ase.data` element tables, the filesystem) are passed in as explicit
parameters.

The first half of the file is the embedding (definitions follow the
Python source line by line); the second half states and proves the
claims.
-/

/-! ## Python string primitives -/

/-- Python's `\s` / `str.split()` whitespace characters. -/
def pyIsSpace (c : Char) : Bool :=
  c = ' ' || c = '\t' || c = '\n' || c = '\r' || c = '\x0b' || c = '\x0c'

/-- Helper for `pySplitWS`: accumulate the current token (reversed). -/
def splitWSGo : List Char → List Char → List (List Char)
  | [], acc => if acc.isEmpty then [] else [acc.reverse]
  | c :: cs, acc =>
    if pyIsSpace c then
      if acc.isEmpty then splitWSGo cs [] else acc.reverse :: splitWSGo cs []
    else splitWSGo cs (c :: acc)

/-- Python `str.split()` with no argument: split on whitespace runs,
discarding empty tokens. -/
def pySplitWS (s : String) : List String :=
  (splitWSGo s.data []).map (fun l => String.mk l)

/-- Python `str.strip(chars)`: remove any characters of the set `chars`
from both ends (NOT removal of a leading text: `str.strip` treats its
argument as a character set). -/
def pyStripSet (chars : String) (s : String) : String :=
  let bad := fun c => chars.data.contains c
  String.mk (((s.data.dropWhile bad).reverse.dropWhile bad).reverse)

/-- Python `str.strip()` with no argument (whitespace on both ends). -/
def pyStripWS (s : String) : String :=
  String.mk (((s.data.dropWhile pyIsSpace).reverse.dropWhile pyIsSpace).reverse)

/-- Python `str.lower()` (the sources only feed ASCII text). -/
def pyLower (s : String) : String := String.mk (s.data.map Char.toLower)

/-- Python `str.upper()`. -/
def pyUpper (s : String) : String := String.mk (s.data.map Char.toUpper)

/-- Python `str.isnumeric()` on the ASCII strings the parser handles:
nonempty and all decimal digits. -/
def pyIsNumeric (s : String) : Bool :=
  !s.data.isEmpty && s.data.all Char.isDigit

/-- Does `pat` start the list `l`? -/
def listStartsWith : List Char → List Char → Bool
  | [], _ => true
  | _ :: _, [] => false
  | a :: as, b :: bs => a = b && listStartsWith as bs

/-- Helper for `strContainsSub`. -/
def containsSubGo (pat : List Char) : List Char → Bool
  | [] => listStartsWith pat []
  | c :: cs => listStartsWith pat (c :: cs) || containsSubGo pat cs

/-- Python's substring test `needle in hay`. -/
def strContainsSub (hay needle : String) : Bool :=
  containsSubGo needle.data hay.data

/-- Worker for `splitOnStr` (fuel-driven; each step consumes at least
one character since the separator is nonempty). -/
def splitOnStrGo (sep : List Char) : Nat → List Char → List Char → List String
  | 0, acc, l => [String.mk (acc.reverse ++ l)]
  | fuel + 1, acc, l =>
    if listStartsWith sep l then
      String.mk acc.reverse :: splitOnStrGo sep fuel [] (l.drop sep.length)
    else
      match l with
      | [] => [String.mk acc.reverse]
      | c :: cs => splitOnStrGo sep fuel (c :: acc) cs

/-- Python `str.split(sep)` for a nonempty separator. -/
def splitOnStr (sep : String) (s : String) : List String :=
  if sep.isEmpty then [s] else splitOnStrGo sep.data (s.length + 1) [] s.data

/-- Worker for `replaceAll`. -/
def replaceAllGo (old new : List Char) : Nat → List Char → List Char
  | 0, l => l
  | fuel + 1, l =>
    if listStartsWith old l then new ++ replaceAllGo old new fuel (l.drop old.length)
    else
      match l with
      | [] => []
      | c :: cs => c :: replaceAllGo old new fuel cs

/-- Python `str.replace(old, new)` for a nonempty `old`: replace every
non-overlapping occurrence, left to right. -/
def replaceAll (s old new : String) : String :=
  if old.isEmpty then s
  else String.mk (replaceAllGo old.data new.data (s.length + 1) s.data)

/-- Python `sep.join(l)`. -/
def joinWith (sep : String) : List String → String
  | [] => ""
  | [x] => x
  | x :: xs => x ++ sep ++ joinWith sep xs

example : splitOnStr "!" "a!b!" = ["a", "b", ""] := by decide
example : splitOnStr "=" "a=b=c" = ["a", "b", "c"] := by decide
example : replaceAll "x(a)y(a)" "(a)" "" = "xy" := by decide

/-! ## Exact decimal numbers

Python floats enter this code only as parsed decimal literals and leave
it only through decimal formatting; we embed them as exact decimals
`m / 10 ^ e`, kept in canonical form (`e = 0`, or the mantissa not
divisible by ten) so that structural equality is value equality. -/

/-- `10 ^ n` (structural, so that kernel reduction works). -/
def pow10 : Nat → Nat
  | 0 => 1
  | n + 1 => 10 * pow10 n

/-- An exact decimal number `m / 10 ^ e`. -/
structure Dec where
  m : Int
  e : Nat
  deriving DecidableEq, Repr

/-- Canonicalisation worker (fuel is the exponent). -/
def decNormGo : Nat → Int → Nat → Dec
  | 0, m, e => ⟨m, e⟩
  | fuel + 1, m, e =>
    if e = 0 then ⟨m, 0⟩
    else if m = 0 then ⟨0, 0⟩
    else if m.tmod 10 = 0 then decNormGo fuel (m.tdiv 10) (e - 1)
    else ⟨m, e⟩

/-- Strip trailing factors of ten from the mantissa. -/
def decNorm (d : Dec) : Dec := decNormGo d.e d.m d.e

/-- Embed an integer. -/
def decOfInt (n : Int) : Dec := ⟨n, 0⟩

instance : OfNat Dec n := ⟨decOfInt n⟩

/-- Scale so both operands share an exponent, then combine mantissas. -/
def decLift2 (f : Int → Int → Int) (a b : Dec) : Int × Nat :=
  let e := max a.e b.e
  (f (a.m * (pow10 (e - a.e) : Nat)) (b.m * (pow10 (e - b.e) : Nat)), e)

/-- Exact decimal addition. -/
def decAdd (a b : Dec) : Dec :=
  let p := decLift2 (fun x y => x + y) a b
  decNorm ⟨p.1, p.2⟩

/-- Exact decimal negation. -/
def decNeg (a : Dec) : Dec := ⟨-a.m, a.e⟩

/-- Exact decimal subtraction. -/
def decSub (a b : Dec) : Dec := decAdd a (decNeg b)

/-- Exact decimal multiplication. -/
def decMul (a b : Dec) : Dec := decNorm ⟨a.m * b.m, a.e + b.e⟩

/-- Value comparison `a < b`. -/
def decLt (a b : Dec) : Bool :=
  let p := decLift2 (fun x y => x - y) a b
  p.1 < 0

/-- Value comparison `a ≤ b`. -/
def decLe (a b : Dec) : Bool :=
  let p := decLift2 (fun x y => x - y) a b
  p.1 ≤ 0

/-- Is the value zero? -/
def decIsZero (a : Dec) : Bool := a.m = 0

/-- Round the ratio `n / d` (with `d > 0`) to the nearest integer, ties
to even — the rounding of Python's fixed-point `format`. -/
def roundHalfEvenQuot (n d : Int) : Int :=
  let f := Int.fdiv n d
  let r := n - f * d
  if 2 * r < d then f
  else if d < 2 * r then f + 1
  else if f.tmod 2 = 0 then f else f + 1

/-- Round a decimal to the nearest integer, ties to even. -/
def decRoundHalfEven (a : Dec) : Int :=
  roundHalfEvenQuot a.m (pow10 a.e : Nat)

/-- Model of Python's binary-float division, used only where the source
divides by a physical-unit constant (no claim depends on the value):
the quotient rounded to 15 decimal places. -/
def decDivApprox (a b : Dec) : Dec :=
  let num := a.m * (pow10 (b.e + 15) : Nat)
  let den := b.m * (pow10 a.e : Nat)
  let q := if den < 0 then roundHalfEvenQuot (-num) (-den) else roundHalfEvenQuot num den
  decNorm ⟨q, 15⟩

/-- Digit characters of a natural number, most significant first
(worker with fuel). -/
def natDigitsGo : Nat → Nat → List Char → List Char
  | 0, _, acc => acc
  | fuel + 1, n, acc =>
    let acc := Char.ofNat (48 + n % 10) :: acc
    if n < 10 then acc else natDigitsGo fuel (n / 10) acc

/-- Python `str` of a natural number. -/
def natDigits (n : Nat) : String := String.mk (natDigitsGo (n + 1) n [])

/-- Python `str` of an integer. -/
def intStr (n : Int) : String :=
  if n < 0 then "-" ++ natDigits n.natAbs else natDigits n.natAbs

/-- Fold a digit list into a natural number. -/
def digitsVal : List Char → Nat
  | [] => 0
  | c :: cs => digitsVal cs + c.toNat.sub 48 * pow10 cs.length

/-- Python `int(s)`: optional surrounding whitespace, optional sign,
one or more digits.  `none` models the `ValueError` raised otherwise. -/
def pyInt? (s : String) : Option Int :=
  let l := (s.data.dropWhile pyIsSpace).reverse.dropWhile pyIsSpace |>.reverse
  let signed : Bool × List Char :=
    match l with
    | '-' :: rest => (true, rest)
    | '+' :: rest => (false, rest)
    | rest => (false, rest)
  let ds := signed.2
  if ds.isEmpty || !ds.all Char.isDigit then none
  else some (if signed.1 then -(digitsVal ds : Int) else (digitsVal ds : Int))

/-- Build the decimal `± mant * 10 ^ (e - fracLen)`. -/
def decOfParts (neg : Bool) (mant : Nat) (fracLen : Nat) (e : Int) : Dec :=
  let sm : Int := if neg then -(mant : Int) else (mant : Int)
  if 0 ≤ e - (fracLen : Int) then
    decNorm ⟨sm * (pow10 (e - (fracLen : Int)).toNat : Nat), 0⟩
  else
    decNorm ⟨sm, ((fracLen : Int) - e).toNat⟩

/-- Python `float(s)` on ordinary decimal/exponent literals:
`[ws][sign](digits[.digits] | .digits)[(e|E)[sign]digits][ws]`.
`none` models the `ValueError` raised on anything else.  (The special
forms `inf`/`nan`, irrelevant to every claim, are not modelled.) -/
def pyFloat? (s : String) : Option Dec :=
  let l := (s.data.dropWhile pyIsSpace).reverse.dropWhile pyIsSpace |>.reverse
  let signed : Bool × List Char :=
    match l with
    | '-' :: rest => (true, rest)
    | '+' :: rest => (false, rest)
    | rest => (false, rest)
  let intPart := signed.2.takeWhile Char.isDigit
  let rest1 := signed.2.drop intPart.length
  let fracAndRest : List Char × List Char :=
    match rest1 with
    | '.' :: r =>
      let f := r.takeWhile Char.isDigit
      (f, r.drop f.length)
    | r => ([], r)
  let fracPart := fracAndRest.1
  let rest2 := fracAndRest.2
  if intPart.isEmpty && fracPart.isEmpty then none
  else
    let expVal? : Option Int :=
      match rest2 with
      | [] => some 0
      | 'e' :: r => pyInt? (String.mk r)
      | 'E' :: r => pyInt? (String.mk r)
      | _ => none
    match expVal? with
    | none => none
    | some e =>
      some (decOfParts signed.1 (digitsVal (intPart ++ fracPart)) fracPart.length e)

/-- Left-pad with zeros to length `n`. -/
def zeroPad (n : Nat) (s : String) : String :=
  if s.length < n then String.mk (List.replicate (n - s.length) '0') ++ s else s

/-- Python `'{:.Pf}'.format(x)`: fixed-point with `prec` digits after
the point (none, and no point, when `prec = 0`), rounding half to even,
keeping the sign of negative values rounding to zero (`'-0'`). -/
def fmtFixed (prec : Nat) (q : Dec) : String :=
  let n : Int := decRoundHalfEven (decMul q ⟨(pow10 prec : Nat), 0⟩)
  let ds := natDigits n.natAbs
  let sign := if q.m < 0 then "-" else ""
  if prec = 0 then sign ++ ds
  else
    let ds := zeroPad (prec + 1) ds
    let cut := ds.length - prec
    sign ++ String.mk (ds.data.take cut) ++ "." ++ String.mk (ds.data.drop cut)

/-- Python `repr`/`str` of a float holding an exact decimal: the
shortest decimal rendering, with at least one digit after the point. -/
def decRepr (q : Dec) : String :=
  let ds := zeroPad (q.e + 1) (natDigits q.m.natAbs)
  let cut := ds.length - q.e
  let sign := if q.m < 0 then "-" else ""
  if q.e = 0 then sign ++ ds ++ ".0"
  else sign ++ String.mk (ds.data.take cut) ++ "." ++ String.mk (ds.data.drop cut)

/-- Python `'{:W.10f}'` style width padding (numbers are right-aligned,
padded with spaces; longer strings are kept whole). -/
def padLeftW (w : Nat) (s : String) : String :=
  if s.length < w then String.mk (List.replicate (w - s.length) ' ') ++ s else s

/-- Python `'{:<Ws}'` left-aligned width padding. -/
def padRightW (w : Nat) (s : String) : String :=
  if s.length < w then s ++ String.mk (List.replicate (w - s.length) ' ') else s

/-- Python `'\n'.join(l)`. -/
def joinNl (l : List String) : String := joinWith "\n" l

/-- Iterating a Python file object yields the text cut after every
newline, each line keeping its terminating `'\n'` (a last line without a
newline is yielded bare; no empty final line is yielded). -/
def toFileLinesGo : List Char → List Char → List String
  | acc, [] => if acc.isEmpty then [] else [String.mk acc.reverse]
  | acc, c :: cs =>
    if c = '\n' then String.mk (acc.reverse ++ ['\n']) :: toFileLinesGo [] cs
    else toFileLinesGo (c :: acc) cs

/-- Split file contents into the lines a `for line in fd` loop sees. -/
def toFileLines (s : String) : List String := toFileLinesGo [] s.data

example : pySplitWS "  a  bc\nd " = ["a", "bc", "d"] := by decide
example : pyStripSet "#P " "#P scrf\n" = "scrf\n" := by decide
example : pyStripSet "# t" "# tpsstpss\n" = "psstpss\n" := by decide
example : pyInt? " -42 " = some (-42) := by decide
example : pyFloat? "2.5e1" = some ⟨25, 0⟩ := by decide
example : pyFloat? "-0.25" = some ⟨-25, 2⟩ := by decide
example : pyFloat? "1 2" = none := by decide
example : pyFloat? "0.50" = some ⟨5, 1⟩ := by decide
example : fmtFixed 0 ⟨5, 1⟩ = "0" := by decide
example : fmtFixed 0 ⟨15, 1⟩ = "2" := by decide
example : fmtFixed 0 (decNeg ⟨4, 1⟩) = "-0" := by decide
example : fmtFixed 10 ⟨-25, 2⟩ = "-0.2500000000" := by decide
example : fmtFixed 10 ⟨0, 0⟩ = "0.0000000000" := by decide
example : fmtFixed 10 ⟨1, 11⟩ = "0.0000000000" := by decide
example : decRepr ⟨25, 1⟩ = "2.5" := by decide
example : decRepr ⟨3, 0⟩ = "3.0" := by decide
example : decRepr ⟨1, 3⟩ = "0.001" := by decide
example : decAdd ⟨5, 1⟩ ⟨5, 1⟩ = ⟨1, 0⟩ := by decide
example : toFileLines "a\n\nb" = ["a\n", "\n", "b"] := by decide
example : strContainsSub "freq readiso x" "readiso" = true := by decide
example : strContainsSub "numer" "readiso" = false := by decide

/-! ## Python values, dicts and exceptions -/

/-- A scalar Python value (the only element type the sources ever put
inside a list). -/
inductive PyLeaf where
  | pstr (s : String)
  | pint (n : Int)
  | pfloat (d : Dec)
  | pbool (b : Bool)
  | pnone
  deriving DecidableEq, Repr

/-- A Python value as it occurs in the parameter dictionaries of the
two sources: scalars and (flat) lists. -/
inductive PyVal where
  | pstr (s : String)
  | pint (n : Int)
  | pfloat (d : Dec)
  | pbool (b : Bool)
  | pnone
  | plist (xs : List PyLeaf)
  deriving DecidableEq, Repr

/-- Python truthiness. -/
def pyTruthy : PyVal → Bool
  | .pstr s => !s.isEmpty
  | .pint n => n ≠ 0
  | .pfloat d => !decIsZero d
  | .pbool b => b
  | .pnone => false
  | .plist xs => !xs.isEmpty

/-- Python `repr` of a scalar (used inside container renderings, where
strings get quotes). -/
def pyReprLeaf : PyLeaf → String
  | .pstr s => "'" ++ s ++ "'"
  | .pint n => intStr n
  | .pfloat d => decRepr d
  | .pbool b => if b then "True" else "False"
  | .pnone => "None"

/-- Python `str` of a value. -/
def pyStrOf : PyVal → String
  | .pstr s => s
  | .pint n => intStr n
  | .pfloat d => decRepr d
  | .pbool b => if b then "True" else "False"
  | .pnone => "None"
  | .plist xs => "[" ++ joinWith ", " (xs.map pyReprLeaf) ++ "]"

/-- An insertion-ordered Python dictionary with string keys. -/
abbrev PyDict := List (String × PyVal)

/-- `d[k]`, as an option. -/
def dictGet? (d : PyDict) (k : String) : Option PyVal :=
  (List.find? (fun p => p.1 = k) d).map Prod.snd

/-- `k in d`. -/
def dictContains (d : PyDict) (k : String) : Bool :=
  (dictGet? d k).isSome

/-- `d[k] = v`: replace in place if the key exists, else append (the
insertion-order behaviour of a Python dict). -/
def dictSet (d : PyDict) (k : String) (v : PyVal) : PyDict :=
  if dictContains d k then
    List.map (fun p => if p.1 = k then (k, v) else p) d
  else List.append d [(k, v)]

/-- Remove a key. -/
def dictRemove (d : PyDict) (k : String) : PyDict :=
  List.filter (fun p => p.1 ≠ k) d

/-- `d.pop(k, default)`-style removal returning the value. -/
def dictPop (d : PyDict) (k : String) : Option PyVal × PyDict :=
  (dictGet? d k, dictRemove d k)

/-- `d.update(kvs)` in the order of `kvs`. -/
def dictUpdateMany (d : PyDict) (kvs : List (String × PyVal)) : PyDict :=
  kvs.foldl (fun acc p => dictSet acc p.1 p.2) d

/-- The keys, in insertion order. -/
def dictKeys (d : PyDict) : List String := List.map Prod.fst d

/-- The values, in insertion order. -/
def dictValues (d : PyDict) : List PyVal := List.map Prod.snd d

/-- The Python exceptions these sources can raise. -/
inductive PyErr where
  | ioError (msg : String)
  | valueError (msg : String)
  | keyError (msg : String)
  | indexError
  | typeError (msg : String)
  | attributeError (msg : String)
  | inputError (msg : String)
  | fileNotFound (msg : String)
  deriving DecidableEq, Repr

instance {ε α : Type} [DecidableEq ε] [DecidableEq α] : DecidableEq (Except ε α) := fun x y =>
  match x, y with
  | .ok a, .ok b =>
    if h : a = b then .isTrue (congrArg Except.ok h)
    else .isFalse (fun he => h (Except.ok.inj he))
  | .error a, .error b =>
    if h : a = b then .isTrue (congrArg Except.error h)
    else .isFalse (fun he => h (Except.error.inj he))
  | .ok _, .error _ => .isFalse (fun he => Except.noConfusion he)
  | .error _, .ok _ => .isFalse (fun he => Except.noConfusion he)

/-! ## The input-file regular expressions of `ase/io/gaussian.py`

Each of the four anchored regexps used by `parse_gaussian_input`
(`_re_link0`, `_re_output_type`, `_re_chgmult`, `_re_method_basis`) is
embedded as a direct matching function.  Their character classes
exclude their own delimiters, so greedy maximal munch reproduces the
backtracking semantics exactly. -/

/-- The characters excluded by `_re_link0`'s classes: `[^\=\)\(!]`. -/
def isLink0Special (c : Char) : Bool :=
  c = '=' || c = ')' || c = '(' || c = '!'

/-- `_re_link0 = ^\s*%([^\=\)\(!]+)=?([^\=\)\(!]+)?(!.+)?`; returns
groups 1 and 2. -/
def reLink0Match (s : String) : Option (String × Option String) :=
  match s.data.dropWhile pyIsSpace with
  | '%' :: rest =>
    let g1 := rest.takeWhile (fun c => !isLink0Special c)
    if g1.isEmpty then none
    else
      let r1 := rest.drop g1.length
      let r2 := match r1 with
        | '=' :: t => t
        | t => t
      let g2 := r2.takeWhile (fun c => !isLink0Special c)
      some (String.mk g1, if g2.isEmpty then none else some (String.mk g2))
  | _ => none

/-- `_re_output_type = ^\s*#\s*([NPTnpt]?)\s*`; returns (group 0,
group 1). -/
def reOutputTypeMatch (s : String) : Option (String × String) :=
  let l := s.data
  let ws1 := l.takeWhile pyIsSpace
  match l.drop ws1.length with
  | '#' :: r2 =>
    let ws2 := r2.takeWhile pyIsSpace
    let r3 := r2.drop ws2.length
    let g1r : List Char × List Char :=
      match r3 with
      | c :: t =>
        if (['N', 'P', 'T', 'n', 'p', 't'].contains c) then ([c], t) else ([], r3)
      | [] => ([], [])
    let ws3 := g1r.2.takeWhile pyIsSpace
    some (String.mk (ws1 ++ ['#'] ++ ws2 ++ g1r.1 ++ ws3), String.mk g1r.1)
  | _ => none

/-- `_re_chgmult = ^\s*[+-]?\d+(?:,\s*|\s+)[+-]?\d+\s*$` as a
predicate (its group 0 is the whole line). -/
def reChgMultMatch (s : String) : Bool :=
  let l := s.data.dropWhile pyIsSpace
  let l := match l with
    | '+' :: t => t
    | '-' :: t => t
    | t => t
  let d1 := l.takeWhile Char.isDigit
  if d1.isEmpty then false
  else
    let r1 := l.drop d1.length
    let sepR : Option (List Char) :=
      match r1 with
      | ',' :: t => some (t.dropWhile pyIsSpace)
      | c :: t => if pyIsSpace c then some ((c :: t).dropWhile pyIsSpace) else none
      | [] => none
    match sepR with
    | none => false
    | some r2 =>
      let r2 := match r2 with
        | '+' :: t => t
        | '-' :: t => t
        | t => t
      let d2 := r2.takeWhile Char.isDigit
      !d2.isEmpty && (r2.drop d2.length).all pyIsSpace

/-- Python's `\w`. -/
def isWordChar (c : Char) : Bool := c.isAlphanum || c = '_'

/-- `_re_method_basis = \s*([\w-]+)\s*\/([^/=!]+)([\/]([^!]+))?\s*(!.+)?`;
returns groups 1, 2, 4, 5. -/
def reMethodBasisMatch (s : String) :
    Option (String × String × Option String × Option String) :=
  let l := s.data.dropWhile pyIsSpace
  let g1 := l.takeWhile (fun c => isWordChar c || c = '-')
  if g1.isEmpty then none
  else
    match (l.drop g1.length).dropWhile pyIsSpace with
    | '/' :: r2 =>
      let g2 := r2.takeWhile (fun c => !(c = '/' || c = '=' || c = '!'))
      if g2.isEmpty then none
      else
        let r3 := r2.drop g2.length
        let g4r : Option (List Char) × List Char :=
          match r3 with
          | '/' :: r4 =>
            let g4 := r4.takeWhile (fun c => c ≠ '!')
            if g4.isEmpty then (none, r3) else (some g4, r4.drop g4.length)
          | _ => (none, r3)
        let r5 := g4r.2.dropWhile pyIsSpace
        let g5 : Option (List Char) :=
          match r5 with
          | '!' :: r6 =>
            let g5b := r6.takeWhile (fun c => c ≠ '\n')
            if g5b.isEmpty then none else some ('!' :: g5b)
          | _ => none
        some (String.mk g1, String.mk g2, g4r.1.map String.mk, g5.map String.mk)
    | _ => none

example : reLink0Match "%chk=file.chk\n" = some ("chk", some "file.chk\n") := by decide
example : reLink0Match " % mem = 1GB\n" = some (" mem ", some " 1GB\n") := by decide
example : reLink0Match "#P b3lyp\n" = none := by decide
example : reOutputTypeMatch "#P b3lyp/sto-3g\n" = some ("#P ", "P") := by decide
example : reOutputTypeMatch "# tpsstpss\n" = some ("# t", "t") := by decide
example : reChgMultMatch "0 1\n" = true := by decide
example : reChgMultMatch "-1,  3\n" = true := by decide
example : reChgMultMatch "0 1 2\n" = false := by decide
example : reChgMultMatch "0.0 1\n" = false := by decide
example : reMethodBasisMatch "B3LYP/6-31G ! ASE formatted method and basis\n" =
    some ("B3LYP", "6-31G ", none, some "! ASE formatted method and basis") := by decide
example : reMethodBasisMatch "m/b/fit ! ASE formatted method and basis\n" =
    some ("m", "b", some "fit ", some "! ASE formatted method and basis") := by decide
example : reMethodBasisMatch "opt freq b3lyp/sto\n" = none := by decide

/-! ## Route-section keyword machinery (`_get_route_params` and friends) -/

/-- Non-overlapping matches of `\(([^\)]+)\)`, left to right, as
`(start, end, group 1)` triples (fuel-driven scan; on a failed match
attempt the scan advances one character, as the `re` engine does). -/
def parenMatchesGo : Nat → Nat → List Char → List (Nat × Nat × String)
  | 0, _, _ => []
  | _, _, [] => []
  | fuel + 1, i, c :: cs =>
    if c = '(' then
      let inner := cs.takeWhile (fun x => x ≠ ')')
      match cs.drop inner.length with
      | ')' :: tail =>
        if inner.isEmpty then parenMatchesGo fuel (i + 1) cs
        else (i, i + inner.length + 2, String.mk inner) ::
          parenMatchesGo fuel (i + inner.length + 2) tail
      | _ => parenMatchesGo fuel (i + 1) cs
    else parenMatchesGo fuel (i + 1) cs

/-- All `\(([^\)]+)\)` matches in a string. -/
def parenMatches (s : String) : List (Nat × Nat × String) :=
  parenMatchesGo (s.length + 1) 0 s.data

/-- The separator class of `[^\,/\s]+`. -/
def isTokSep (c : Char) : Bool := c = ',' || c = '/' || pyIsSpace c

/-- Worker for `tokensPos`. -/
def tokensPosGo : Nat → Option (Nat × List Char) → List Char → List (Nat × String)
  | _, some (st, acc), [] => [(st, String.mk acc.reverse)]
  | _, none, [] => []
  | i, cur, c :: cs =>
    if isTokSep c then
      match cur with
      | some (st, acc) => (st, String.mk acc.reverse) :: tokensPosGo (i + 1) none cs
      | none => tokensPosGo (i + 1) none cs
    else
      match cur with
      | some (st, acc) => tokensPosGo (i + 1) (some (st, c :: acc)) cs
      | none => tokensPosGo (i + 1) (some (i, [c])) cs

/-- `re.finditer(r'[^\,/\s]+', s)` as `(start, token)` pairs. -/
def tokensPos (s : String) : List (Nat × String) := tokensPosGo 0 none s.data

/-- `re.sub(r'\s*=\s*', '=', ·)` worker. -/
def subEqGo : Nat → List Char → List Char
  | 0, l => l
  | _ + 1, [] => []
  | fuel + 1, l =>
    let ws := l.takeWhile pyIsSpace
    match l.drop ws.length with
    | '=' :: t => '=' :: subEqGo fuel (t.dropWhile pyIsSpace)
    | rest =>
      if ws.isEmpty then
        match l with
        | c :: t => c :: subEqGo fuel t
        | [] => []
      else ws ++ subEqGo fuel rest

/-- `re.sub(r'\s*=\s*', '=', s)`: collapse whitespace around equals. -/
def subEqCollapse (s : String) : String := String.mk (subEqGo (s.length + 1) s.data)

/-- `re.split(r'[\s,\/]', ·)` worker (keeps empty pieces, as `re.split`
does; the caller filters them). -/
def splitSepsGo : List Char → List Char → List String
  | acc, [] => [String.mk acc.reverse]
  | acc, c :: cs =>
    if isTokSep c then String.mk acc.reverse :: splitSepsGo [] cs
    else splitSepsGo (c :: acc) cs

/-- `re.match(r'([A-Za-z]+)', s)`: the leading alphabetic run. -/
def alphaRunStart (s : String) : Option String :=
  let r := s.data.takeWhile (fun c => c.isAlpha)
  if r.isEmpty then none else some (String.mk r)

/-- Remove the first occurrence (`list.remove`, caller checks presence). -/
def removeFirst : List String → String → List String
  | [], _ => []
  | x :: xs, y => if x = y then xs else x :: removeFirst xs y

example : parenMatches "opt(tight) freq(readiso)x" =
    [(3, 10, "tight"), (15, 24, "readiso")] := by decide
example : tokensPos "a bc,=/d" = [(0, "a"), (2, "bc"), (5, "="), (7, "d")] := by decide
example : subEqCollapse "a = b =c" = "a=b=c" := by decide

/-! ## `ase/io/gaussian.py` helper functions -/

/-- `ase.data.chemical_symbols` (external toolkit data, given). -/
def chemicalSymbols : List String :=
  ["X", "H", "He", "Li", "Be", "B", "C", "N", "O", "F", "Ne",
   "Na", "Mg", "Al", "Si", "P", "S", "Cl", "Ar",
   "K", "Ca", "Sc", "Ti", "V", "Cr", "Mn", "Fe", "Co", "Ni", "Cu", "Zn",
   "Ga", "Ge", "As", "Se", "Br", "Kr",
   "Rb", "Sr", "Y", "Zr", "Nb", "Mo", "Tc", "Ru", "Rh", "Pd", "Ag", "Cd",
   "In", "Sn", "Sb", "Te", "I", "Xe",
   "Cs", "Ba", "La", "Ce", "Pr", "Nd", "Pm", "Sm", "Eu", "Gd", "Tb", "Dy",
   "Ho", "Er", "Tm", "Yb", "Lu",
   "Hf", "Ta", "W", "Re", "Os", "Ir", "Pt", "Au", "Hg",
   "Tl", "Pb", "Bi", "Po", "At", "Rn",
   "Fr", "Ra", "Ac", "Th", "Pa", "U", "Np", "Pu", "Am", "Cm", "Bk", "Cf",
   "Es", "Fm", "Md", "No", "Lr",
   "Rf", "Db", "Sg", "Bh", "Hs", "Mt", "Ds", "Rg", "Cn", "Nh", "Fl", "Mc",
   "Lv", "Ts", "Og"]

/-- `_save_link0_param`: store a link0 keyword (lowercased, stripped)
with its stripped value (or `None`). -/
def saveLink0Param (g1 : String) (g2 : Option String) (parameters : PyDict) : PyDict :=
  let value : PyVal := match g2 with
    | some v => .pstr (pyStripWS v)
    | none => .pnone
  dictSet parameters (pyStripWS (pyLower g1)) value

/-- `_validate_symbol_string`. -/
def validateSymbolString (s : String) : Except PyErr String :=
  if strContainsSub s "-" then
    .error (.ioError "molecule specifications for molecular mechanics calculations are not supported")
  else .ok s

/-- `_convert_to_symbol`: strip digits from a symbol string, or map an
atomic number to its chemical symbol. -/
def convertToSymbol (s : String) : Except PyErr String := do
  let symbol ← validateSymbolString s
  if pyIsNumeric symbol then
    match chemicalSymbols.get? (digitsVal symbol.data) with
    | some sym => .ok sym
    | none => .error .indexError
  else
    match alphaRunStart symbol with
    | some g => .ok g
    | none => .error (.attributeError "group")

/-- `_get_route_params`: keywords and options of one route line. -/
def getRouteParams (line : String) : Except PyErr PyDict := do
  let line := pyStripSet " #" line
  let line := (splitOnStr "!" line).headD ""
  let ms := parenMatches line
  let step : (PyDict × List (Nat × Nat)) → (Nat × Nat × String) →
      Except PyErr (PyDict × List (Nat × Nat)) := fun acc m => do
    let kwString := String.mk (line.data.take m.1)
    let kwToks := (tokensPos kwString).filter (fun t => t.2 ≠ "=")
    match kwToks.getLast? with
    | none => .error .indexError
    | some (st, tokStr) =>
      let keyword := pyStripSet " =" tokStr
      .ok (dictSet acc.1 (pyLower keyword) (.pstr m.2.2), acc.2 ++ [(st, m.2.1)])
  let r ← ms.foldlM step (([] : PyDict), ([] : List (Nat × Nat)))
  let params := r.1
  let line := (r.2.reverse).foldl (fun (l : String) (rg : Nat × Nat) =>
      String.mk (l.data.take rg.1 ++ l.data.drop (rg.2 + 1))) line
  let line := subEqCollapse line
  let parts := (splitSepsGo [] line.data).filter (fun x => x ≠ "")
  let params := parts.foldl (fun (p : PyDict) s =>
      if strContainsSub s "=" then
        let pieces := splitOnStr "=" s
        let keyword := pieces.headD ""
        let options := joinWith "=" (pieces.drop 1)
        dictSet p (pyLower keyword) (.pstr options)
      else if s.length > 0 then dictSet p (pyLower s) .pnone else p) params
  .ok params

/-- `_save_route_params`: the `method/basis[/fitting] ! ASE formatted
method and basis` special form, else `_get_route_params`. -/
def saveRouteParams (line : String) (parameters : PyDict) : Except PyErr PyDict := do
  let special : Option PyDict :=
    match reMethodBasisMatch line with
    | some (g1, g2, g4, g5) =>
      if g5 = some "! ASE formatted method and basis" then
        let p := dictSet parameters "method" (.pstr (pyStripWS g1))
        let p := dictSet p "basis" (.pstr (pyStripWS g2))
        let p := match g4 with
          | some v => dictSet p "fitting_basis" (.pstr (pyStripWS v))
          | none => p
        some p
      else none
    | none => none
  match special with
  | some p => .ok p
  | none => do
    let kvs ← getRouteParams line
    .ok (dictUpdateMany parameters kvs)

/-- The seven `_nuclei_prop_array_names`. -/
def nucleiPropNames : List String :=
  ["spin", "zeff", "qmom", "nmagm", "znuc", "radnuclear", "iso"]

/-- `_save_nuclei_props`: read any parenthesised per-atom properties,
return the cleaned line, the symbol, the whitespace tokens and the
updated property arrays. -/
def saveNucleiProps (line : String) (nuclei : List (String × List PyLeaf)) :
    Except PyErr (String × String × List String × List (String × List PyLeaf)) := do
  let res ← (do
    match (parenMatches line).head? with
    | some m =>
      let g0 := String.mk ((line.data.drop m.1).take (m.2.1 - m.1))
      let line := replaceAll line g0 ""
      let tokens := pySplitWS line
      match tokens.head? with
      | none => .error PyErr.indexError
      | some t0 => do
        let symbol ← convertToSymbol t0
        let cur ← getRouteParams m.2.2
        let curConv ← cur.foldlM (fun (acc : List (String × PyLeaf)) kv => do
            match kv.2 with
            | .pstr v =>
              if pyIsNumeric v then
                .ok (acc ++ [(pyLower kv.1, PyLeaf.pint (digitsVal v.data))])
              else
                match pyFloat? v with
                | some d => .ok (acc ++ [(pyLower kv.1, PyLeaf.pfloat d)])
                | none => .error (PyErr.valueError "could not convert string to float")
            | _ => .error (PyErr.attributeError "isnumeric")) []
        .ok (line, symbol, tokens, curConv)
    | none =>
      let tokens := pySplitWS line
      match tokens.head? with
      | none => .error PyErr.indexError
      | some t0 => do
        let symbol ← convertToSymbol t0
        .ok (line, symbol, tokens, ([] : List (String × PyLeaf))))
  let (line, symbol, tokens, curConv) := res
  if pyUpper symbol ≠ "TV" then
    let upd := nuclei.map (fun p =>
      match curConv.find? (fun q => q.1 = p.1) with
      | some q => (p.1, p.2 ++ [q.2])
      | none => (p.1, p.2 ++ [PyLeaf.pnone]))
    .ok (line, symbol, tokens, upd)
  else
    .ok (line, symbol, tokens, nuclei)

/-- `_add_nuclei_props_to_params`: each property array with a set value
becomes a parameter. -/
def addNucleiPropsToParams (parameters : PyDict) (nuclei : List (String × List PyLeaf)) : PyDict :=
  nuclei.foldl (fun (p : PyDict) kv =>
    if kv.2.any (fun v => v ≠ PyLeaf.pnone) then dictSet p kv.1 (.plist kv.2) else p)
    parameters

/-- `_get_readiso_param`.  Its source condition on line 520,
`if 'readiso' or 'readisotopes' in freq_options:`, is the constant
truthy string `'readiso'`, so it is always taken; the embedding
reproduces that faithfully. -/
def getReadisoParam (parameters : PyDict) : Except PyErr (Option (String × String)) :=
  let fo1 : PyVal := (dictGet? parameters "freq").getD .pnone
  let nameAndOpts : String × PyVal :=
    if pyTruthy fo1 then ("freq", fo1)
    else ("frequency", (dictGet? parameters "frequency").getD .pnone)
  match nameAndOpts.2 with
  | .pnone => .ok none
  | .pstr s => .ok (some (nameAndOpts.1, pyLower s))
  | _ => .error (.attributeError "lower")

/-- `_save_readiso_info`: store temperature / pressure / scale from the
first ReadIso line (partial updates survive the caught `IndexError`).
Returns whether the readiso parameter was present. -/
def saveReadisoInfo (line : String) (parameters : PyDict) :
    Except PyErr (Bool × PyDict) := do
  let fp ← getReadisoParam parameters
  match fp with
  | none => .ok (false, parameters)
  | some _ =>
    let line := replaceAll (replaceAll line "[" "") "]" ""
    let tokens := pySplitWS (pyStripWS line)
    match tokens with
    | [] => .ok (true, parameters)
    | [t0] => .ok (true, dictSet parameters "temperature" (.pstr t0))
    | [t0, t1] =>
      .ok (true, dictSet (dictSet parameters "temperature" (.pstr t0)) "pressure" (.pstr t1))
    | t0 :: t1 :: t2 :: _ =>
      .ok (true, dictSet (dictSet (dictSet parameters "temperature" (.pstr t0))
        "pressure" (.pstr t1)) "scale" (.pstr t2))

/-- `_delete_readiso_param`: remove `readiso`/`readisotopes` from the
frequency options (`list.remove` raises `ValueError` when absent). -/
def deleteReadisoParam (parameters : PyDict) : Except PyErr PyDict := do
  let fp ← getReadisoParam parameters
  match fp with
  | none => .ok parameters
  | some (freqName, freqOptions) =>
    let fo := pyLower freqOptions
    let isoName := if strContainsSub fo "readisotopes" then "readisotopes" else "readiso"
    let toks := (tokensPos fo).map Prod.snd
    if toks.contains isoName then
      let toks := removeFirst toks isoName
      let joined := joinWith "" (toks.map (fun t => t ++ " "))
      let v : PyVal := if joined = "" then .pnone else .pstr (pyStripWS joined)
      .ok (dictSet parameters freqName v)
    else .error (.valueError "list.remove(x): x not in list")

/-- `_validate_params`: reject unsupported settings, replace a `POpt`
key by `Opt`. -/
def validateParams (parameters : PyDict) : Except PyErr PyDict :=
  let unsupported := ["Z-matrix", "ModRedun", "AddRedun", "ReadOpt", "RdOpt"]
  if unsupported.any (fun s => (dictValues parameters).any (fun v =>
      v ≠ PyVal.pnone && strContainsSub (pyLower (pyStrOf v)) (pyLower s))) then
    .error (.ioError "unsupported option")
  else
    match (dictKeys parameters).find? (fun k => strContainsSub (pyLower k) "popt") with
    | some k =>
      let v := (dictGet? parameters k).getD .pnone
      .ok (dictSet (dictRemove parameters k) "Opt" v)
    | none => .ok parameters

example : getRouteParams "opt(tight) freq=readiso scrf\n" =
    .ok [("opt", .pstr "tight"), ("freq", .pstr "readiso"), ("scrf", .pnone)] := by decide
example : getRouteParams "#P b3lyp 6-31g\n" =
    .ok [("p", .pnone), ("b3lyp", .pnone), ("6-31g", .pnone)] := by decide
example : saveRouteParams "B3LYP/6-31G ! ASE formatted method and basis\n" [] =
    .ok [("method", .pstr "B3LYP"), ("basis", .pstr "6-31G")] := by decide
example : convertToSymbol "H" = .ok "H" := by decide
example : convertToSymbol "8" = .ok "O" := by decide
example : convertToSymbol "C12" = .ok "C" := by decide
example : getReadisoParam [("freq", .pstr "numer")] = .ok (some ("freq", "numer")) := by decide

/-! ## `GaussianConfiguration.parse_gaussian_input` -/

/-- The type of the external z-matrix reader
`ase.io.zmatrix.parse_zmatrix` (contents, optional variable
definitions; result is the atoms' symbols and positions, or a
`ValueError`/`KeyError`). -/
def ZmatFn : Type := String → Option String → Except PyErr (List (String × (Dec × Dec × Dec)))

/-- `_read_zmatrix`: call the external reader, translating its
`ValueError`/`KeyError` into `IOError`; returns (positions, symbols). -/
def readZmatrix (pz : ZmatFn) (contents vars : String) :
    Except PyErr (List (Dec × Dec × Dec) × List String) :=
  let res := if vars.length > 0 then pz contents (some vars) else pz contents none
  match res with
  | .ok atoms => .ok (atoms.map (fun a => a.2), atoms.map (fun a => a.1))
  | .error (.valueError m) =>
    .error (.ioError ("Failed to read Z-matrix from Gaussian input file: " ++ m))
  | .error (.keyError m) =>
    .error (.ioError ("Failed to read Z-matrix from Gaussian input file, symbol: " ++ m))
  | .error e => .error e

/-- Modelled from the spec: `ase.io.zmatrix.parse_zmatrix` is code of
this repository that is not among the two source files under
verification; the spec records only that z-matrix molecule
specifications (their variables section included) are converted into
atomic symbols and positions.  The model returns one atom per nonblank
z-matrix line: its symbol is the leading alphabetic run of the line's
first token (an unrecognisable symbol raises `KeyError`), its position
is left at the origin. -/
def pzModel : ZmatFn := fun contents _ =>
  let lines := ((toFileLines contents).map pyStripWS).filter (fun l => l ≠ "")
  lines.mapM (fun l =>
    match pySplitWS l with
    | [] => .error (.valueError "empty z-matrix line")
    | t :: _ =>
      match alphaRunStart t with
      | some sym => .ok (sym, ((0 : Dec), (0 : Dec), (0 : Dec)))
      | none => .error (.keyError t))

/-- The loop state of `parse_gaussian_input` (its local variables). -/
structure GParseSt where
  parameters : PyDict
  route_section : Bool
  atoms_section : Bool
  atoms_saved : Bool
  readiso : Option (String × String)
  count_iso : Nat
  nuclei_props : List (String × List PyLeaf)
  symbols : List String
  positions : List (Dec × Dec × Dec)
  pbc : List Bool
  cell : List (Dec × Dec × Dec)
  npbc : Nat
  zmatrix_type : Bool
  zmatrix_contents : String
  zmatrix_var_section : Bool
  zmatrix_vars : String
  basis_set : String
  deriving DecidableEq, Repr

/-- The initial loop state. -/
def initGParseSt : GParseSt where
  parameters := []
  route_section := false
  atoms_section := false
  atoms_saved := false
  readiso := none
  count_iso := 0
  nuclei_props := nucleiPropNames.map (fun k => (k, []))
  symbols := []
  positions := []
  pbc := [false, false, false]
  cell := [((0 : Dec), (0 : Dec), (0 : Dec)), (0, 0, 0), (0, 0, 0)]
  npbc := 0
  zmatrix_type := false
  zmatrix_contents := ""
  zmatrix_var_section := false
  zmatrix_vars := ""
  basis_set := ""

/-- The `line.split('!')[0].replace('/', ' ').replace(',', ' ')`
rebinding at the head of the `elif atoms_section:` branch. -/
def asLineA (line0 : String) : String :=
  replaceAll (replaceAll ((splitOnStr "!" line0).headD "") "/" " ") "," " "

/-- The `elif atoms_section:` branch of the loop.  Returns the updated
state, the rebound `line`, and whether `continue` was executed. -/
def atomsSectionStep (st : GParseSt) (line0 : String) :
    Except PyErr (GParseSt × String × Bool) :=
  if (pySplitWS (asLineA line0)).isEmpty then .ok (st, asLineA line0, false)
  else if st.zmatrix_type && st.zmatrix_var_section then
    .ok ({ st with zmatrix_vars := st.zmatrix_vars ++ pyStripWS (asLineA line0) ++ "\n" },
         asLineA line0, true)
  else if st.zmatrix_type && strContainsSub (pyLower (asLineA line0)) "variables" then
    .ok ({ st with zmatrix_var_section := true }, asLineA line0, true)
  else if st.zmatrix_type && strContainsSub (pyLower (asLineA line0)) "constants" then
    .ok (st, asLineA line0, true)
  else do
    let r ← saveNucleiProps (asLineA line0) st.nuclei_props
    let (lineB, symbol, tokens, nuclei') := r
    let st := { st with nuclei_props := nuclei' }
    if !st.zmatrix_type then
      let pos := tokens.drop 1
      if pos.length < 3 || (pos.headD "" = "0" && symbol ≠ "TV") then
        let st := { st with zmatrix_type := true, zmatrix_contents := st.zmatrix_contents ++ pyStripWS lineB ++ "\n" }
        if pyUpper symbol = "TV" then
          if st.npbc < 3 then
            match pos.mapM pyFloat? with
            | none => .error (.valueError "could not convert string to float")
            | some vs =>
              match vs with
              | [v] => .ok ({ st with pbc := st.pbc.set st.npbc true, cell := st.cell.set st.npbc (v, v, v), npbc := st.npbc + 1, atoms_saved := true }, lineB, false)
              | [v1, v2, v3] => .ok ({ st with pbc := st.pbc.set st.npbc true, cell := st.cell.set st.npbc (v1, v2, v3), npbc := st.npbc + 1, atoms_saved := true }, lineB, false)
              | _ => .error (.valueError "could not broadcast input array")
          else .error .indexError
        else .ok ({ st with atoms_saved := true }, lineB, false)
      else if pos.length > 3 then
        .error (.ioError "freeze codes are not supported")
      else do
        let posv ← match pos.mapM pyFloat? with
          | some l => Except.ok l
          | none => Except.error (PyErr.ioError
              "Molecule specification in Gaussian input file could not be read")
        match posv with
        | [x, y, z] =>
          if pyUpper symbol = "TV" then
            if st.npbc < 3 then
              .ok ({ st with pbc := st.pbc.set st.npbc true, cell := st.cell.set st.npbc (x, y, z), npbc := st.npbc + 1, atoms_saved := true }, lineB, false)
            else .error .indexError
          else
            .ok ({ st with symbols := st.symbols ++ [symbol], positions := st.positions ++ [(x, y, z)], atoms_saved := true }, lineB, false)
        | _ => .error .indexError
    else
      let lineList := pySplitWS lineB
      if lineList.length = 8 && lineList.get? 7 = some "1" then
        .error (.ioError "the alternative Z-matrix format using two bond angles instead of a bond angle and a dihedral angle is not supported")
      else
        .ok ({ st with zmatrix_contents := st.zmatrix_contents ++ pyStripWS lineB ++ "\n", atoms_saved := true }, lineB, false)

/-- The `elif atoms_saved:` branch of the loop. -/
def atomsSavedStep (pz : ZmatFn) (st : GParseSt) (line0 : String) :
    Except PyErr (GParseSt × String × Bool) := do
  let st ← (if st.positions.length = 0 && st.zmatrix_type then do
      let r ← readZmatrix pz st.zmatrix_contents st.zmatrix_vars
      pure { st with positions := r.1, symbols := r.2 }
    else pure st)
  let tks := pySplitWS line0
  if tks.head? = some "!" then .ok (st, line0, true)
  else
    let line1 := if tks.isEmpty then line0 else (splitOnStr "!" (pyStripWS line0)).headD ""
    let readiso' ← getReadisoParam st.parameters
    let st := { st with readiso := readiso' }
    if line1.length > 0 && line1.data.headD ' ' = '@' then
      .ok ({ st with parameters := dictSet st.parameters "basisfile" (.pstr line1) }, line1, false)
    else if readiso'.isSome && st.count_iso < st.symbols.length + 1 then
      if st.count_iso = 0 then do
        let r ← saveReadisoInfo line1 st.parameters
        .ok ({ st with parameters := dictSet r.2 "iso" (.plist []), count_iso := 1 }, line1, false)
      else
        match dictGet? st.parameters "iso" with
        | some (.plist xs) =>
          let v : PyLeaf := match pyFloat? line1 with
            | some d => .pfloat d
            | none => .pnone
          .ok ({ st with parameters := dictSet st.parameters "iso" (.plist (xs ++ [v])), count_iso := st.count_iso + 1 }, line1, false)
        | some _ => .error (.attributeError "append")
        | none => .error (.keyError "iso")
    else
      match (dictGet? st.parameters "basis").getD (.pstr "") with
      | .pstr bs =>
        if pyLower bs = "gen" || dictContains st.parameters "gen" then
          if pyStripWS line1 ≠ "" then
            .ok ({ st with basis_set := st.basis_set ++ line1 ++ "\n" }, line1, false)
          else .ok (st, line1, false)
        else .ok (st, line1, false)
      | _ => .error (.attributeError "lower")

/-- One iteration of the `for line in fd` loop of
`parse_gaussian_input`. -/
def processLine (pz : ZmatFn) (st : GParseSt) (line0 : String) : Except PyErr GParseSt := do
  let link0M := reLink0Match line0
  let outputM := reOutputTypeMatch line0
  let chgM := reChgMultMatch line0
  let chainRes : Except PyErr (GParseSt × String × Bool) :=
    if line0 = "\n" && st.readiso = none then
      .ok ({ st with route_section := false, atoms_section := false }, line0, false)
    else
      match link0M with
      | some (g1, g2) =>
        .ok ({ st with parameters := saveLink0Param g1 g2 st.parameters }, line0, false)
      | none =>
        match outputM, (!st.route_section : Bool) with
        | some (g0, g1), true =>
          .ok ({ st with route_section := true, parameters := dictSet st.parameters "output_type" (.pstr g1) },
               pyStripSet g0 line0, false)
        | _, _ =>
          if chgM then
            let toks := pySplitWS line0
            match toks.get? 0 with
            | none => .error .indexError
            | some t0 =>
              match pyInt? t0 with
              | none => .error (.valueError "invalid literal for int")
              | some c =>
                match toks.get? 1 with
                | none => .error .indexError
                | some t1 =>
                  match pyInt? t1 with
                  | none => .error (.valueError "invalid literal for int")
                  | some m =>
                    .ok ({ st with parameters := dictSet (dictSet st.parameters "charge" (.pint c)) "mult" (.pint m), atoms_section := true }, line0, false)
          else if st.atoms_section then atomsSectionStep st line0
          else if st.atoms_saved then atomsSavedStep pz st line0
          else .ok (st, line0, false)
  let r ← chainRes
  let (st1, line1, skipped) := r
  if skipped then .ok st1
  else if st1.route_section then do
    let p ← saveRouteParams line1 st1.parameters
    .ok { st1 with parameters := p }
  else .ok st1

/-- The atoms object built by the parser. -/
structure GAtomsOut where
  symbols : List String
  positions : List (Dec × Dec × Dec)
  pbc : List Bool
  cell : List (Dec × Dec × Dec)
  deriving DecidableEq, Repr

/-- The parser's result (`GaussianConfiguration`). -/
structure GConfigIn where
  atoms : GAtomsOut
  parameters : PyDict
  deriving DecidableEq, Repr

/-- The loop of `parse_gaussian_input` over the file's lines. -/
def parseCore (pz : ZmatFn) (lines : List String) : Except PyErr GParseSt :=
  lines.foldlM (processLine pz) initGParseSt

/-- Everything `parse_gaussian_input` does after its loop:
`_validate_params`, readiso deletion with the `iso` length fix-up, the
`basis_set` parameters, the `Atoms` construction (whose
`IndexError`/`ValueError`/`KeyError` become `IOError`) and
`_add_nuclei_props_to_params`. -/
def parsePost (st : GParseSt) : Except PyErr GConfigIn := do
  let parameters ← validateParams st.parameters
  let parameters ← (match st.readiso with
    | some _ => do
      let p ← deleteReadisoParam parameters
      match dictGet? p "iso" with
      | some (.plist xs) =>
        let n := st.symbols.length
        let xs := if xs.length < n then xs ++ List.replicate (n - xs.length) PyLeaf.pnone
                  else if n < xs.length then xs.take n else xs
        pure (dictSet p "iso" (.plist xs))
      | some (.pstr str) =>
        let n := st.symbols.length
        if str.length < n then Except.error (PyErr.attributeError "append")
        else if n < str.length then
          pure (dictSet p "iso" (.pstr (String.mk (str.data.take n))))
        else pure p
      | some _ => Except.error (PyErr.typeError "len")
      | none => Except.error (PyErr.keyError "iso")
    | none => pure parameters)
  let parameters := if st.basis_set ≠ "" then
      dictRemove (dictSet (dictSet parameters "basis_set" (.pstr st.basis_set))
        "basis" (.pstr "gen")) "gen"
    else parameters
  if st.symbols.length ≠ st.positions.length then
    .error (.ioError "Could not read the Gaussian input file, due to a problem with the molecule specification")
  else if !(st.symbols.all (fun s => chemicalSymbols.contains s)) then
    .error (.ioError "Could not read the Gaussian input file, due to a problem with the molecule specification")
  else
    let parameters := addNucleiPropsToParams parameters st.nuclei_props
    .ok { atoms := { symbols := st.symbols, positions := st.positions,
                     pbc := st.pbc, cell := st.cell },
          parameters := parameters }

/-- `GaussianConfiguration.parse_gaussian_input`. -/
def parseGaussianInput (pz : ZmatFn) (lines : List String) : Except PyErr GConfigIn :=
  parseCore pz lines >>= parsePost

/-- `read_gaussian_in` without a calculator: the atoms object read from
the file. -/
def readGaussianIn (pz : ZmatFn) (lines : List String) : Except PyErr GAtomsOut :=
  (parseGaussianInput pz lines).map (fun c => c.atoms)

/-! ## `write_gaussian_in` -/

/-- The writer's view of an `Atoms` object: symbols, positions, cell,
periodic flags, masses, initial charges, initial magnetic moments. -/
structure MAtoms where
  symbols : List String
  positions : List (Dec × Dec × Dec)
  pbc : List Bool
  cell : List (Dec × Dec × Dec)
  masses : List Dec
  initial_charges : List Dec
  initial_magmoms : List Dec
  deriving DecidableEq, Repr

/-- `_xc_to_method`. -/
def xcToMethod : List (String × String) :=
  [("pbe", "pbepbe"), ("pbe0", "pbe1pbe"), ("hse06", "hseh1pbe"),
   ("hse03", "ohse2pbe"), ("lda", "svwn"), ("tpss", "tpsstpss"),
   ("revtpss", "revtpssrevtpss")]

/-- `_link0_keys`. -/
def link0Keys : List String :=
  ["mem", "chk", "oldchk", "schk", "rwf", "oldmatrix", "oldrawmatrix",
   "int", "d2e", "save", "nosave", "errorsave", "cpu", "nprocshared",
   "gpucpu", "lindaworkers", "usessh", "ssh", "debuglinda"]

/-- `_link0_special`. -/
def link0Special : List String := ["kjob", "subst"]

/-- Python `str` of a scalar. -/
def pyStrOfLeaf : PyLeaf → String
  | .pstr s => s
  | .pint n => intStr n
  | .pfloat d => decRepr d
  | .pbool b => if b then "True" else "False"
  | .pnone => "None"

/-- `'{:.0f}'.format(v)` on the value types Python's `format` accepts
there. -/
def pyFmtDotZeroF (v : PyVal) : Except PyErr String :=
  match v with
  | .pint n => .ok (fmtFixed 0 (decOfInt n))
  | .pfloat d => .ok (fmtFixed 0 d)
  | .pbool b => .ok (fmtFixed 0 (decOfInt (if b then 1 else 0)))
  | _ => .error (.typeError "unsupported format string passed to str")

/-- `sep.join(xs)` over list elements (each must be a string). -/
def joinLeavesWith (sep : String) (xs : List PyLeaf) : Except PyErr String := do
  let ss ← xs.mapM (fun leaf =>
    match leaf with
    | .pstr s => Except.ok s
    | _ => Except.error (PyErr.typeError "sequence item: expected str instance"))
  .ok (joinWith sep ss)

/-- Value equality of decimals (Python `==` on floats). -/
def decEqv (a b : Dec) : Bool := decIsZero (decSub a b)

/-- One line of the molecule-specification block written by
`write_gaussian_in` (source lines 224-264): nuclear properties and a
changed mass go into `symbol(...)`, then the three position fields. -/
def buildAtomLine (massesTable : Nat → Dec) (nuclei : List (String × PyVal))
    (atoms : MAtoms) (i : Nat) : Except PyErr String := do
  let symbol ← match atoms.symbols.get? i with
    | some s => Except.ok s
    | none => Except.error PyErr.indexError
  let r ← nuclei.foldlM (fun (acc : String × Bool) kv => do
      if kv.2 = PyVal.pnone then pure acc
      else
        match kv.2 with
        | .plist xs =>
          match xs.get? i with
          | some leaf =>
            if leaf = PyLeaf.pnone then pure acc
            else pure (acc.1 ++ kv.1 ++ "=" ++ pyStrOfLeaf leaf ++ ", ", true)
          | none => throw PyErr.indexError
        | _ => throw (PyErr.typeError "not subscriptable"))
    (symbol ++ "(", false)
  let mass ← match atoms.masses.get? i with
    | some m => Except.ok m
    | none => Except.error PyErr.indexError
  let expected : Option Dec := (chemicalSymbols.indexOf? symbol).map massesTable
  let massSet : Bool := match expected with
    | none => true
    | some t => !decEqv t mass
  let sec := if massSet then r.1 ++ "iso=" ++ decRepr mass else r.1
  let sec := if r.2 || massSet then pyStripSet ", " sec ++ ")" else pyStripSet "(" sec
  let pos ← match atoms.positions.get? i with
    | some p => Except.ok p
    | none => Except.error PyErr.indexError
  .ok (padRightW 10 sec ++ padLeftW 20 (fmtFixed 10 pos.1)
       ++ padLeftW 20 (fmtFixed 10 pos.2.1) ++ padLeftW 20 (fmtFixed 10 pos.2.2))

/-- The `method = method or params.pop('xc')` step of
`write_gaussian_in`: when no `method` is given, the `xc` parameter is
translated through `_xc_to_method`. -/
def gaussianMethodFromXc (methodV : PyVal) (params : PyDict) :
    Except PyErr (PyVal × PyDict) :=
  if methodV = PyVal.pnone then
    let xcPop := dictPop params "xc"
    match xcPop.1.getD .pnone with
    | .pnone => pure (PyVal.pnone, xcPop.2)
    | .pstr xc =>
      pure (PyVal.pstr (((xcToMethod.find? (fun p => p.1 = pyLower xc)).map Prod.snd).getD xc),
            xcPop.2)
    | _ => throw (PyErr.attributeError "lower")
  else pure (methodV, params)

/-- The `ioplist` lines of `write_gaussian_in`. -/
def gaussianIopLines (ioplistV : PyVal) : Except PyErr (List String) :=
  match ioplistV with
  | .pnone => pure ([] : List String)
  | .plist xs => do
    let j ← joinLeavesWith ", " xs
    pure ["IOP(" ++ j ++ ")"]
  | .pstr s => pure ["IOP(" ++ joinWith ", " (s.data.map (fun c => String.mk [c])) ++ ")"]
  | _ => throw (PyErr.typeError "can only join an iterable")

/-- The `extra` lines of `write_gaussian_in`. -/
def gaussianExtraLines (extraV : PyVal) : Except PyErr (List String) :=
  match extraV with
  | .pnone => pure ([] : List String)
  | .pstr s => pure [s]
  | _ => throw (PyErr.typeError "sequence item: expected str instance")

/-- The basis-section lines of `write_gaussian_in`. -/
def gaussianBasisLines (readFileFn : String → Option String)
    (basisfileV basisSetV basisV : PyVal) : Except PyErr (List String) :=
  if basisfileV ≠ PyVal.pnone then
    match basisfileV with
    | .pstr bf =>
      match bf.data with
      | [] => throw PyErr.indexError
      | c :: _ =>
        if c = '@' then pure [bf]
        else
          match readFileFn bf with
          | some content => pure [content]
          | none => throw (PyErr.fileNotFound bf)
    | _ => throw (PyErr.typeError "not subscriptable")
  else if basisSetV ≠ PyVal.pnone then
    match basisSetV with
    | .pstr s => pure [s]
    | _ => throw (PyErr.typeError "sequence item: expected str instance")
  else
    match basisV with
    | .pstr b =>
      if pyLower b = "gen" then throw (PyErr.inputError "Please set basisfile or basis_set")
      else pure ([] : List String)
    | .pnone => pure ([] : List String)
    | _ => throw (PyErr.attributeError "lower")

/-- The `addsec` lines of `write_gaussian_in`. -/
def gaussianAddsecLines (addsecV : PyVal) : Except PyErr (List String) :=
  match addsecV with
  | .pnone => pure ([] : List String)
  | .pstr s => pure ["", s]
  | .plist xs => do
    let ss ← xs.mapM (fun leaf =>
      match leaf with
      | PyLeaf.pstr s => Except.ok s
      | _ => Except.error (PyErr.typeError "sequence item: expected str instance"))
    pure ([""] ++ ss)
  | _ => throw (PyErr.typeError "is not iterable")

/-- The scalar parameters `write_gaussian_in` pops before the method
resolution. -/
structure GTop where
  methodV : PyVal
  basisV : PyVal
  fittingV : PyVal
  outputType : String
  basisfileV : PyVal
  basisSetV : PyVal
  params : PyDict
  deriving Repr

/-- The leading `params.pop` block of `write_gaussian_in` (source lines
101-131): `method`, `basis`, `fitting_basis`, `output_type`,
`basisfile`, `basis_set`, with the `output_type` normalisation and the
`basis = 'gen'` default. -/
def gaussianTop (params0 : PyDict) : GTop :=
  let (methodP, params) := dictPop params0 "method"
  let methodV := methodP.getD .pnone
  let (basisP, params) := dictPop params "basis"
  let basisV := basisP.getD .pnone
  let (fitP, params) := dictPop params "fitting_basis"
  let fittingV := fitP.getD .pnone
  let (otP, params) := dictPop params "output_type"
  let outputType := "#" ++ pyStrOf (otP.getD (.pstr "P"))
  let outputType := if outputType = "#" || strContainsSub (pyLower outputType) "t"
    then "#P" else outputType
  let (bfP, params) := dictPop params "basisfile"
  let basisfileV := bfP.getD .pnone
  let (bsP, params) := dictPop params "basis_set"
  let basisSetV := bsP.getD .pnone
  let basisV := if basisV = .pnone && (basisfileV ≠ .pnone || basisSetV ≠ .pnone)
    then PyVal.pstr "gen" else basisV
  { methodV := methodV, basisV := basisV, fittingV := fittingV, outputType := outputType,
    basisfileV := basisfileV, basisSetV := basisSetV, params := params }

/-- The `charge`/`mult` pops of `write_gaussian_in` with their
initial-charges / initial-magmoms defaults. -/
def gaussianChgMult (atoms : MAtoms) (params : PyDict) : PyVal × PyVal × PyDict :=
  let chgPop := dictPop params "charge"
  let chargeV := match chgPop.1.getD .pnone with
    | .pnone => PyVal.pfloat (atoms.initial_charges.foldl decAdd (0 : Dec))
    | v => v
  let multPop := dictPop chgPop.2 "mult"
  let multV := match multPop.1.getD .pnone with
    | .pnone => PyVal.pfloat (decAdd (atoms.initial_magmoms.foldl decAdd (0 : Dec)) (1 : Dec))
    | v => v
  (chargeV, multV, multPop.2)

/-- The `extra`/`ioplist`/`addsec` pops of `write_gaussian_in`. -/
def gaussianMisc (params : PyDict) : PyVal × PyVal × PyVal × PyDict :=
  let extraPop := dictPop params "extra"
  let extraV := extraPop.1.getD .pnone
  let iopPop := dictPop extraPop.2 "ioplist"
  let ioplistV := iopPop.1.getD .pnone
  let addsecPop := dictPop iopPop.2 "addsec"
  let addsecV := addsecPop.1.getD .pnone
  (extraV, ioplistV, addsecV, addsecPop.2)

/-- The per-atom nuclear-property pops of `write_gaussian_in` (every
`_nuclei_prop_array_names` key except `iso` is kept for the atom
lines). -/
def gaussianNuclei (params : PyDict) : List (String × PyVal) × PyDict :=
  let nucleiFold := nucleiPropNames.foldl (fun (acc : List (String × PyVal) × PyDict) k =>
      let p := dictPop acc.2 k
      (acc.1 ++ [(k, p.1.getD .pnone)], p.2)) ([], params)
  (nucleiFold.1.filter (fun kv => kv.1 ≠ "iso"), nucleiFold.2)

/-- The plain link-0 lines of `write_gaussian_in`. -/
def gaussianLink0 (params : PyDict) : List String × PyDict :=
  link0Keys.foldl (fun (acc : List String × PyDict) key =>
      if !dictContains acc.2 key then acc
      else
        let p := dictPop acc.2 key
        let val := p.1.getD .pnone
        let bare := !pyTruthy val ||
          (match val with | .pstr s => pyLower key = pyLower s | _ => false)
        if bare then (acc.1 ++ ["%" ++ key], p.2)
        else (acc.1 ++ ["%" ++ key ++ "=" ++ pyStrOf val], p.2)) ([], params)

/-- The `%key L...` link-0 lines of `write_gaussian_in`. -/
def gaussianLink0Special (params : PyDict) : Except PyErr (List String × PyDict) :=
  link0Special.foldlM (fun (acc : List String × PyDict) key => do
      if !dictContains acc.2 key then pure acc
      else
        let p := dictPop acc.2 key
        let val := p.1.getD .pnone
        let val ← match val with
          | .plist xs => do
            let j ← joinLeavesWith " " xs
            pure (PyVal.pstr j)
          | v => pure v
        pure (acc.1 ++ ["%" ++ key ++ " L" ++ pyStrOf val], p.2)) (([] : List String), params)

/-- The route line of `write_gaussian_in` (`method/basis[/fitting] ! ASE
formatted method and basis`, or the bare keywords). -/
def gaussianRouteLine (outputType : String) (methodV basisV fittingV : PyVal) : String :=
  if pyTruthy basisV && pyTruthy methodV && pyTruthy fittingV then
    outputType ++ " " ++ pyStrOf methodV ++ "/" ++ pyStrOf basisV ++ "/"
      ++ pyStrOf fittingV ++ " ! ASE formatted method and basis"
  else if pyTruthy basisV && pyTruthy methodV then
    outputType ++ " " ++ pyStrOf methodV ++ "/" ++ pyStrOf basisV
      ++ " ! ASE formatted method and basis"
  else
    let s := outputType
    let s := if methodV ≠ PyVal.pnone then s ++ " " ++ pyStrOf methodV else s
    if basisV ≠ PyVal.pnone then s ++ " " ++ pyStrOf basisV else s

/-- The leftover-keyword route lines of `write_gaussian_in`. -/
def gaussianRouteKw (params : PyDict) : Except PyErr (List String) :=
  params.foldlM (fun (acc : List String) kv => do
      let bare := !pyTruthy kv.2 ||
        (match kv.2 with | .pstr s => pyLower kv.1 = pyLower s | _ => false)
      if bare then pure (acc ++ [kv.1])
      else
        match kv.2 with
        | .plist xs => do
          let j ← joinLeavesWith "," xs
          pure (acc ++ [kv.1 ++ "(" ++ j ++ ")"])
        | v => pure (acc ++ [kv.1 ++ "(" ++ pyStrOf v ++ ")"])) []

/-- The `TV` lines of `write_gaussian_in`, one per periodic axis. -/
def gaussianTvLines (atoms : MAtoms) : List String :=
  (atoms.pbc.zip atoms.cell).foldl (fun (acc : List String) p =>
      if p.1 then acc ++ ["TV " ++ padLeftW 20 (fmtFixed 10 p.2.1)
        ++ padLeftW 20 (fmtFixed 10 p.2.2.1) ++ padLeftW 20 (fmtFixed 10 p.2.2.2)]
      else acc) []

/-- The list `out` of lines built by `write_gaussian_in` (the file's
contents are these joined with newlines; the caller's `params` and
`atoms` are untouched — the source works on `deepcopy(params)`).
`massesTable` stands for the external table
`ase.data.atomic_masses_iupac2016`, `readFileFn` for the filesystem
read of a basis file (`None` models `FileNotFoundError`). -/
def writeGaussianInLines (massesTable : Nat → Dec) (readFileFn : String → Option String)
    (atoms : MAtoms) (properties : Option (List String)) (params0 : PyDict) :
    Except PyErr (List String) := do
  let properties := properties.getD ["energy"]
  let t := gaussianTop params0
  let mp ← gaussianMethodFromXc t.methodV t.params
  let cm := gaussianChgMult atoms mp.2
  let misc := gaussianMisc cm.2.2
  let nuc := gaussianNuclei misc.2.2.2
  let lk := gaussianLink0 nuc.2
  let sp ← gaussianLink0Special lk.2
  let routeLine := gaussianRouteLine t.outputType mp.1 t.basisV t.fittingV
  let routeKw ← gaussianRouteKw sp.2
  let iopLines ← gaussianIopLines misc.2.1
  let extraLines ← gaussianExtraLines misc.1
  let forceLines := if properties.contains "forces" && !dictContains sp.2 "force"
    then ["force"] else []
  let chgS ← pyFmtDotZeroF cm.1
  let multS ← pyFmtDotZeroF cm.2.1
  let header := ["", "Gaussian input prepared by ASE", "", chgS ++ " " ++ multS]
  let atomLines ← (List.range atoms.symbols.length).mapM (buildAtomLine massesTable nuc.1 atoms)
  let tvLines := gaussianTvLines atoms
  let basisLines ← gaussianBasisLines readFileFn t.basisfileV t.basisSetV t.basisV
  let addsecLines ← gaussianAddsecLines misc.2.2.1
  .ok (lk.1 ++ sp.1 ++ [routeLine] ++ routeKw ++ iopLines ++ extraLines
       ++ forceLines ++ header ++ atomLines ++ tvLines ++ [""] ++ basisLines
       ++ addsecLines ++ ["", ""])

/-- `write_gaussian_in`: the text written to `fd`. -/
def writeGaussianIn (massesTable : Nat → Dec) (readFileFn : String → Option String)
    (atoms : MAtoms) (properties : Option (List String)) (params : PyDict) :
    Except PyErr String :=
  (writeGaussianInLines massesTable readFileFn atoms properties params).map joinNl

/-! ## `ase/calculators/crystal.py` -/

/-- `xc`: a single string or a custom `(exchange, correlation)` pair. -/
inductive XcVal where
  | str (s : String)
  | pair (x c : String)
  deriving DecidableEq, Repr

/-- An element of a `kpts` tuple. -/
inductive KElt where
  | int (n : Int)
  | str (s : String)
  deriving DecidableEq, Repr

/-- The `kpts` parameter: `None`, a float (density), a list (explicit
k-points), a tuple, or a bare int. -/
inductive KptsVal where
  | knone
  | kfloat (d : Dec)
  | klist (xs : List Dec)
  | ktuple (xs : List KElt)
  | kint (n : Int)
  deriving DecidableEq, Repr

/-- An entry of `otherkeys`: a keyword or a keyword group. -/
inductive OtherKey where
  | single (s : String)
  | group (xs : List String)
  deriving DecidableEq, Repr

/-- The CRYSTAL calculator's parameters (`default_parameters` keys). -/
structure CrystalParams where
  xc : XcVal
  spinpol : Bool
  guess : Bool
  kpts : KptsVal
  isp : Int
  basis : String
  smearing : Option (String × Dec)
  otherkeys : List OtherKey
  deriving DecidableEq, Repr

/-- What `write_crystal_in` reads from the attached atoms. -/
structure CrystalAtoms where
  magmoms : List Dec
  pbc : List Bool
  deriving DecidableEq, Repr

/-- `PointChargePotential`'s state. -/
structure PointChargePot where
  mmcharges : Option (List Dec)
  mmpositions : Option (List (Dec × Dec × Dec))
  deriving DecidableEq, Repr

/-- `CRYSTAL.embed(mmcharges)`: attach a point-charge potential. -/
def crystalEmbed (mmcharges : Option (List Dec)) : PointChargePot :=
  { mmcharges := mmcharges, mmpositions := none }

/-- `PointChargePotential.set_positions`. -/
def pcpotSetPositions (pc : PointChargePot) (ps : List (Dec × Dec × Dec)) : PointChargePot :=
  { pc with mmpositions := some ps }

/-- The calculator state `write_crystal_in` reads. -/
structure CrystalState where
  params : CrystalParams
  atoms : CrystalAtoms
  pcpot : Option PointChargePot
  deriving DecidableEq, Repr

/-- The filesystem as `write_crystal_in` sees it: the lines of the
`basis` file (`none` models `FileNotFoundError`), and whether `fort.20`
exists. -/
structure CrystalFS where
  basisLines : Option (List String)
  fort20Exists : Bool
  deriving DecidableEq, Repr

/-- `ase.units.Hartree` in eV (external toolkit data, given). -/
def hartreeDec : Dec := ⟨27211386245988, 12⟩

/-- `'%12.6f' % v`. -/
def fmtF12x6 (v : Dec) : String := padLeftW 12 (fmtFixed 6 v)

/-- `PointChargePotential.write_mmcharges`: `none` when no charges are
set (the source prints a warning and writes no file); otherwise the
lines of `POINTCHG.INP` — the number of charges, then
`x y z q` per charge — paired with the `TypeError` raised when
positions were never set (`zip(None, ...)` crashes after the count
line was already written). -/
def writeMmcharges (pc : PointChargePot) : Option (List String × Option PyErr) :=
  match pc.mmcharges with
  | none => none
  | some qs =>
    match pc.mmpositions with
    | none => some ([intStr qs.length ++ " \n"],
        some (.typeError "argument of type NoneType is not iterable"))
    | some ps =>
      some ((intStr qs.length ++ " \n") ::
        (ps.zip qs).map (fun pq =>
          fmtF12x6 pq.1.1 ++ " " ++ fmtF12x6 pq.1.2.1 ++ " " ++ fmtF12x6 pq.1.2.2
            ++ " " ++ fmtF12x6 pq.2 ++ " \n"), none)

/-- Append a block to the accumulated writes unless an error already
occurred. -/
def wext (acc : List String × Option PyErr) (blk : List String × Option PyErr) :
    List String × Option PyErr :=
  match acc.2 with
  | some _ => acc
  | none => (acc.1 ++ blk.1, blk.2)

/-- The `{'LDA': ..., 'PBE': 'PBEXC'}.get(p.xc, p.xc)` mapping. -/
def crystalXcMap (s : String) : String :=
  if s = "LDA" then "EXCHANGE\nLDA\nCORRELAT\nVWN"
  else if s = "PBE" then "PBEXC"
  else s

/-- The SHRINK block (source lines 158-181), including the partial
writes that precede a raised exception. -/
def crystalKptsBlock (isp : Int) (ispbc : List Bool) : KptsVal → List String × Option PyErr
  | .knone => ([], none)
  | .kfloat _ => ([], some (.valueError "K-point density definition not allowed."))
  | .klist _ => ([], some (.valueError "Explicit K-points definition not allowed."))
  | .kint _ => ([], some (.typeError "int is not subscriptable"))
  | .ktuple xs =>
    match xs.getLast? with
    | none => ([], some .indexError)
    | some (.str _) => ([], some (.valueError "Shifted Monkhorst-Pack not allowed."))
    | some (.int _) =>
      if xs.any (fun e => match e with | .str _ => true | _ => false) then
        (["SHRINK  \n"], some (.typeError "str and int are not comparable"))
      else
        let ints := xs.map (fun e => match e with | .int n => n | .str _ => 0)
        let mx := ints.foldl (fun a b => if a < b then b else a) (ints.headD 0)
        let line1 := "0 " ++ intStr (isp * mx) ++ " \n"
        if ispbc.getD 2 false then
          match ints.get? 0, ints.get? 1, ints.get? 2 with
          | some a, some b, some c =>
            (["SHRINK  \n", line1, intStr a ++ " " ++ intStr b ++ " " ++ intStr c ++ " \n"], none)
          | _, _, _ => (["SHRINK  \n", line1], some .indexError)
        else if ispbc.getD 1 false then
          match ints.get? 0, ints.get? 1 with
          | some a, some b =>
            (["SHRINK  \n", line1, intStr a ++ " " ++ intStr b ++ " 1 \n"], none)
          | _, _ => (["SHRINK  \n", line1], some .indexError)
        else if ispbc.getD 0 false then
          match ints.get? 0 with
          | some a => (["SHRINK  \n", line1, intStr a ++ " 1 1 \n"], none)
          | none => (["SHRINK  \n", line1], some .indexError)
        else (["SHRINK  \n", line1], none)

/-- `CRYSTAL.write_crystal_in`: the strings written to the input file
(in write order, cut off at the first uncaught exception), the
calculator's parameters as left behind by the call (the source mutates
`p.spinpol` in place on line 97), and the exception, if raised. -/
def crystalHead (fs : CrystalFS) (st : CrystalState) : List String × Option PyErr :=
  let p := st.params
  let acc : List String × Option PyErr :=
    (["Single point + Gradient crystal calculation \n", "EXTERNAL \n"], none)
  let acc := wext acc (match st.pcpot with
    | none => ([], none)
    | some pc =>
      match writeMmcharges pc with
      | none => (["POINTCHG \n"], none)
      | some (_, none) => (["POINTCHG \n"], none)
      | some (_, some e) => (["POINTCHG \n"], some e))
  wext acc (
    if p.basis = "custom" then
      match fs.basisLines with
      | some bl => (["END \n"] ++ bl ++ ["99 0 \n", "END \n"], none)
      | none => (["END \n"], some (.fileNotFound "basis"))
    else (["BASISSET \n", pyUpper p.basis ++ "\n"], none))

def writeCrystalIn (fs : CrystalFS) (st : CrystalState) :
    List String × CrystalParams × Option PyErr :=
  let p := st.params
  let acc := crystalHead fs st
  match acc.2 with
  | some e => (acc.1, p, some e)
  | none =>
    let p := if st.atoms.magmoms.any (fun m => !decIsZero m) then { p with spinpol := true } else p
    let ham : List String :=
      if p.xc = XcVal.str "HF" then (if p.spinpol then ["UHF \n"] else ["RHF \n"])
      else if p.xc = XcVal.str "MP2" then ["MP2 \n", "ENDMP2 \n"]
      else
        ["DFT \n"] ++
        (match p.xc with
         | .str s => [pyUpper (crystalXcMap s) ++ "\n"]
         | .pair x c => ["EXCHANGE \n", x ++ " \n", "CORRELAT \n", c ++ " \n"]) ++
        (if p.spinpol then ["SPIN \n"] else []) ++ ["END \n"]
    let acc := wext acc (ham, none)
    let acc := wext acc (if p.guess && fs.fort20Exists then (["GUESSP \n"], none) else ([], none))
    let acc := wext acc (match p.smearing with
      | none => ([], none)
      | some (name, width) =>
        if name ≠ "Fermi-Dirac" then ([], some (.valueError "Only Fermi-Dirac smearing is allowed."))
        else (["SMEAR \n", decRepr (decDivApprox width hartreeDec) ++ " \n"], none))
    let acc := wext acc (p.otherkeys.foldl (fun (l : List String) k =>
        match k with
        | .single s => l ++ [pyUpper s ++ "\n"]
        | .group xs => l ++ xs.map (fun x => pyUpper x ++ "\n")) [], none)
    let ispbc := st.atoms.pbc
    let effKpts : KptsVal :=
      if ispbc.any (fun b => b) then
        (if p.kpts = KptsVal.knone then KptsVal.ktuple [.int 1, .int 1, .int 1] else p.kpts)
      else KptsVal.knone
    let acc := wext acc (crystalKptsBlock p.isp ispbc effKpts)
    let acc := wext acc (["GRADCAL \n", "END \n"], none)
    (acc.1, p, acc.2)

/-- The caller-visible effect of `write_gaussian_in` on its arguments:
the source deep-copies `params` on its first line (source line 91) and
only ever reads `atoms`, so the caller's objects come back unchanged
whatever the outcome of the write. -/
def writeGaussianInEffects (massesTable : Nat → Dec) (readFileFn : String → Option String)
    (atoms : MAtoms) (properties : Option (List String)) (params : PyDict) :
    (Except PyErr String) × PyDict × MAtoms :=
  (writeGaussianIn massesTable readFileFn atoms properties params, params, atoms)

/-! ## `read_gaussian_out` -/

/-- `ase.units.Bohr` in Angstrom (external toolkit data, given). -/
def bohrDec : Dec := ⟨5291772105638411, 16⟩

/-- `_re_atom`: `^\s*\S+\s+(\S+)\s+(?:\S+\s+)?(\S+)\s+(\S+)\s+(\S+)\s*$`
— five or six whitespace-separated tokens; groups 1-4. -/
def reAtomMatch (s : String) : Option (String × String × String × String) :=
  match pySplitWS s with
  | [_, b, c, d, e] => some (b, c, d, e)
  | [_, b, _, d, e, f] => some (b, d, e, f)
  | _ => none

/-- `_re_forceblock`: `^\s*Center\s+Atomic\s+Forces\s+\S+\s*$`. -/
def reForceblockMatch (s : String) : Bool :=
  match pySplitWS s with
  | [a, b, c, _] => a = "Center" && b = "Atomic" && c = "Forces"
  | _ => false

/-- `_re_l716`: `^\s*\(Enter .+l716.exe\)$` (the dot matches any
character; the line was stripped by the caller). -/
def reL716Match (s : String) : Bool :=
  let l := s.data.dropWhile pyIsSpace
  if listStartsWith "(Enter ".data l then
    let r := l.drop 7
    let n := r.length
    if 10 ≤ n then
      let tail9 := r.drop (n - 9)
      listStartsWith "l716".data tail9 && listStartsWith "exe)".data (tail9.drop 5)
    else false
  else false

/-- The atoms object built while reading an output file. -/
structure GOutAtoms where
  numbers : List Nat
  positions : List (Dec × Dec × Dec)
  pbc : List Bool
  cell : List (Dec × Dec × Dec)
  deriving DecidableEq, Repr

/-- A `SinglePointCalculator`'s results (`None` entries are dropped by
its constructor). -/
structure SPResults where
  energy : Option Dec
  dipole : Option (List Dec)
  forces : Option (List (List Dec))
  deriving DecidableEq, Repr

/-- One returned image: atoms with attached results. -/
structure GOutConfig where
  atoms : GOutAtoms
  results : SPResults
  deriving DecidableEq, Repr

/-- `_compare_merge_configs`: append the new image unless it repeats
the last geometry with compatible results, in which case the results
are merged into the last image. -/
def compareMergeConfigs (configs : List GOutConfig) (new : GOutConfig) : List GOutConfig :=
  match configs.getLast? with
  | none => configs ++ [new]
  | some old =>
    if old.atoms ≠ new.atoms then configs ++ [new]
    else
      let differs :=
        (match old.results.energy, new.results.energy with
         | some a, some b => a ≠ b
         | _, _ => false) ||
        (match old.results.dipole, new.results.dipole with
         | some a, some b => a ≠ b
         | _, _ => false) ||
        (match old.results.forces, new.results.forces with
         | some a, some b => a ≠ b
         | _, _ => false)
      if differs then configs ++ [new]
      else
        configs.dropLast ++ [{ old with results := { energy := new.results.energy <|> old.results.energy, dipole := new.results.dipole <|> old.results.dipole, forces := new.results.forces <|> old.results.forces } }]

/-- The loop state of `read_gaussian_out`. -/
structure ROutSt where
  configs : List GOutConfig
  atoms : Option GOutAtoms
  energy : Option Dec
  dipole : Option (List Dec)
  forces : Option (List (List Dec))
  deriving DecidableEq, Repr

/-- Attach the pending results to the pending atoms and merge them into
the image list (source lines 981-985 and 1072-1076). -/
def routFlush (st : ROutSt) : ROutSt :=
  match st.atoms with
  | none => st
  | some a =>
    { st with configs := compareMergeConfigs st.configs { atoms := a, results := { energy := st.energy, dipole := st.dipole, forces := st.forces } } }

/-- Consume lines while `_re_atom` matches (`fd.readline()` also
consumes the first non-matching line; at end of file `readline`
returns `''`, which never matches). -/
def readAtomBlock : List String → List (String × String × String × String) × List String
  | [] => ([], [])
  | l :: rest =>
    match reAtomMatch l with
    | some g =>
      let r := readAtomBlock rest
      (g :: r.1, r.2)
    | none => ([], rest)

/-- `float(s.replace('D', 'e'))`. -/
def pyFloatD? (s : String) : Option Dec := pyFloat? (replaceAll s "D" "e")

/-- Build the `Atoms` of an orientation block: `TV` rows (atomic number
`-2`) become cell vectors, other rows atoms (source lines 999-1012). -/
def buildOrientAtoms (rows : List (String × String × String × String)) :
    Except PyErr GOutAtoms := do
  let st0 : GOutAtoms := { numbers := [], positions := [], pbc := [false, false, false], cell := [((0 : Dec), (0 : Dec), (0 : Dec)), (0, 0, 0), (0, 0, 0)] }
  let r ← rows.foldlM (fun (acc : GOutAtoms × Nat) g => do
      let number ← match pyInt? g.1 with
        | some n => Except.ok n
        | none => Except.error (PyErr.valueError "invalid literal for int")
      let x ← match pyFloat? g.2.1 with
        | some v => Except.ok v
        | none => Except.error (PyErr.valueError "could not convert string to float")
      let y ← match pyFloat? g.2.2.1 with
        | some v => Except.ok v
        | none => Except.error (PyErr.valueError "could not convert string to float")
      let z ← match pyFloat? g.2.2.2 with
        | some v => Except.ok v
        | none => Except.error (PyErr.valueError "could not convert string to float")
      if number = -2 then
        if acc.2 < 3 then
          pure ({ acc.1 with pbc := acc.1.pbc.set acc.2 true, cell := acc.1.cell.set acc.2 (x, y, z) }, acc.2 + 1)
        else throw PyErr.indexError
      else
        pure ({ acc.1 with numbers := acc.1.numbers ++ [(max number 0).toNat], positions := acc.1.positions ++ [(x, y, z)] }, acc.2))
    (st0, 0)
  .ok r.1

/-- One `for line in fd` step of `read_gaussian_out`, returning the
new state and the lines left after any inner `fd.readline()` calls, or
`none` when the archive marker stops the parse. -/
def routStep (st : ROutSt) (line0 : String) (rest : List String) :
    Except PyErr (Option (ROutSt × List String)) := do
  let line := pyStripWS line0
  if listStartsWith "1\\1\\GINC".data line.data then
    .ok none
  else if line = "Input orientation:" || line = "Z-Matrix orientation:" then do
    let st := routFlush st
    let st := { st with atoms := none, energy := none, dipole := none, forces := none }
    let rest := rest.drop 4
    let blk := readAtomBlock rest
    let atoms ← buildOrientAtoms blk.1
    .ok (some ({ st with atoms := some atoms }, blk.2))
  else if listStartsWith "Energy=".data line.data
      || listStartsWith "SCF Done:".data line.data then
    match (splitOnStr "=" line).get? 1 with
    | none => throw PyErr.indexError
    | some piece =>
      match (pySplitWS piece).get? 0 with
      | none => throw PyErr.indexError
      | some tok =>
        match pyFloatD? tok with
        | none => throw (PyErr.valueError "could not convert string to float")
        | some v => .ok (some ({ st with energy := some (decMul v hartreeDec) }, rest))
  else if listStartsWith "E2 =".data line.data || listStartsWith "E3 =".data line.data
      || listStartsWith "E4(".data line.data || listStartsWith "DEMP5 =".data line.data
      || listStartsWith "E2(".data line.data then
    match (splitOnStr "=" line).getLast? with
    | none => throw PyErr.indexError
    | some piece =>
      match pyFloatD? (pyStripWS piece) with
      | none => throw (PyErr.valueError "could not convert string to float")
      | some v => .ok (some ({ st with energy := some (decMul v hartreeDec) }, rest))
  else if listStartsWith "Wavefunction amplitudes converged. E(Corr)".data line.data then
    match (splitOnStr "=" line).getLast? with
    | none => throw PyErr.indexError
    | some piece =>
      match pyFloatD? (pyStripWS piece) with
      | none => throw (PyErr.valueError "could not convert string to float")
      | some v => .ok (some ({ st with energy := some (decMul v hartreeDec) }, rest))
  else if reL716Match line then
    let line2 := pyStripWS ((rest.headD ""))
    let rest := rest.drop 1
    if !listStartsWith "Dipole".data line2.data then .ok (some (st, rest))
    else
      match (splitOnStr "=" line2).get? 1 with
      | none => throw PyErr.indexError
      | some piece =>
        let dip := replaceAll piece "D" "e"
        let tokens := pySplitWS dip
        if tokens.length = 3 then do
          let vals ← tokens.mapM (fun t =>
            match pyFloat? t with
            | some v => Except.ok v
            | none => Except.error (PyErr.valueError "could not convert string to float"))
          .ok (some ({ st with dipole := some (vals.map (fun v => decMul v bohrDec)) }, rest))
        else if dip.length % 3 = 0 then do
          let nchars := dip.length / 3
          let slices := [dip.data.take nchars,
                         (dip.data.drop nchars).take nchars,
                         (dip.data.drop (2 * nchars)).take nchars]
          let vals ← slices.mapM (fun sl =>
            match pyFloat? (String.mk sl) with
            | some v => Except.ok v
            | none => Except.error (PyErr.valueError "could not convert string to float"))
          .ok (some ({ st with dipole := some (vals.map (fun v => decMul v bohrDec)) }, rest))
        else
          .ok (some ({ st with dipole := none }, rest))
  else if reForceblockMatch line then do
    let rest := rest.drop 2
    let blk := readAtomBlock rest
    let rows ← blk.1.mapM (fun g => do
      let x ← match pyFloat? g.2.1 with
        | some v => Except.ok v
        | none => Except.error (PyErr.valueError "could not convert string to float")
      let y ← match pyFloat? g.2.2.1 with
        | some v => Except.ok v
        | none => Except.error (PyErr.valueError "could not convert string to float")
      let z ← match pyFloat? g.2.2.2 with
        | some v => Except.ok v
        | none => Except.error (PyErr.valueError "could not convert string to float")
      pure [x, y, z])
    let conv := fun (v : Dec) => decDivApprox (decMul v hartreeDec) bohrDec
    .ok (some ({ st with forces := some (rows.map (fun r => r.map conv)) }, rest))
  else
    .ok (some (st, rest))

/-- The `for line in fd` loop (fuel: each step consumes at least the
current line). -/
def routLoop : Nat → ROutSt → List String → Except PyErr ROutSt
  | 0, st, _ => .ok st
  | _, st, [] => .ok st
  | fuel + 1, st, line :: rest => do
    let r ← routStep st line rest
    match r with
    | none => .ok st
    | some (st', rest') => routLoop fuel st' rest'

/-- `read_gaussian_out(fd, index)`. -/
def readGaussianOut (lines : List String) (index : Int) : Except PyErr GOutConfig := do
  let st ← routLoop (lines.length + 1) { configs := [], atoms := none, energy := none, dipole := none, forces := none } lines
  let st := routFlush st
  let n : Int := st.configs.length
  let i := if index < 0 then index + n else index
  if 0 ≤ i && i < n then
    match st.configs.get? i.toNat with
    | some c => .ok c
    | none => .error .indexError
  else .error .indexError

/-! ## The claims -/

set_option maxRecDepth 100000

/-- A fixed stand-in for the external masses table, used by concrete
instances (the claims hold for every table). -/
def sampleMasses : Nat → Dec := fun i => ⟨10 * (i : Int) + 5, 1⟩

/-- An absent filesystem for the writer's basis-file reads. -/
def noBasisFS : String → Option String := fun _ => none

/-- Write an atoms object with `write_gaussian_in` (no further
parameters) and read the resulting text back with `read_gaussian_in`. -/
def gaussianRoundTrip (pz : ZmatFn) (mt : Nat → Dec) (atoms : MAtoms) :
    Except PyErr GAtomsOut :=
  (writeGaussianIn mt noBasisFS atoms none []).bind
    (fun text => readGaussianIn pz (toFileLines text))

/-- C10: Parsing is deterministic: `parse_gaussian_input` on a fixed
sequence of input lines (and a fixed z-matrix reader) always returns
the same atoms and parameters, and `read_gaussian_out` on the same
contents and index always returns the same result.  Both are embedded
as pure functions — the sources consult no state beyond their
arguments. -/
theorem c10_parse_and_readout_deterministic :
    (∀ (pz : ZmatFn) (lines : List String),
      parseGaussianInput pz lines = parseGaussianInput pz lines) ∧
    (∀ (lines : List String) (index : Int),
      readGaussianOut lines index = readGaussianOut lines index) :=
  ⟨fun _ _ => rfl, fun _ _ => rfl⟩

/-- A Gaussian input whose route keyword `freq(numer)` has options
without `readiso`/`readisotopes`, followed by an extra section. -/
def c3File : String := "#P freq(numer)\n\nt\n\n0 1\nH 0.0 0.0 0.0\n\nextra section\n\n"

/-- C3: the code does NOT behave as the claim states.  The claim's
"only if the freq options include readiso" direction fails:
`_get_readiso_param`'s condition on source line 520 reads
`if 'readiso' or 'readisotopes' in freq_options:`, which is the
constantly-true literal `'readiso'`, so ANY frequency keyword with
options sends the parser into the ReadIsotopes branch.  Concretely,
`freq(numer)` (no readiso among its options) makes
`_get_readiso_param` return the freq parameter, and parsing a file
with such a route and any extra section treats that section as
ReadIsotopes and then crashes in `_delete_readiso_param`
(`list.remove('readiso')` on options that do not contain it). -/
theorem c3_readiso_branch_taken_without_readiso :
    getReadisoParam [("freq", PyVal.pstr "numer")] = .ok (some ("freq", "numer"))
    ∧ strContainsSub "numer" "readiso" = false
    ∧ strContainsSub "numer" "readisotopes" = false
    ∧ parseGaussianInput pzModel (toFileLines c3File)
      = .error (.valueError "list.remove(x): x not in list") := by
  refine ⟨by decide, by decide, by decide, by decide⟩

/-- A Gaussian input whose route line is `# tpsstpss`. -/
def c2File : String := "# tpsstpss\n\nt\n\n0 1\nH 0.0 0.0 0.0\n\n"

/-- C2: the code does NOT store every route keyword lowercased as the
claim states.  On the line that starts the route section the source
(line 700) runs `line.strip(output_type_match.group(0))`; `str.strip`
removes a character SET, so for `# tpsstpss` the matched prefix `# t`
strips the keyword's own leading letter and the keyword is stored as
`psstpss` instead of `tpsstpss`. -/
theorem c2_route_keyword_truncated_by_charset_strip :
    (parseGaussianInput pzModel (toFileLines c2File)).map
      (fun c => (dictGet? c.parameters "tpsstpss", dictGet? c.parameters "psstpss"))
    = .ok (none, some PyVal.pnone) := by decide

/-- A readiso input whose molecule specification flips into a z-matrix
on its second line after per-atom `iso` values were already recorded. -/
def c8File : String :=
  "#P freq(readiso)\n\nt\n\n0 1\nH(iso=3) 0.0 0.0 0.0\nC(iso=4) 1 1.0\n\n300 1.0\n2.0\n\n"

/-- A readiso input whose route line carries an `iso=5` option and
whose tail is only a basis-file line, so the ReadIsotopes first-line
branch never replaces the string by a list. -/
def c8StrFile : String :=
  "#P freq(readiso) iso=5\n\nt\n\n0 1\nH 0.0 0.0 0.0\n\n@basis\n"

/-- C8 counterexample: two finished parses with a detected ReadIsotopes
section whose final `iso` parameter is not a list of the symbols'
length.  With a z-matrix flip, `_add_nuclei_props_to_params` overwrites
`iso` with the per-molecule-line nuclear-property array (2 entries
against 1 symbol).  With a route-level `iso=5` option and a basis-file
tail, the parse completes with `iso` still the STRING `5` (Python `len`
and slicing succeed on strings), not a list at all. -/
theorem c8_iso_length_counterexample :
    ((parseGaussianInput pzModel (toFileLines c8File)).map
      (fun c => (c.atoms.symbols,
        match dictGet? c.parameters "iso" with
        | some (.plist xs) => xs.length
        | _ => 0))
    = .ok (["H"], 2) ∧ (["H"] : List String).length ≠ 2)
    ∧ (parseGaussianInput pzModel (toFileLines c8StrFile)).map
        (fun c => (c.atoms.symbols, dictGet? c.parameters "iso"))
      = .ok (["H"], some (PyVal.pstr "5")) := by
  refine ⟨⟨by decide, by decide⟩, by decide⟩

/-- A z-matrix molecule specification with a variables section and no
nonblank line after it. -/
def c4FileNoTail : String :=
  "#P hf/sto-3g\n\nt\n\n0 1\nC\nH 1 1.08\nH 1 1.08 2 104.5\nVariables:\nr=1.0\n\n\n"

/-- The same z-matrix followed by one nonblank line. -/
def c4FileTail : String :=
  "#P hf/sto-3g\n\nt\n\n0 1\nC\nH 1 1.08\nH 1 1.08 2 104.5\nVariables:\nr=1.0\n\nx\n\n"

/-- C4 counterexample: the z-matrix is NOT always converted.  The
conversion (`_read_zmatrix`) only runs inside the `elif atoms_saved:`
branch, which blank lines never reach, so a file that ends right after
its z-matrix molecule specification parses to an EMPTY structure; the
same z-matrix with one nonblank trailing line parses to its three
atoms. -/
theorem c4_zmatrix_ignored_without_trailing_line :
    (parseGaussianInput pzModel (toFileLines c4FileNoTail)).map (fun c => c.atoms.symbols)
      = .ok []
    ∧ (parseGaussianInput pzModel (toFileLines c4FileTail)).map (fun c => c.atoms.symbols)
      = .ok ["C", "H", "H"] := by
  refine ⟨by decide, by decide⟩

/-- A CRYSTAL calculator state with a nonzero initial magnetic moment
and `spinpol=False`. -/
def c5State : CrystalState :=
  { params := { xc := .str "HF", spinpol := false, guess := false, kpts := .knone,
                isp := 1, basis := "sto-3g", smearing := none, otherkeys := [] },
    atoms := { magmoms := [⟨1, 0⟩], pbc := [false, false, false] },
    pcpot := none }

/-- A concrete filesystem view for the CRYSTAL writer. -/
def c5FS : CrystalFS := { basisLines := none, fort20Exists := false }

/-- C5 counterexample: `CRYSTAL.write_crystal_in` does NOT leave the
calculator's parameters unchanged: with any nonzero initial magnetic
moment it permanently sets `spinpol = True` on the shared parameters
object (source line 97, `p.spinpol = True` on `p = self.parameters`). -/
theorem c5_write_crystal_in_mutates_spinpol :
    (writeCrystalIn c5FS c5State).2.1.spinpol = true
    ∧ c5State.params.spinpol = false
    ∧ (writeCrystalIn c5FS c5State).2.1 ≠ c5State.params := by
  refine ⟨by decide, by decide, by decide⟩

/-- Non-periodic atoms with a float (k-point density) `kpts`. -/
def c7StateA : CrystalState :=
  { params := { xc := .str "HF", spinpol := false, guess := false, kpts := .kfloat ⟨5, 1⟩,
                isp := 1, basis := "sto-3g", smearing := none, otherkeys := [] },
    atoms := { magmoms := [0], pbc := [false, false, false] },
    pcpot := none }

/-- Periodic atoms, a valid integer-tuple `kpts`, but a non-Fermi-Dirac
smearing. -/
def c7StateB : CrystalState :=
  { params := { xc := .str "HF", spinpol := false, guess := false,
                kpts := .ktuple [.int 2, .int 2, .int 2],
                isp := 1, basis := "sto-3g", smearing := some ("Gaussian", ⟨1, 1⟩),
                otherkeys := [] },
    atoms := { magmoms := [0], pbc := [true, true, true] },
    pcpot := none }

/-- Periodic atoms with a one-entry `kpts` tuple. -/
def c7StateC : CrystalState :=
  { params := { xc := .str "HF", spinpol := false, guess := false, kpts := .ktuple [.int 2],
                isp := 1, basis := "sto-3g", smearing := none, otherkeys := [] },
    atoms := { magmoms := [0], pbc := [true, true, true] },
    pcpot := none }

/-- C7 counterexample: the claimed validation behaviour fails in three
ways.  (a) For non-periodic atoms the effective kpts is forced to
`None`, so a float `kpts` raises nothing and no SHRINK section is
written (the claim demands a `ValueError`).  (b) An invalid smearing
raises `ValueError` before the k-point section, so a perfectly valid
integer tuple produces no SHRINK section.  (c) A too-short tuple dies
with `IndexError` (not `ValueError`) after only part of the SHRINK
section is written. -/
theorem c7_kpts_validation_counterexample :
    ((writeCrystalIn c5FS c7StateA).2.2 = none
      ∧ "SHRINK  \n" ∉ (writeCrystalIn c5FS c7StateA).1)
    ∧ ((writeCrystalIn c5FS c7StateB).2.2
        = some (.valueError "Only Fermi-Dirac smearing is allowed.")
      ∧ "SHRINK  \n" ∉ (writeCrystalIn c5FS c7StateB).1)
    ∧ (writeCrystalIn c5FS c7StateC).2.2 = some PyErr.indexError := by
  refine ⟨⟨by decide, by decide⟩, ⟨by decide, by decide⟩, by decide⟩

/-- One hydrogen atom with an initial charge of one half. -/
def c9Atoms : MAtoms :=
  { symbols := ["H"], positions := [(0, 0, 0)], pbc := [false, false, false],
    cell := [(0, 0, 0), (0, 0, 0), (0, 0, 0)],
    masses := [⟨15, 1⟩], initial_charges := [⟨5, 1⟩], initial_magmoms := [0] }

/-- C9 counterexample: when the initial charges sum to the non-integer
one half, the written charge-and-multiplicity line is `0 1` — the
charge field holds `0.5` rounded by `'{:.0f}'`, not the sum itself, so
the line does not contain the sum of the initial charges. -/
theorem c9_charge_mult_rounding_counterexample :
    (writeGaussianInLines sampleMasses noBasisFS c9Atoms none []).map (fun l => l.get? 4)
      = .ok (some "0 1")
    ∧ c9Atoms.initial_charges.foldl decAdd 0 = ⟨5, 1⟩
    ∧ ((⟨5, 1⟩ : Dec) ≠ (0 : Dec) ∧ fmtFixed 0 ⟨5, 1⟩ = "0") := by
  refine ⟨by decide, by decide, by decide, by decide⟩

/-- Atoms periodic only along the third axis. -/
def c1PbcAtoms : MAtoms :=
  { symbols := ["H"], positions := [(0, 0, 0)], pbc := [false, false, true],
    cell := [(0, 0, 0), (0, 0, 0), (0, 0, ⟨2, 0⟩)],
    masses := [⟨15, 1⟩], initial_charges := [0], initial_magmoms := [0] }

/-- An atom whose x coordinate needs eleven decimal places. -/
def c1PrecAtoms : MAtoms :=
  { symbols := ["H"], positions := [(⟨1, 11⟩, 0, 0)], pbc := [false, false, false],
    cell := [(0, 0, 0), (0, 0, 0), (0, 0, 0)],
    masses := [⟨15, 1⟩], initial_charges := [0], initial_magmoms := [0] }

/-- An atom with two coordinates of one hundred million (twenty
formatted characters each, so the fixed-width fields fuse). -/
def c1BigAtoms : MAtoms :=
  { symbols := ["H"], positions := [(⟨100000000, 0⟩, ⟨100000000, 0⟩, 0)],
    pbc := [false, false, false],
    cell := [(0, 0, 0), (0, 0, 0), (0, 0, 0)],
    masses := [⟨15, 1⟩], initial_charges := [0], initial_magmoms := [0] }

/-- C1 counterexample: the write/read round trip does not preserve the
structure in general.  (a) `TV` lines carry no axis, so periodicity
only along z comes back as periodicity along x with a permuted cell.
(b) Positions are written with ten decimals, so one at `1e-11` comes
back as zero.  (c) Two adjacent twenty-character position fields fuse
into one token, the line is mistaken for a z-matrix, and the structure
comes back empty. -/
theorem c1_roundtrip_counterexample :
    ((gaussianRoundTrip pzModel sampleMasses c1PbcAtoms).map GAtomsOut.pbc
        = .ok [true, false, false]
      ∧ c1PbcAtoms.pbc = [false, false, true])
    ∧ ((gaussianRoundTrip pzModel sampleMasses c1PrecAtoms).map GAtomsOut.positions
        = .ok [((0 : Dec), (0 : Dec), (0 : Dec))]
      ∧ c1PrecAtoms.positions = [(⟨1, 11⟩, 0, 0)] ∧ (⟨1, 11⟩ : Dec) ≠ (0 : Dec))
    ∧ ((gaussianRoundTrip pzModel sampleMasses c1BigAtoms).map GAtomsOut.symbols
        = .ok []
      ∧ c1BigAtoms.symbols = ["H"]) := by
  refine ⟨⟨by decide, by decide⟩, ⟨by decide, by decide, by decide⟩, by decide, by decide⟩

/-! ### Dictionary lemmas (shared) -/

theorem find?_key_map_set (k : String) (v : PyVal) (d : PyDict) :
    List.find? (fun p => decide (p.1 = k)) (List.map (fun p => if p.1 = k then (k, v) else p) d)
      = (List.find? (fun p => decide (p.1 = k)) d).map (fun _ => (k, v)) := by
  induction d with
  | nil => simp
  | cons p rest ih =>
    by_cases hp : p.1 = k
    · simp [List.find?, hp]
    · simp only [List.map_cons]
      rw [if_neg hp]
      simp only [List.find?, decide_eq_false hp]
      exact ih

theorem find?_key_map_set_ne (k k' : String) (v : PyVal) (h : k ≠ k') (d : PyDict) :
    List.find? (fun p => decide (p.1 = k)) (List.map (fun p => if p.1 = k' then (k', v) else p) d)
      = List.find? (fun p => decide (p.1 = k)) d := by
  induction d with
  | nil => simp
  | cons p rest ih =>
    by_cases hp : p.1 = k'
    · have hk : ¬(p.1 = k) := by rw [hp]; exact fun hh => h hh.symm
      have hk2 : ¬((k', v).1 = k) := fun hh => h hh.symm
      simp only [List.map_cons]
      rw [if_pos hp]
      simp only [List.find?, decide_eq_false hk, decide_eq_false hk2]
      exact ih
    · simp only [List.map_cons]
      rw [if_neg hp]
      simp only [List.find?]
      cases hd : decide (p.1 = k) <;> simp [ih]

theorem dictGet?_dictSet_self (d : PyDict) (k : String) (v : PyVal) :
    dictGet? (dictSet d k v) k = some v := by
  unfold dictSet
  by_cases h : dictContains d k = true
  · rw [if_pos h]
    unfold dictGet?
    rw [find?_key_map_set]
    unfold dictContains dictGet? at h
    cases hf : List.find? (fun p => decide (p.1 = k)) d with
    | none => rw [hf] at h; simp at h
    | some p => simp
  · rw [if_neg h]
    unfold dictGet?
    rw [show List.append d [(k, v)] = d ++ [(k, v)] from rfl, List.find?_append]
    unfold dictContains dictGet? at h
    cases hf : List.find? (fun p => decide (p.1 = k)) d with
    | some p => exfalso; rw [hf] at h; simp at h
    | none => simp [List.find?]

theorem dictGet?_dictSet_ne (d : PyDict) (k k' : String) (v : PyVal) (h : k ≠ k') :
    dictGet? (dictSet d k' v) k = dictGet? d k := by
  unfold dictSet
  by_cases hc : dictContains d k' = true
  · rw [if_pos hc]
    unfold dictGet?
    rw [find?_key_map_set_ne k k' v h]
  · rw [if_neg hc]
    unfold dictGet?
    rw [show List.append d [(k', v)] = d ++ [(k', v)] from rfl, List.find?_append]
    cases hf : List.find? (fun p => decide (p.1 = k)) d with
    | some p => simp
    | none => simp [List.find?, decide_eq_false (fun hh : (k', v).1 = k => h hh.symm)]

theorem dictGet?_dictRemove_ne (d : PyDict) (k k' : String) (h : k ≠ k') :
    dictGet? (dictRemove d k') k = dictGet? d k := by
  unfold dictGet? dictRemove
  induction d with
  | nil => simp
  | cons p rest ih =>
    by_cases hp : p.1 = k'
    · have hk : ¬(p.1 = k) := by rw [hp]; exact fun hh => h hh.symm
      rw [List.filter_cons_of_neg (by simp [hp])]
      simp only [List.find?, decide_eq_false hk]
      exact ih
    · rw [List.filter_cons_of_pos (by simp [hp])]
      simp only [List.find?]
      cases hd : decide (p.1 = k) with
      | true => rfl
      | false => exact ih

theorem dictContains_dictRemove_ne (d : PyDict) (k k' : String) (h : k ≠ k') :
    dictContains (dictRemove d k') k = dictContains d k := by
  unfold dictContains
  rw [dictGet?_dictRemove_ne d k k' h]

/-- The two ways `write_crystal_in` can die before its
magnetic-moments check: point charges without positions, or a missing
`basis` file for `basis='custom'`. -/
def crystalAbortsBeforeMagmoms (fs : CrystalFS) (st : CrystalState) : Bool :=
  (match st.pcpot with
   | some pc => pc.mmcharges.isSome && pc.mmpositions.isNone
   | none => false)
  || (st.params.basis = "custom" && fs.basisLines.isNone)

/-- C5 amended: writing an input file only serializes — `write_gaussian_in`
leaves the caller's `params` and `atoms` unchanged (it deep-copies the
parameters on source line 91); `CRYSTAL.write_crystal_in` leaves the
calculator's parameters unchanged EXCEPT that it sets `spinpol` to
`True` whenever the atoms carry a nonzero initial magnetic moment and
the write reaches that check. -/
theorem c5_writer_effects_amended :
    (∀ (mt : Nat → Dec) (rf : String → Option String) (atoms : MAtoms)
        (props : Option (List String)) (params : PyDict),
      (writeGaussianInEffects mt rf atoms props params).2.1 = params
      ∧ (writeGaussianInEffects mt rf atoms props params).2.2 = atoms)
    ∧ (∀ (fs : CrystalFS) (st : CrystalState),
      (writeCrystalIn fs st).2.1 =
        if crystalAbortsBeforeMagmoms fs st then st.params
        else if st.atoms.magmoms.any (fun m => !decIsZero m) then
          { st.params with spinpol := true }
        else st.params) := by
  refine ⟨fun mt rf atoms props params => ⟨rfl, rfl⟩, fun fs st => ?_⟩
  cases hpc : st.pcpot with
  | none =>
    by_cases hb : st.params.basis = "custom"
    · cases hbl : fs.basisLines with
      | none => simp [writeCrystalIn, crystalHead, wext, crystalAbortsBeforeMagmoms, hpc, hb, hbl]
      | some bl => simp [writeCrystalIn, crystalHead, wext, crystalAbortsBeforeMagmoms, hpc, hb, hbl]
    · simp [writeCrystalIn, crystalHead, wext, crystalAbortsBeforeMagmoms, hpc, hb]
  | some pc =>
    cases hq : pc.mmcharges with
    | none =>
      by_cases hb : st.params.basis = "custom"
      · cases hbl : fs.basisLines with
        | none => simp [writeCrystalIn, crystalHead, wext, crystalAbortsBeforeMagmoms, writeMmcharges, hpc, hq, hb, hbl]
        | some bl => simp [writeCrystalIn, crystalHead, wext, crystalAbortsBeforeMagmoms, writeMmcharges, hpc, hq, hb, hbl]
      · simp [writeCrystalIn, crystalHead, wext, crystalAbortsBeforeMagmoms, writeMmcharges, hpc, hq, hb]
    | some qs =>
      cases hp2 : pc.mmpositions with
      | none => simp [writeCrystalIn, crystalHead, wext, crystalAbortsBeforeMagmoms, writeMmcharges, hpc, hq, hp2]
      | some ps =>
        by_cases hb : st.params.basis = "custom"
        · cases hbl : fs.basisLines with
          | none => simp [writeCrystalIn, crystalHead, wext, crystalAbortsBeforeMagmoms, writeMmcharges, hpc, hq, hp2, hb, hbl]
          | some bl => simp [writeCrystalIn, crystalHead, wext, crystalAbortsBeforeMagmoms, writeMmcharges, hpc, hq, hp2, hb, hbl]
        · simp [writeCrystalIn, crystalHead, wext, crystalAbortsBeforeMagmoms, writeMmcharges, hpc, hq, hp2, hb]

/-- Appending a block never loses already-written lines. -/
theorem wext_mem {x : String} (acc blk : List String × Option PyErr) (h : x ∈ acc.1) :
    x ∈ (wext acc blk).1 := by
  obtain ⟨l, e⟩ := acc
  cases e with
  | none => simpa [wext] using Or.inl h
  | some err => simpa [wext] using h

/-- `get?` through `zip`-then-`map`. -/
theorem zipMap_get? {α β γ : Type} (f : α × β → γ) :
    ∀ (ps : List α) (qs : List β) (i : Nat),
      ((ps.zip qs).map f).get? i
        = (ps.get? i).bind (fun p => (qs.get? i).map (fun q => f (p, q))) := by
  intro ps
  induction ps with
  | nil => intro qs i; simp
  | cons p pr ih =>
    intro qs i
    cases qs with
    | nil => simp
    | cons q qr =>
      cases i with
      | zero => simp
      | succ j => simpa using ih qr j

/-- C6: with point charges embedded and positions set,
`write_crystal_in` writes the `POINTCHG` keyword into the input file,
and `write_mmcharges` writes a `POINTCHG.INP` whose first line is the
number of charges, followed by one line per charge with its x, y, z
coordinates and charge value; with `mmcharges=None` no file is
written. -/
theorem c6_pointchg_and_mmcharges :
    (∀ (fs : CrystalFS) (st : CrystalState) (pc : PointChargePot),
      st.pcpot = some pc → "POINTCHG \n" ∈ (writeCrystalIn fs st).1)
    ∧ (∀ (pc : PointChargePot) (qs : List Dec) (ps : List (Dec × Dec × Dec)),
      pc.mmcharges = some qs → pc.mmpositions = some ps → ps.length = qs.length →
      ∃ lines, writeMmcharges pc = some (lines, none)
        ∧ lines.head? = some (intStr qs.length ++ " \n")
        ∧ lines.length = qs.length + 1
        ∧ ∀ i, i < qs.length →
            lines.get? (i + 1) = (ps.get? i).bind (fun p => (qs.get? i).map (fun q =>
              fmtF12x6 p.1 ++ " " ++ fmtF12x6 p.2.1 ++ " " ++ fmtF12x6 p.2.2
                ++ " " ++ fmtF12x6 q ++ " \n")))
    ∧ (∀ pc : PointChargePot, pc.mmcharges = none → writeMmcharges pc = none) := by
  refine ⟨?_, ?_, ?_⟩
  · intro fs st pc hpc
    have hmem : "POINTCHG \n" ∈ (crystalHead fs st).1 := by
      unfold crystalHead
      apply wext_mem
      rw [hpc]
      rcases hw : writeMmcharges pc with _ | ⟨ls, _ | e⟩ <;> simp [hw, wext]
    unfold writeCrystalIn
    rcases h2 : (crystalHead fs st).2 with _ | e
    · simp only [h2]
      exact wext_mem _ _ (wext_mem _ _ (wext_mem _ _ (wext_mem _ _ (wext_mem _ _
        (wext_mem _ _ hmem)))))
    · simp only [h2]
      exact hmem
  · intro pc qs ps hq hp hlen
    refine ⟨_, by rw [writeMmcharges, hq, hp], by simp, ?_, ?_⟩
    · simp [List.length_zip, hlen]
    · intro i hi
      simp only [List.get?_cons_succ]
      rw [zipMap_get? (fun pq => fmtF12x6 pq.1.1 ++ " " ++ fmtF12x6 pq.1.2.1 ++ " "
        ++ fmtF12x6 pq.1.2.2 ++ " " ++ fmtF12x6 pq.2 ++ " \n") ps qs i]
  · intro pc h
    rw [writeMmcharges, h]

/-- A concrete point-charge potential: two charges with positions set. -/
def c6Pc : PointChargePot :=
  pcpotSetPositions (crystalEmbed (some [⟨1, 0⟩, ⟨-2, 1⟩]))
    [(⟨0, 0⟩, ⟨0, 0⟩, ⟨0, 0⟩), (⟨15, 1⟩, ⟨-1, 0⟩, ⟨25, 1⟩)]

/-- A potential embedded with `mmcharges=None`. -/
def c6PcNone : PointChargePot := crystalEmbed none

/-- A filesystem view with a readable basis file and no `fort.20`. -/
def c6FS : CrystalFS := { basisLines := some ["1 2 \n"], fort20Exists := false }

/-- A calculator state carrying the point-charge potential `c6Pc`. -/
def c6State : CrystalState :=
  { params := { xc := .str "HF", spinpol := false, guess := false, kpts := .knone,
                isp := 1, basis := "sto-3g", smearing := none, otherkeys := [] },
    atoms := { magmoms := [], pbc := [false, false, false] },
    pcpot := some c6Pc }

/-- Witness for C6 at the concrete state `c6State` and potential `c6Pc`. -/
theorem c6_pointchg_and_mmcharges_witness :
    ("POINTCHG \n" ∈ (writeCrystalIn c6FS c6State).1)
    ∧ (∃ lines, writeMmcharges c6Pc = some (lines, none)
        ∧ lines.head? = some (intStr ([⟨1, 0⟩, ⟨-2, 1⟩] : List Dec).length ++ " \n")
        ∧ lines.length = ([⟨1, 0⟩, ⟨-2, 1⟩] : List Dec).length + 1
        ∧ ∀ i, i < ([⟨1, 0⟩, ⟨-2, 1⟩] : List Dec).length →
            lines.get? (i + 1) =
              (([(⟨0, 0⟩, ⟨0, 0⟩, ⟨0, 0⟩), (⟨15, 1⟩, ⟨-1, 0⟩, ⟨25, 1⟩)] :
                  List (Dec × Dec × Dec)).get? i).bind (fun p =>
                (([⟨1, 0⟩, ⟨-2, 1⟩] : List Dec).get? i).map (fun q =>
                  fmtF12x6 p.1 ++ " " ++ fmtF12x6 p.2.1 ++ " " ++ fmtF12x6 p.2.2
                    ++ " " ++ fmtF12x6 q ++ " \n")))
    ∧ writeMmcharges c6PcNone = none :=
  ⟨c6_pointchg_and_mmcharges.1 c6FS c6State c6Pc rfl,
   c6_pointchg_and_mmcharges.2.1 c6Pc [⟨1, 0⟩, ⟨-2, 1⟩]
     [(⟨0, 0⟩, ⟨0, 0⟩, ⟨0, 0⟩), (⟨15, 1⟩, ⟨-1, 0⟩, ⟨25, 1⟩)] rfl rfl rfl,
   c6_pointchg_and_mmcharges.2.2 c6PcNone rfl⟩

/-! ### Monadic helper lemmas (shared) -/

/-- Splitting a successful `Except` bind. -/
theorem except_bind_ok {ε α β : Type} {e : Except ε α} {f : α → Except ε β} {b : β}
    (h : e >>= f = .ok b) : ∃ a, e = .ok a ∧ f a = .ok b := by
  cases e with
  | error err => exact absurd h (by simp [Bind.bind, Except.bind])
  | ok a => exact ⟨a, rfl, by simpa [Bind.bind, Except.bind] using h⟩

/-- The tail of `gaussianTop` is the six `dictPop` removals. -/
theorem gaussianTop_params (params0 : PyDict) :
    (gaussianTop params0).params
      = dictRemove (dictRemove (dictRemove (dictRemove (dictRemove (dictRemove
          params0 "method") "basis") "fitting_basis") "output_type") "basisfile") "basis_set" :=
  rfl

/-- Keys other than the six popped ones read through `gaussianTop`. -/
theorem dictGet?_gaussianTop (params0 : PyDict) (k' : String)
    (h1 : k' ≠ "method") (h2 : k' ≠ "basis") (h3 : k' ≠ "fitting_basis")
    (h4 : k' ≠ "output_type") (h5 : k' ≠ "basisfile") (h6 : k' ≠ "basis_set") :
    dictGet? (gaussianTop params0).params k' = dictGet? params0 k' := by
  rw [gaussianTop_params,
      dictGet?_dictRemove_ne _ _ _ h6, dictGet?_dictRemove_ne _ _ _ h5,
      dictGet?_dictRemove_ne _ _ _ h4, dictGet?_dictRemove_ne _ _ _ h3,
      dictGet?_dictRemove_ne _ _ _ h2, dictGet?_dictRemove_ne _ _ _ h1]

/-- `gaussianMethodFromXc` leaves the dictionary alone or pops `xc`. -/
theorem gaussianMethodFromXc_params (mv : PyVal) (d : PyDict) (mp : PyVal × PyDict)
    (h : gaussianMethodFromXc mv d = .ok mp) : mp.2 = d ∨ mp.2 = dictRemove d "xc" := by
  unfold gaussianMethodFromXc at h
  simp only [dictPop] at h
  split at h
  · split at h
    · obtain rfl := Except.ok.inj h
      right; rfl
    · obtain rfl := Except.ok.inj h
      right; rfl
    · exact absurd h (by simp [throw, throwThe, MonadExceptOf.throw])
  · obtain rfl := Except.ok.inj h
    left; rfl

/-- With no `charge` key the charge defaults to the summed initial
charges. -/
theorem gaussianChgMult_charge (atoms : MAtoms) (d : PyDict)
    (h : (dictGet? d "charge").getD PyVal.pnone = PyVal.pnone) :
    (gaussianChgMult atoms d).1
      = PyVal.pfloat (atoms.initial_charges.foldl decAdd 0) := by
  unfold gaussianChgMult
  simp only [dictPop]
  rw [h]

/-- With no `mult` key the multiplicity defaults to the summed initial
magnetic moments plus one. -/
theorem gaussianChgMult_mult (atoms : MAtoms) (d : PyDict)
    (h : (dictGet? d "mult").getD PyVal.pnone = PyVal.pnone) :
    (gaussianChgMult atoms d).2.1
      = PyVal.pfloat (decAdd (atoms.initial_magmoms.foldl decAdd 0) 1) := by
  unfold gaussianChgMult
  simp only [dictPop]
  rw [dictGet?_dictRemove_ne _ _ _ (show ("mult" : String) ≠ "charge" by decide), h]

set_option maxHeartbeats 1000000 in
/-- C9 amended: when `write_gaussian_in` is called without explicit
`charge` and `mult` parameters, the charge-and-multiplicity line it
writes holds the sum of the atoms' initial charges and the sum of
their initial magnetic moments plus one, each formatted by `'{:.0f}'` —
i.e. ROUNDED (half to even) to an integer with no decimal part, not
necessarily equal to a non-integral sum itself. -/
theorem c9_charge_mult_amended
    (mt : Nat → Dec) (rf : String → Option String) (atoms : MAtoms)
    (props : Option (List String)) (params0 : PyDict) (ls : List String)
    (hc : (dictGet? params0 "charge").getD PyVal.pnone = PyVal.pnone)
    (hm : (dictGet? params0 "mult").getD PyVal.pnone = PyVal.pnone)
    (h : writeGaussianInLines mt rf atoms props params0 = .ok ls) :
    fmtFixed 0 (atoms.initial_charges.foldl decAdd 0) ++ " "
      ++ fmtFixed 0 (decAdd (atoms.initial_magmoms.foldl decAdd 0) 1) ∈ ls := by
  unfold writeGaussianInLines at h
  obtain ⟨mp₀, hmp1, h⟩ := except_bind_ok h
  obtain ⟨sp₀, hsp, h⟩ := except_bind_ok h
  obtain ⟨rk₀, hrk, h⟩ := except_bind_ok h
  obtain ⟨iop₀, hiop, h⟩ := except_bind_ok h
  obtain ⟨ex₀, hex, h⟩ := except_bind_ok h
  obtain ⟨chgS₀, hchg, h⟩ := except_bind_ok h
  obtain ⟨multS₀, hmult, h⟩ := except_bind_ok h
  obtain ⟨al₀, hal, h⟩ := except_bind_ok h
  obtain ⟨bl₀, hbl, h⟩ := except_bind_ok h
  obtain ⟨ad₀, had, h⟩ := except_bind_ok h
  have hkc : dictGet? mp₀.2 "charge" = dictGet? params0 "charge" := by
    rcases gaussianMethodFromXc_params _ _ _ hmp1 with he | he
    · rw [he]
      exact dictGet?_gaussianTop params0 "charge"
        (by decide) (by decide) (by decide) (by decide) (by decide) (by decide)
    · rw [he, dictGet?_dictRemove_ne _ _ _ (show ("charge" : String) ≠ "xc" by decide)]
      exact dictGet?_gaussianTop params0 "charge"
        (by decide) (by decide) (by decide) (by decide) (by decide) (by decide)
  have hkm : dictGet? mp₀.2 "mult" = dictGet? params0 "mult" := by
    rcases gaussianMethodFromXc_params _ _ _ hmp1 with he | he
    · rw [he]
      exact dictGet?_gaussianTop params0 "mult"
        (by decide) (by decide) (by decide) (by decide) (by decide) (by decide)
    · rw [he, dictGet?_dictRemove_ne _ _ _ (show ("mult" : String) ≠ "xc" by decide)]
      exact dictGet?_gaussianTop params0 "mult"
        (by decide) (by decide) (by decide) (by decide) (by decide) (by decide)
  rw [gaussianChgMult_charge atoms mp₀.2 (by rw [hkc]; exact hc)] at hchg
  rw [gaussianChgMult_mult atoms mp₀.2 (by rw [hkm]; exact hm)] at hmult
  simp only [pyFmtDotZeroF] at hchg hmult
  have hchg' : chgS₀ = fmtFixed 0 (atoms.initial_charges.foldl decAdd 0) :=
    (Except.ok.inj hchg).symm
  have hmult' : multS₀ = fmtFixed 0 (decAdd (atoms.initial_magmoms.foldl decAdd 0) 1) :=
    (Except.ok.inj hmult).symm
  injection h with h2
  rw [← h2]
  refine List.mem_append_left _ (List.mem_append_left _ (List.mem_append_left _
    (List.mem_append_left _ (List.mem_append_left _ (List.mem_append_left _
    (List.mem_append_right _ ?_))))))
  rw [hchg', hmult']
  simp

/-- Witness for C9 at one hydrogen atom with charge one half and the
empty parameter dictionary. -/
theorem c9_charge_mult_amended_witness :
    (dictGet? ([] : PyDict) "charge").getD PyVal.pnone = PyVal.pnone
    ∧ (dictGet? ([] : PyDict) "mult").getD PyVal.pnone = PyVal.pnone
    ∧ writeGaussianInLines sampleMasses noBasisFS c9Atoms none []
      = .ok ["#P", "", "Gaussian input prepared by ASE", "", "0 1",
             "H                 0.0000000000        0.0000000000        0.0000000000",
             "", "", ""]
    ∧ fmtFixed 0 (c9Atoms.initial_charges.foldl decAdd 0) ++ " "
        ++ fmtFixed 0 (decAdd (c9Atoms.initial_magmoms.foldl decAdd 0) 1)
      ∈ ["#P", "", "Gaussian input prepared by ASE", "", "0 1",
         "H                 0.0000000000        0.0000000000        0.0000000000",
         "", "", ""] :=
  ⟨by decide, by decide, by decide,
   c9_charge_mult_amended sampleMasses noBasisFS c9Atoms none [] _
     (by decide) (by decide) (by decide)⟩

/-- C7 amended: the k-point validation applies to the EFFECTIVE kpts
value, which is `None` for fully non-periodic atoms (so nothing is
checked or written there), and only when the write reaches the k-point
section (an earlier error, e.g. invalid smearing, aborts first):
a float density and an explicit list raise `ValueError`, as does a
tuple ending in a string; an all-integer tuple starts a SHRINK section
(which can still fail with `IndexError` when the tuple is shorter than
the periodic axes need); `kpts=None` writes nothing. -/
theorem c7_kpts_validation_amended (isp : Int) (ispbc : List Bool) :
    (∀ d, crystalKptsBlock isp ispbc (.kfloat d)
      = ([], some (.valueError "K-point density definition not allowed.")))
    ∧ (∀ xs, crystalKptsBlock isp ispbc (.klist xs)
      = ([], some (.valueError "Explicit K-points definition not allowed.")))
    ∧ (∀ xs s, xs.getLast? = some (KElt.str s) →
        crystalKptsBlock isp ispbc (.ktuple xs)
          = ([], some (.valueError "Shifted Monkhorst-Pack not allowed.")))
    ∧ (∀ xs, xs ≠ [] → (∀ e ∈ xs, ∀ s, e ≠ KElt.str s) →
        "SHRINK  \n" ∈ (crystalKptsBlock isp ispbc (.ktuple xs)).1)
    ∧ crystalKptsBlock isp ispbc .knone = ([], none) := by
  refine ⟨fun d => rfl, fun xs => rfl, ?_, ?_, rfl⟩
  · intro xs s h
    simp only [crystalKptsBlock, h]
  · intro xs hne hint
    obtain ⟨last, hlast⟩ := Option.ne_none_iff_exists'.mp
      (fun hnone => hne (List.getLast?_eq_none_iff.mp hnone))
    have hlmem : last ∈ xs := by
      obtain ⟨hne2, heq⟩ := List.mem_getLast?_eq_getLast (l := xs) (x := last)
        (by simp [hlast])
      exact heq ▸ List.getLast_mem hne2
    cases last with
    | str s => exact absurd rfl (hint _ hlmem s)
    | int n =>
      simp only [crystalKptsBlock, hlast]
      split
      · simp
      · split
        · split <;> simp
        · split
          · split <;> simp
          · split
            · split <;> simp
            · simp

/-- Witness for C7 at `isp=1`, fully periodic atoms and concrete kpts
values of every kind. -/
theorem c7_kpts_validation_amended_witness :
    crystalKptsBlock 1 [true, true, true] (.kfloat ⟨5, 1⟩)
      = ([], some (.valueError "K-point density definition not allowed."))
    ∧ crystalKptsBlock 1 [true, true, true] (.klist [⟨1, 0⟩])
      = ([], some (.valueError "Explicit K-points definition not allowed."))
    ∧ crystalKptsBlock 1 [true, true, true] (.ktuple [KElt.int 2, KElt.str "gamma"])
      = ([], some (.valueError "Shifted Monkhorst-Pack not allowed."))
    ∧ "SHRINK  \n" ∈ (crystalKptsBlock 1 [true, true, true]
        (.ktuple [KElt.int 2, KElt.int 2, KElt.int 2])).1
    ∧ crystalKptsBlock 1 [true, true, true] .knone = ([], none) :=
  ⟨(c7_kpts_validation_amended 1 [true, true, true]).1 ⟨5, 1⟩,
   (c7_kpts_validation_amended 1 [true, true, true]).2.1 [⟨1, 0⟩],
   (c7_kpts_validation_amended 1 [true, true, true]).2.2.1 _ "gamma" (by decide),
   (c7_kpts_validation_amended 1 [true, true, true]).2.2.2.1 _ (by decide)
     (by intro e he s hc; rw [hc] at he; simp at he),
   (c7_kpts_validation_amended 1 [true, true, true]).2.2.2.2⟩

/-- `Except.ok` bound into a continuation. -/
theorem except_ok_bind {ε α β : Type} (a : α) (f : α → Except ε β) :
    (Except.ok (ε := ε) a >>= f) = f a := rfl

/-- The z-matrix text of `c4FileTail`'s molecule specification. -/
def c4Zc : String := "C\nH 1 1.08\nH 1 1.08 2 104.5\n"

/-- The variables text of `c4FileTail`'s Variables section. -/
def c4Zv : String := "r=1.0\n"

/-- The parser state after `c4FileTail`'s z-matrix and variables lines
and the following blank line. -/
def c4StB : GParseSt :=
  { parameters := [("output_type", PyVal.pstr "P"), ("hf", PyVal.pnone), ("sto-3g", PyVal.pnone),
                   ("charge", PyVal.pint 0), ("mult", PyVal.pint 1)],
    route_section := false, atoms_section := false, atoms_saved := true,
    readiso := none, count_iso := 0,
    nuclei_props := [("spin", [PyLeaf.pnone, PyLeaf.pnone, PyLeaf.pnone]),
                     ("zeff", [PyLeaf.pnone, PyLeaf.pnone, PyLeaf.pnone]),
                     ("qmom", [PyLeaf.pnone, PyLeaf.pnone, PyLeaf.pnone]),
                     ("nmagm", [PyLeaf.pnone, PyLeaf.pnone, PyLeaf.pnone]),
                     ("znuc", [PyLeaf.pnone, PyLeaf.pnone, PyLeaf.pnone]),
                     ("radnuclear", [PyLeaf.pnone, PyLeaf.pnone, PyLeaf.pnone]),
                     ("iso", [PyLeaf.pnone, PyLeaf.pnone, PyLeaf.pnone])],
    symbols := [], positions := [],
    pbc := [false, false, false], cell := [(0, 0, 0), (0, 0, 0), (0, 0, 0)],
    npbc := 0, zmatrix_type := true,
    zmatrix_contents := "C\nH 1 1.08\nH 1 1.08 2 104.5\n",
    zmatrix_var_section := true, zmatrix_vars := "r=1.0\n", basis_set := "" }

/-- The same state after the z-matrix reader returned `ats`. -/
def c4StZ (ats : List (String × (Dec × Dec × Dec))) : GParseSt :=
  { c4StB with symbols := ats.map Prod.fst, positions := ats.map Prod.snd }

/-- A z-matrix molecule specification containing an eight-token line
ending in `1` (the alternative two-bond-angles format). -/
def c4FileAlt : String :=
  "#P hf/sto-3g\n\nt\n\n0 1\nC\nH 1 1.08\nH 1 1.08 2 104.5 0 0 1\n\n"

/-- C4 amended: a z-matrix molecule specification is converted (through
the external `parse_zmatrix`, here the parameter `pz`, fed the z-matrix
text and the Variables section) only when a nonblank line FOLLOWS the
specification — a file ending right after it parses to an empty
structure (see the counterexample); and a z-matrix line of eight tokens
whose last token is `1` raises `IOError` whatever the reader does. -/
theorem c4_zmatrix_conversion_amended :
    (∀ (pz : ZmatFn) (ats : List (String × (Dec × Dec × Dec))),
      pz c4Zc (some c4Zv) = .ok ats →
      (ats.map Prod.fst).all (fun s => chemicalSymbols.contains s) = true →
      (parseGaussianInput pz (toFileLines c4FileTail)).map
          (fun c => (c.atoms.symbols, c.atoms.positions))
        = .ok (ats.map Prod.fst, ats.map Prod.snd))
    ∧ (∀ pz : ZmatFn,
      parseGaussianInput pz (toFileLines c4FileAlt)
        = .error (.ioError "the alternative Z-matrix format using two bond angles instead of a bond angle and a dihedral angle is not supported")) := by
  constructor
  · intro pz ats hpz hsym
    have e1 : parseGaussianInput pz (toFileLines c4FileTail)
        = (processLine pz c4StB "x\n" >>= fun s => List.foldlM (processLine pz) s ["\n"])
            >>= parsePost := rfl
    have e2 : processLine pz c4StB "x\n"
        = processLine (fun _ _ => pz c4Zc (some c4Zv)) c4StB "x\n" := rfl
    rw [e1, e2, hpz]
    have e3 : processLine (fun _ _ => Except.ok ats) c4StB "x\n" = .ok (c4StZ ats) := rfl
    rw [e3, except_ok_bind]
    have e4 : List.foldlM (processLine pz) (c4StZ ats) ["\n"] = .ok (c4StZ ats) := rfl
    rw [e4, except_ok_bind]
    have e5 : parsePost (c4StZ ats)
        = (if (ats.map Prod.fst).length ≠ (ats.map Prod.snd).length then
             .error (.ioError "Could not read the Gaussian input file, due to a problem with the molecule specification")
           else if !((ats.map Prod.fst).all (fun s => chemicalSymbols.contains s)) then
             .error (.ioError "Could not read the Gaussian input file, due to a problem with the molecule specification")
           else .ok { atoms := { symbols := ats.map Prod.fst, positions := ats.map Prod.snd,
                                 pbc := [false, false, false],
                                 cell := [(0, 0, 0), (0, 0, 0), (0, 0, 0)] },
                      parameters := [("output_type", PyVal.pstr "P"), ("hf", PyVal.pnone),
                                     ("sto-3g", PyVal.pnone), ("charge", PyVal.pint 0),
                                     ("mult", PyVal.pint 1)] }) := rfl
    rw [e5, if_neg (by simp), if_neg (by rw [hsym]; decide)]
    rfl
  · intro pz
    rfl

/-- The atoms the spec-modelled reader returns for `c4Zc`. -/
def c4Ats : List (String × (Dec × Dec × Dec)) :=
  [("C", (0, 0, 0)), ("H", (0, 0, 0)), ("H", (0, 0, 0))]

/-- Witness for C4 at the spec-modelled z-matrix reader `pzModel`. -/
theorem c4_zmatrix_conversion_amended_witness :
    pzModel c4Zc (some c4Zv) = .ok c4Ats
    ∧ (c4Ats.map Prod.fst).all (fun s => chemicalSymbols.contains s) = true
    ∧ (parseGaussianInput pzModel (toFileLines c4FileTail)).map
        (fun c => (c.atoms.symbols, c.atoms.positions))
      = .ok (c4Ats.map Prod.fst, c4Ats.map Prod.snd) :=
  ⟨by decide, by decide,
   c4_zmatrix_conversion_amended.1 pzModel c4Ats (by decide) (by decide)⟩

/-- The loop invariant behind C8: the nuclear-property arrays keep
their seven keys, and (while no z-matrix was seen) each array has one
entry per parsed atomic symbol. -/
def nucleiInv (st : GParseSt) : Prop :=
  st.nuclei_props.map Prod.fst = nucleiPropNames
  ∧ (st.zmatrix_type = false → ∀ kv ∈ st.nuclei_props, kv.2.length = st.symbols.length)

/-- `_save_nuclei_props` keeps the property keys, leaves the arrays
alone on a `TV` line and extends every array by exactly one entry
otherwise. -/
theorem saveNucleiProps_shape (line : String) (nuclei : List (String × List PyLeaf))
    (r : String × String × List String × List (String × List PyLeaf))
    (h : saveNucleiProps line nuclei = .ok r) :
    r.2.2.2.map Prod.fst = nuclei.map Prod.fst
    ∧ (pyUpper r.2.1 = "TV" → r.2.2.2 = nuclei)
    ∧ (pyUpper r.2.1 ≠ "TV" →
        ∀ kv ∈ r.2.2.2, ∃ kv₀ ∈ nuclei, kv.1 = kv₀.1 ∧ kv.2.length = kv₀.2.length + 1) := by
  unfold saveNucleiProps at h
  obtain ⟨res, hres, h⟩ := except_bind_ok h
  obtain ⟨l₀, s₀, t₀, cv₀⟩ := res
  dsimp only at h
  by_cases hTV : pyUpper s₀ = "TV"
  · rw [if_neg (not_not.mpr hTV)] at h
    obtain rfl := Except.ok.inj h
    exact ⟨rfl, fun _ => rfl, fun hne => absurd hTV hne⟩
  · rw [if_pos hTV] at h
    obtain rfl := Except.ok.inj h
    refine ⟨?_, fun hTV2 => absurd hTV2 hTV, fun _ kv hkv => ?_⟩
    · rw [List.map_map]
      apply List.map_congr_left
      intro p _
      cases hq : cv₀.find? (fun q => q.1 = p.1) <;> simp [Function.comp, hq]
    · obtain ⟨kv₀, hmem, rfl⟩ := List.mem_map.mp hkv
      refine ⟨kv₀, hmem, ?_, ?_⟩ <;>
        cases hq : cv₀.find? (fun q => q.1 = kv₀.1) <;> simp [hq]

/-- The `elif atoms_section:` branch preserves the C8 invariant. -/
theorem atomsSectionStep_inv (st : GParseSt) (line : String)
    (r : GParseSt × String × Bool) (h : atomsSectionStep st line = .ok r)
    (hI : nucleiInv st) : nucleiInv r.1 := by
  unfold atomsSectionStep at h
  by_cases h1 : (pySplitWS (asLineA line)).isEmpty = true
  · rw [if_pos h1] at h
    obtain rfl := Except.ok.inj h
    exact hI
  · rw [if_neg h1] at h
    by_cases h2 : (st.zmatrix_type && st.zmatrix_var_section) = true
    · rw [if_pos h2] at h
      obtain rfl := Except.ok.inj h
      exact hI
    · rw [if_neg h2] at h
      by_cases h3 : (st.zmatrix_type && strContainsSub (pyLower (asLineA line)) "variables") = true
      · rw [if_pos h3] at h
        obtain rfl := Except.ok.inj h
        exact hI
      · rw [if_neg h3] at h
        by_cases h4 : (st.zmatrix_type && strContainsSub (pyLower (asLineA line)) "constants") = true
        · rw [if_pos h4] at h
          obtain rfl := Except.ok.inj h
          exact hI
        · rw [if_neg h4] at h
          obtain ⟨r0, hsv, h⟩ := except_bind_ok h
          obtain ⟨lineB, symbol, tokens, nuclei2⟩ := r0
          obtain ⟨hkeys, hTVeq, hTVne⟩ := saveNucleiProps_shape _ _ _ hsv
          dsimp only at h hkeys hTVeq hTVne
          cases hz : st.zmatrix_type with
          | false =>
            simp only [hz, Bool.not_false, if_true] at h
            by_cases h5 : (decide ((tokens.drop 1).length < 3)
                || (decide ((tokens.drop 1).headD "" = "0") && decide (symbol ≠ "TV"))) = true
            · rw [if_pos h5] at h
              by_cases h7 : pyUpper symbol = "TV"
              · rw [if_pos h7] at h
                by_cases h8 : st.npbc < 3
                · rw [if_pos h8] at h
                  rcases hm2 : List.mapM pyFloat? (List.drop 1 tokens) with _ | vs
                  · rw [hm2] at h
                    exact absurd h (by simp)
                  · rw [hm2] at h
                    rcases vs with _ | ⟨v1, _ | ⟨v2, _ | ⟨v3, _ | ⟨v4, vrest⟩⟩⟩⟩
                    · exact absurd h (by simp)
                    · obtain rfl := Except.ok.inj h
                      refine ⟨hkeys.trans hI.1, fun hzt => ?_⟩
                      dsimp only at hzt
                      exact Bool.noConfusion hzt
                    · exact absurd h (by simp)
                    · obtain rfl := Except.ok.inj h
                      refine ⟨hkeys.trans hI.1, fun hzt => ?_⟩
                      dsimp only at hzt
                      exact Bool.noConfusion hzt
                    · exact absurd h (by simp)
                · rw [if_neg h8] at h
                  exact absurd h (by simp)
              · rw [if_neg h7] at h
                obtain rfl := Except.ok.inj h
                refine ⟨hkeys.trans hI.1, fun hzt => ?_⟩
                dsimp only at hzt
                exact Bool.noConfusion hzt
            · rw [if_neg h5] at h
              by_cases h6 : (tokens.drop 1).length > 3
              · rw [if_pos h6] at h
                exact absurd h (by simp)
              · rw [if_neg h6] at h
                rcases hm : List.mapM pyFloat? (List.drop 1 tokens) with _ | l
                · rw [hm] at h
                  dsimp only [Bind.bind, Except.bind] at h
                  exact absurd h (by simp)
                rw [hm] at h
                dsimp only [Bind.bind, Except.bind] at h
                rcases l with _ | ⟨x, _ | ⟨y, _ | ⟨z, _ | ⟨w, rest⟩⟩⟩⟩
                · exact absurd h (by simp)
                · exact absurd h (by simp)
                · exact absurd h (by simp)
                rotate_right
                · exact absurd h (by simp)
                dsimp only at h
                by_cases hTV : pyUpper symbol = "TV"
                · rw [if_pos hTV] at h
                  by_cases hn : st.npbc < 3
                  · rw [if_pos hn] at h
                    obtain rfl := Except.ok.inj h
                    refine ⟨hkeys.trans hI.1, fun _ kv hkv => ?_⟩
                    rw [hTVeq hTV] at hkv
                    exact hI.2 hz kv hkv
                  · rw [if_neg hn] at h
                    exact absurd h (by simp)
                · rw [if_neg hTV] at h
                  obtain rfl := Except.ok.inj h
                  refine ⟨hkeys.trans hI.1, fun _ kv hkv => ?_⟩
                  obtain ⟨kv0, hm, _, he2⟩ := hTVne hTV kv hkv
                  simp [he2, hI.2 hz kv0 hm]
          | true =>
            simp only [hz, Bool.not_true, if_false] at h
            by_cases h7 : (decide ((pySplitWS lineB).length = 8)
                && decide ((pySplitWS lineB).get? 7 = some "1")) = true
            · rw [if_pos h7] at h
              exact absurd h (by simp)
            · rw [if_neg h7] at h
              obtain rfl := Except.ok.inj h
              refine ⟨hkeys.trans hI.1, fun hzt => ?_⟩
              simp [hz] at hzt

/-- The `elif atoms_saved:` branch preserves the C8 invariant. -/
theorem atomsSavedStep_inv (pz : ZmatFn) (st : GParseSt) (line : String)
    (r : GParseSt × String × Bool) (h : atomsSavedStep pz st line = .ok r)
    (hI : nucleiInv st) : nucleiInv r.1 := by
  unfold atomsSavedStep at h
  obtain ⟨stA, hstA, h⟩ := except_bind_ok h
  have hA : nucleiInv stA := by
    by_cases hc : (decide (st.positions.length = 0) && st.zmatrix_type) = true
    · rw [if_pos hc] at hstA
      obtain ⟨rz, hrz, hstA⟩ := except_bind_ok hstA
      obtain rfl := Except.ok.inj hstA
      refine ⟨hI.1, fun hz2 => ?_⟩
      dsimp only at hz2
      have hc2 : st.zmatrix_type = true := by
        cases hzx : st.zmatrix_type
        · rw [hzx] at hc
          simp at hc
        · rfl
      rw [hc2] at hz2
      exact Bool.noConfusion hz2
    · rw [if_neg hc] at hstA
      obtain rfl := Except.ok.inj hstA
      exact hI
  dsimp only at h
  by_cases ht : (pySplitWS line).head? = some "!"
  · rw [if_pos ht] at h
    obtain rfl := Except.ok.inj h
    exact hA
  · rw [if_neg ht] at h
    obtain ⟨ri, hri, h⟩ := except_bind_ok h
    by_cases hAt : (decide ((if (pySplitWS line).isEmpty = true then line
          else (splitOnStr "!" (pyStripWS line)).headD "").length > 0)
        && decide ((if (pySplitWS line).isEmpty = true then line
          else (splitOnStr "!" (pyStripWS line)).headD "").data.headD ' ' = '@')) = true
    · rw [if_pos hAt] at h
      obtain rfl := Except.ok.inj h
      exact hA
    · rw [if_neg hAt] at h
      by_cases hRc : (ri.isSome && decide (stA.count_iso < stA.symbols.length + 1)) = true
      · rw [if_pos hRc] at h
        by_cases hC0 : stA.count_iso = 0
        · rw [if_pos hC0] at h
          obtain ⟨rs, hrs, h⟩ := except_bind_ok h
          obtain rfl := Except.ok.inj h
          exact hA
        · rw [if_neg hC0] at h
          rcases hgi : dictGet? stA.parameters "iso" with _ | v
          · rw [hgi] at h
            exact absurd h (by simp)
          · rw [hgi] at h
            cases v with
            | plist xs =>
              dsimp only at h
              obtain rfl := Except.ok.inj h
              exact hA
            | pstr s => exact absurd h (by simp)
            | pint n => exact absurd h (by simp)
            | pfloat d => exact absurd h (by simp)
            | pbool b => exact absurd h (by simp)
            | pnone => exact absurd h (by simp)
      · rw [if_neg hRc] at h
        rcases hgb : (dictGet? stA.parameters "basis").getD (.pstr "") with bs | n | d | b | _ | xs <;>
          rw [hgb] at h
        · dsimp only at h
          by_cases hg : (decide (pyLower bs = "gen") || dictContains stA.parameters "gen") = true
          · rw [if_pos hg] at h
            by_cases hs : pyStripWS (if (pySplitWS line).isEmpty = true then line
                else (splitOnStr "!" (pyStripWS line)).headD "") ≠ ""
            · rw [if_pos hs] at h
              obtain rfl := Except.ok.inj h
              exact hA
            · rw [if_neg hs] at h
              obtain rfl := Except.ok.inj h
              exact hA
          · rw [if_neg hg] at h
            obtain rfl := Except.ok.inj h
            exact hA
        · exact absurd h (by simp)
        · exact absurd h (by simp)
        · exact absurd h (by simp)
        · exact absurd h (by simp)
        · exact absurd h (by simp)

/-- Each parser-loop iteration preserves the C8 invariant. -/
theorem processLine_inv (pz : ZmatFn) (st : GParseSt) (line : String) (st2 : GParseSt)
    (h : processLine pz st line = .ok st2) (hI : nucleiInv st) : nucleiInv st2 := by
  unfold processLine at h
  obtain ⟨r0, hr, h⟩ := except_bind_ok h
  have hr1 : nucleiInv r0.1 := by
    by_cases hb : (decide (line = "\n") && decide (st.readiso = none)) = true
    · rw [if_pos hb] at hr
      obtain rfl := Except.ok.inj hr
      exact hI
    · rw [if_neg hb] at hr
      rcases hl0 : reLink0Match line with _ | ⟨g1, g2⟩
      · rw [hl0] at hr
        rcases ho : reOutputTypeMatch line with _ | ⟨g0, g1⟩
        · rw [ho] at hr
          dsimp only at hr
          by_cases hcg : reChgMultMatch line = true
          · rw [if_pos hcg] at hr
            rcases ht0 : (pySplitWS line).get? 0 with _ | t0
            · simp only [ht0] at hr
              exact absurd hr (by simp)
            · simp only [ht0] at hr
              rcases hpi : pyInt? t0 with _ | c
              · simp only [hpi] at hr
                exact absurd hr (by simp)
              · simp only [hpi] at hr
                rcases ht1 : (pySplitWS line).get? 1 with _ | t1
                · simp only [ht1] at hr
                  exact absurd hr (by simp)
                · simp only [ht1] at hr
                  rcases hpi2 : pyInt? t1 with _ | m
                  · simp only [hpi2] at hr
                    exact absurd hr (by simp)
                  · simp only [hpi2] at hr
                    obtain rfl := Except.ok.inj hr
                    exact hI
          · rw [if_neg hcg] at hr
            by_cases has : st.atoms_section = true
            · rw [if_pos has] at hr
              exact atomsSectionStep_inv _ _ _ hr hI
            · rw [if_neg has] at hr
              by_cases hsv : st.atoms_saved = true
              · rw [if_pos hsv] at hr
                exact atomsSavedStep_inv _ _ _ _ hr hI
              · rw [if_neg hsv] at hr
                obtain rfl := Except.ok.inj hr
                exact hI
        · rw [ho] at hr
          cases hrt : st.route_section with
          | false =>
            rw [hrt] at hr
            dsimp only at hr
            obtain rfl := Except.ok.inj hr
            exact hI
          | true =>
            rw [hrt] at hr
            dsimp only at hr
            by_cases hcg : reChgMultMatch line = true
            · rw [if_pos hcg] at hr
              rcases ht0 : (pySplitWS line).get? 0 with _ | t0
              · simp only [ht0] at hr
                exact absurd hr (by simp)
              · simp only [ht0] at hr
                rcases hpi : pyInt? t0 with _ | c
                · simp only [hpi] at hr
                  exact absurd hr (by simp)
                · simp only [hpi] at hr
                  rcases ht1 : (pySplitWS line).get? 1 with _ | t1
                  · simp only [ht1] at hr
                    exact absurd hr (by simp)
                  · simp only [ht1] at hr
                    rcases hpi2 : pyInt? t1 with _ | m
                    · simp only [hpi2] at hr
                      exact absurd hr (by simp)
                    · simp only [hpi2] at hr
                      obtain rfl := Except.ok.inj hr
                      exact hI
            · rw [if_neg hcg] at hr
              by_cases has : st.atoms_section = true
              · rw [if_pos has] at hr
                exact atomsSectionStep_inv _ _ _ hr hI
              · rw [if_neg has] at hr
                by_cases hsv : st.atoms_saved = true
                · rw [if_pos hsv] at hr
                  exact atomsSavedStep_inv _ _ _ _ hr hI
                · rw [if_neg hsv] at hr
                  obtain rfl := Except.ok.inj hr
                  exact hI
      · rw [hl0] at hr
        dsimp only at hr
        obtain rfl := Except.ok.inj hr
        exact hI
  obtain ⟨st1, line1, skipped⟩ := r0
  dsimp only at h hr1
  by_cases hsk : skipped = true
  · rw [if_pos hsk] at h
    obtain rfl := Except.ok.inj h
    exact hr1
  · rw [if_neg hsk] at h
    by_cases hrt2 : st1.route_section = true
    · rw [if_pos hrt2] at h
      obtain ⟨p, hp, h⟩ := except_bind_ok h
      obtain rfl := Except.ok.inj h
      exact hr1
    · rw [if_neg hrt2] at h
      obtain rfl := Except.ok.inj h
      exact hr1

/-- The whole parser loop preserves the C8 invariant. -/
theorem parseCore_inv (pz : ZmatFn) :
    ∀ (lines : List String) (s0 s1 : GParseSt),
      List.foldlM (processLine pz) s0 lines = .ok s1 → nucleiInv s0 → nucleiInv s1 := by
  intro lines
  induction lines with
  | nil =>
    intro s0 s1 h h0
    obtain rfl := Except.ok.inj h
    exact h0
  | cons a l ih =>
    intro s0 s1 h h0
    rw [List.foldlM_cons] at h
    obtain ⟨s3, hstep, h⟩ := except_bind_ok h
    exact ih s3 s1 h (processLine_inv pz s0 a s3 hstep h0)

/-- `_add_nuclei_props_to_params` over non-`iso` arrays leaves the
`iso` parameter alone. -/
theorem dictGet?_addNuclei_ne (p : PyDict) (n6 : List (String × List PyLeaf))
    (h : ∀ kv ∈ n6, kv.1 ≠ "iso") :
    dictGet? (addNucleiPropsToParams p n6) "iso" = dictGet? p "iso" := by
  induction n6 generalizing p with
  | nil => rfl
  | cons kv l ih =>
    unfold addNucleiPropsToParams
    rw [List.foldl_cons]
    have h1 : dictGet? (if kv.2.any (fun v => v ≠ PyLeaf.pnone) then dictSet p kv.1 (.plist kv.2)
        else p) "iso" = dictGet? p "iso" := by
      split
      · exact dictGet?_dictSet_ne _ _ _ _ (fun he => h kv (List.mem_cons_self kv l) he.symm)
      · rfl
    have h2 := ih (if kv.2.any (fun v => v ≠ PyLeaf.pnone) then dictSet p kv.1 (.plist kv.2)
        else p) (fun kv2 hm => h kv2 (List.mem_cons_of_mem kv hm))
    unfold addNucleiPropsToParams at h2
    exact h2.trans h1

/-- What `_add_nuclei_props_to_params` leaves under `iso`: the per-atom
array when any entry is set, the incoming parameter otherwise. -/
theorem dictGet?_addNuclei_iso (p : PyDict) (n6 : List (String × List PyLeaf))
    (isoArr : List PyLeaf) (h : ∀ kv ∈ n6, kv.1 ≠ "iso") :
    dictGet? (addNucleiPropsToParams p (n6 ++ [("iso", isoArr)])) "iso"
      = if isoArr.any (fun v => v ≠ PyLeaf.pnone) then some (.plist isoArr)
        else dictGet? p "iso" := by
  unfold addNucleiPropsToParams
  rw [List.foldl_append]
  simp only [List.foldl_cons, List.foldl_nil]
  have hq := dictGet?_addNuclei_ne p n6 h
  unfold addNucleiPropsToParams at hq
  split
  · rw [dictGet?_dictSet_self]
  · exact hq

/-- A property-array list with the seven standard keys splits off its
final `iso` entry. -/
theorem nuclei_shape (l : List (String × List PyLeaf))
    (h : l.map Prod.fst = nucleiPropNames) :
    ∃ n6 isoArr, l = n6 ++ [("iso", isoArr)] ∧ (∀ kv ∈ n6, kv.1 ≠ "iso")
      ∧ ("iso", isoArr) ∈ l := by
  rcases l with _ | ⟨a, l⟩
  · exact absurd (congrArg List.length h) (by simp [nucleiPropNames])
  rcases l with _ | ⟨b, l⟩
  · exact absurd (congrArg List.length h) (by simp [nucleiPropNames])
  rcases l with _ | ⟨c, l⟩
  · exact absurd (congrArg List.length h) (by simp [nucleiPropNames])
  rcases l with _ | ⟨d, l⟩
  · exact absurd (congrArg List.length h) (by simp [nucleiPropNames])
  rcases l with _ | ⟨e, l⟩
  · exact absurd (congrArg List.length h) (by simp [nucleiPropNames])
  rcases l with _ | ⟨f, l⟩
  · exact absurd (congrArg List.length h) (by simp [nucleiPropNames])
  rcases l with _ | ⟨g, l⟩
  · exact absurd (congrArg List.length h) (by simp [nucleiPropNames])
  rcases l with _ | ⟨x, l⟩
  case cons.cons.cons.cons.cons.cons.cons.cons =>
    exact absurd (congrArg List.length h) (by simp [nucleiPropNames])
  simp only [List.map_cons, List.map_nil, nucleiPropNames, List.cons.injEq, and_true] at h
  obtain ⟨h1, h2, h3, h4, h5, h6, h7⟩ := h
  have hg : g = ("iso", g.2) := by
    rw [← h7]
  refine ⟨[a, b, c, d, e, f], g.2, by rw [hg]; rfl, ?_, by rw [hg]; simp⟩
  intro kv hkv
  simp only [List.mem_cons, List.not_mem_nil, or_false] at hkv
  rcases hkv with rfl | rfl | rfl | rfl | rfl | rfl <;>
    simp [h1, h2, h3, h4, h5, h6]

/-- Whether the `iso` parameter currently holds a plain string (a
route- or link0-level `iso=...` option rather than a ReadIsotopes
list). -/
def isoIsStr (d : PyDict) : Bool :=
  match dictGet? d "iso" with
  | some (PyVal.pstr _) => true
  | _ => false

/-- `_validate_params` never changes the `iso` entry. -/
theorem validateParams_get_iso (d d' : PyDict) (h : validateParams d = .ok d') :
    dictGet? d' "iso" = dictGet? d "iso" := by
  unfold validateParams at h
  by_cases hu : (["Z-matrix", "ModRedun", "AddRedun", "ReadOpt", "RdOpt"].any
      (fun s => (dictValues d).any (fun v =>
        v ≠ PyVal.pnone && strContainsSub (pyLower (pyStrOf v)) (pyLower s)))) = true
  · rw [if_pos hu] at h
    exact absurd h (by simp)
  · rw [if_neg hu] at h
    rcases hf : (dictKeys d).find? (fun k => strContainsSub (pyLower k) "popt") with _ | k
    · rw [hf] at h
      obtain rfl := Except.ok.inj h
      rfl
    · rw [hf] at h
      obtain rfl := Except.ok.inj h
      have hk := List.find?_some hf
      have hkne : k ≠ "iso" := by
        intro he
        rw [he] at hk
        exact absurd hk (by decide)
      rw [dictGet?_dictSet_ne _ _ _ _ (by decide),
        dictGet?_dictRemove_ne _ _ _ (Ne.symm hkne)]

/-- The first component `_get_readiso_param` returns is `freq` or
`frequency`. -/
theorem getReadisoParam_name (d : PyDict) (r : String × String)
    (h : getReadisoParam d = .ok (some r)) : r.1 = "freq" ∨ r.1 = "frequency" := by
  unfold getReadisoParam at h
  dsimp only at h
  by_cases ht : pyTruthy ((dictGet? d "freq").getD PyVal.pnone) = true
  · rw [if_pos ht] at h
    dsimp only at h
    rcases hv : (dictGet? d "freq").getD PyVal.pnone with s | n | dd | b | xs
    all_goals rw [hv] at h
    · obtain rfl : ("freq", pyLower s) = r := Option.some.inj (Except.ok.inj h)
      left; rfl
    all_goals exact absurd h (by simp)
  · rw [if_neg ht] at h
    dsimp only at h
    rcases hv : (dictGet? d "frequency").getD PyVal.pnone with s | n | dd | b | xs
    all_goals rw [hv] at h
    · obtain rfl : ("frequency", pyLower s) = r := Option.some.inj (Except.ok.inj h)
      right; rfl
    all_goals exact absurd h (by simp)

/-- `_delete_readiso_param` only edits the freq/frequency entry, never
`iso`. -/
theorem deleteReadiso_get_iso (d d' : PyDict) (h : deleteReadisoParam d = .ok d') :
    dictGet? d' "iso" = dictGet? d "iso" := by
  unfold deleteReadisoParam at h
  obtain ⟨fp, hg, h⟩ := except_bind_ok h
  rcases fp with _ | ⟨fn, fo⟩
  · obtain rfl := Except.ok.inj h
    rfl
  · dsimp only at h
    split at h
    all_goals split at h
    · obtain rfl := Except.ok.inj h
      rcases getReadisoParam_name d (fn, fo) hg with he | he
      all_goals dsimp only at he
      all_goals rw [he, dictGet?_dictSet_ne _ _ _ _ (by decide)]
    · exact absurd h (by simp)
    · obtain rfl := Except.ok.inj h
      rcases getReadisoParam_name d (fn, fo) hg with he | he
      all_goals dsimp only at he
      all_goals rw [he, dictGet?_dictSet_ne _ _ _ _ (by decide)]
    · exact absurd h (by simp)

/-- After a successful cartesian parse with a detected ReadIsotopes
section, the final `iso` parameter is a list of the symbols'
length. -/
theorem parsePost_iso (st : GParseSt) (cfg : GConfigIn) (r2 : String × String)
    (hri : st.readiso = some r2) (hzt : st.zmatrix_type = false)
    (hstr : isoIsStr st.parameters = false)
    (hI : nucleiInv st) (h : parsePost st = .ok cfg) :
    ∃ xs, dictGet? cfg.parameters "iso" = some (PyVal.plist xs)
      ∧ xs.length = cfg.atoms.symbols.length := by
  unfold parsePost at h
  obtain ⟨p1, hval, h⟩ := except_bind_ok h
  obtain ⟨p2, hfix, h⟩ := except_bind_ok h
  rw [hri] at hfix
  obtain ⟨p3, hdel, hfix⟩ := except_bind_ok hfix
  rcases hgi : dictGet? p3 "iso" with _ | v
  · rw [hgi] at hfix
    exact absurd hfix (by simp)
  rw [hgi] at hfix
  cases v with
  | pstr s =>
    have hiso := (deleteReadiso_get_iso _ _ hdel).trans (validateParams_get_iso _ _ hval)
    rw [hiso] at hgi
    unfold isoIsStr at hstr
    rw [hgi] at hstr
    simp at hstr
  | pint n => exact absurd hfix (by simp)
  | pfloat d => exact absurd hfix (by simp)
  | pbool b => exact absurd hfix (by simp)
  | pnone => exact absurd hfix (by simp)
  | plist xs =>
  dsimp only at hfix
  obtain rfl := Except.ok.inj hfix
  have hlenFix : (if xs.length < st.symbols.length then
        xs ++ List.replicate (st.symbols.length - xs.length) PyLeaf.pnone
      else if st.symbols.length < xs.length then xs.take st.symbols.length
      else xs).length = st.symbols.length := by
    split
    · next hc =>
      simp [List.length_append, List.length_replicate]
      omega
    · next hc =>
      split
      · next hc2 =>
        simp [List.length_take]
        omega
      · next hc2 =>
        omega
  by_cases hlen : st.symbols.length ≠ st.positions.length
  · rw [if_pos hlen] at h
    exact absurd h (by simp)
  rw [if_neg hlen] at h
  by_cases hall : (!(st.symbols.all fun s => chemicalSymbols.contains s)) = true
  · rw [if_pos hall] at h
    exact absurd h (by simp)
  rw [if_neg hall] at h
  obtain rfl := Except.ok.inj h
  obtain ⟨n6, isoArr, hshape, hnei, hmem⟩ := nuclei_shape st.nuclei_props hI.1
  have hlenIso : isoArr.length = st.symbols.length := hI.2 hzt _ hmem
  show ∃ ys, dictGet? (addNucleiPropsToParams _ st.nuclei_props) "iso"
      = some (PyVal.plist ys) ∧ ys.length = st.symbols.length
  rw [hshape, dictGet?_addNuclei_iso _ _ _ hnei]
  have hP : dictGet? (if st.basis_set ≠ "" then
        dictRemove (dictSet (dictSet (dictSet p3 "iso"
            (PyVal.plist (if xs.length < st.symbols.length then
                xs ++ List.replicate (st.symbols.length - xs.length) PyLeaf.pnone
              else if st.symbols.length < xs.length then xs.take st.symbols.length
              else xs))) "basis_set" (.pstr st.basis_set)) "basis" (.pstr "gen")) "gen"
      else dictSet p3 "iso" (PyVal.plist (if xs.length < st.symbols.length then
          xs ++ List.replicate (st.symbols.length - xs.length) PyLeaf.pnone
        else if st.symbols.length < xs.length then xs.take st.symbols.length
        else xs))) "iso"
      = some (PyVal.plist (if xs.length < st.symbols.length then
          xs ++ List.replicate (st.symbols.length - xs.length) PyLeaf.pnone
        else if st.symbols.length < xs.length then xs.take st.symbols.length
        else xs)) := by
    split
    · rw [dictGet?_dictRemove_ne _ _ _ (by decide),
        dictGet?_dictSet_ne _ _ _ _ (by decide),
        dictGet?_dictSet_ne _ _ _ _ (by decide),
        dictGet?_dictSet_self]
    · rw [dictGet?_dictSet_self]
  split
  · exact ⟨isoArr, rfl, hlenIso⟩
  · exact ⟨_, hP, hlenFix⟩

/-- C8 amended: when `parse_gaussian_input` finishes a file with a
detected ReadIsotopes section, a cartesian molecule specification (no
z-matrix) and an `iso` parameter that is not a plain string (a
route-level `iso=...` option that survived to the end; the
ReadIsotopes first-line machinery itself always makes it a list), the
final `iso` parameter is a list of exactly the atomic symbols' length
— either the length-fixed ReadIsotopes list or the per-atom `iso=`
array that `_add_nuclei_props_to_params` overwrites it with, which
the loop keeps in lockstep with the symbols; a z-matrix or a
surviving string breaks the property (see the counterexample). -/
theorem c8_iso_length_amended :
    ∀ (pz : ZmatFn) (lines : List String) (st : GParseSt) (cfg : GConfigIn) (r2 : String × String),
      parseCore pz lines = .ok st → st.readiso = some r2 → st.zmatrix_type = false →
      isoIsStr st.parameters = false →
      parsePost st = .ok cfg →
      ∃ xs, dictGet? cfg.parameters "iso" = some (PyVal.plist xs)
        ∧ xs.length = cfg.atoms.symbols.length := by
  intro pz lines st cfg r2 hcore hri hzt hstr hpost
  have h0 : nucleiInv initGParseSt := by
    constructor
    · decide
    · intro _ kv hkv
      simp [initGParseSt, nucleiPropNames] at hkv
      rcases hkv with rfl | rfl | rfl | rfl | rfl | rfl | rfl <;> rfl
  exact parsePost_iso st cfg r2 hri hzt hstr
    (parseCore_inv pz lines initGParseSt st hcore h0) hpost

/-- A readiso input with a cartesian molecule specification. -/
def c8GoodFile : String :=
  "#P freq(readiso)\n\nt\n\n0 1\nH(iso=3) 0.0 0.0 0.0\n\n300 1.0\n2.0\n\n"

/-- The parser state after the loop over `c8GoodFile`. -/
def c8GoodSt : GParseSt :=
  { parameters := [("output_type", PyVal.pstr "P"), ("freq", PyVal.pstr "readiso"),
                   ("charge", PyVal.pint 0), ("mult", PyVal.pint 1),
                   ("temperature", PyVal.pstr "300"), ("pressure", PyVal.pstr "1.0"),
                   ("iso", PyVal.plist [PyLeaf.pfloat ⟨2, 0⟩])],
    route_section := false, atoms_section := false, atoms_saved := true,
    readiso := some ("freq", "readiso"), count_iso := 2,
    nuclei_props := [("spin", [PyLeaf.pnone]), ("zeff", [PyLeaf.pnone]),
                     ("qmom", [PyLeaf.pnone]), ("nmagm", [PyLeaf.pnone]),
                     ("znuc", [PyLeaf.pnone]), ("radnuclear", [PyLeaf.pnone]),
                     ("iso", [PyLeaf.pint 3])],
    symbols := ["H"], positions := [(0, 0, 0)],
    pbc := [false, false, false], cell := [(0, 0, 0), (0, 0, 0), (0, 0, 0)],
    npbc := 0, zmatrix_type := false, zmatrix_contents := "",
    zmatrix_var_section := false, zmatrix_vars := "", basis_set := "" }

/-- The configuration `parse_gaussian_input` returns for `c8GoodFile`. -/
def c8GoodCfg : GConfigIn :=
  { atoms := { symbols := ["H"], positions := [(0, 0, 0)],
               pbc := [false, false, false], cell := [(0, 0, 0), (0, 0, 0), (0, 0, 0)] },
    parameters := [("output_type", PyVal.pstr "P"), ("freq", PyVal.pnone),
                   ("charge", PyVal.pint 0), ("mult", PyVal.pint 1),
                   ("temperature", PyVal.pstr "300"), ("pressure", PyVal.pstr "1.0"),
                   ("iso", PyVal.plist [PyLeaf.pint 3])] }

/-- Witness for C8 at `c8GoodFile`. -/
theorem c8_iso_length_amended_witness :
    parseCore pzModel (toFileLines c8GoodFile) = .ok c8GoodSt
    ∧ c8GoodSt.readiso = some ("freq", "readiso")
    ∧ c8GoodSt.zmatrix_type = false
    ∧ isoIsStr c8GoodSt.parameters = false
    ∧ parsePost c8GoodSt = .ok c8GoodCfg
    ∧ (∃ xs, dictGet? c8GoodCfg.parameters "iso" = some (PyVal.plist xs)
        ∧ xs.length = c8GoodCfg.atoms.symbols.length) :=
  ⟨by decide, by decide, by decide, by decide, by decide,
   c8_iso_length_amended pzModel (toFileLines c8GoodFile) c8GoodSt c8GoodCfg ("freq", "readiso")
     (by decide) (by decide) (by decide) (by decide) (by decide)⟩

/-! ## C1: the write/read round trip on losslessly-serialised structures -/

/-- The charge-and-multiplicity line `write_gaussian_in` emits for
integer-formatted charge and multiplicity values. -/
def chgLineStr (c m : Dec) : String := fmtFixed 0 c ++ " " ++ fmtFixed 0 m

/-- One molecule-specification line as `write_gaussian_in` emits it: the
symbol padded to ten characters and three ten-decimal coordinates padded
to twenty. -/
def atomLineStr (s : String) (p : Dec × Dec × Dec) : String :=
  padRightW 10 s ++ padLeftW 20 (fmtFixed 10 p.1) ++ padLeftW 20 (fmtFixed 10 p.2.1)
    ++ padLeftW 20 (fmtFixed 10 p.2.2)

/-- One `TV` lattice-vector line as `write_gaussian_in` emits it. -/
def tvLineStr (p : Dec × Dec × Dec) : String :=
  "TV " ++ padLeftW 20 (fmtFixed 10 p.1) ++ padLeftW 20 (fmtFixed 10 p.2.1)
    ++ padLeftW 20 (fmtFixed 10 p.2.2)

/-- String-level facts about a written line that the parser-side proofs
need: the line is not blank, matches neither the link-0 nor the
output-type pattern, and contains no newline. -/
def lineWireCommon (line : String) : Bool :=
  decide (line ++ "\n" ≠ "\n")
  && (reLink0Match (line ++ "\n")).isNone
  && (reOutputTypeMatch (line ++ "\n")).isNone
  && line.data.all (fun ch => decide (ch ≠ '\n'))

/-- Decidable facts about a written atom line that make the parser read
it back as one atom: tokenization, float round-trips and a recognised
chemical symbol. -/
def wireAtomLine (s : String) (p : Dec × Dec × Dec) : Bool :=
  lineWireCommon (atomLineStr s p)
  && !reChgMultMatch (atomLineStr s p ++ "\n")
  && decide (asLineA (atomLineStr s p ++ "\n") = atomLineStr s p ++ "\n")
  && decide (pySplitWS (atomLineStr s p ++ "\n")
      = [s, fmtFixed 10 p.1, fmtFixed 10 p.2.1, fmtFixed 10 p.2.2])
  && decide (parenMatches (atomLineStr s p ++ "\n") = [])
  && decide (convertToSymbol s = .ok s)
  && decide (pyUpper s ≠ "TV")
  && decide (fmtFixed 10 p.1 ≠ "0")
  && decide (pyFloat? (fmtFixed 10 p.1) = some p.1)
  && decide (pyFloat? (fmtFixed 10 p.2.1) = some p.2.1)
  && decide (pyFloat? (fmtFixed 10 p.2.2) = some p.2.2)
  && decide (pyStripSet "(" (s ++ "(") = s)
  && chemicalSymbols.contains s

/-- Decidable facts about a written `TV` line that make the parser read
it back as one lattice vector. -/
def wireTvLine (p : Dec × Dec × Dec) : Bool :=
  lineWireCommon (tvLineStr p)
  && !reChgMultMatch (tvLineStr p ++ "\n")
  && decide (asLineA (tvLineStr p ++ "\n") = tvLineStr p ++ "\n")
  && decide (pySplitWS (tvLineStr p ++ "\n")
      = ["TV", fmtFixed 10 p.1, fmtFixed 10 p.2.1, fmtFixed 10 p.2.2])
  && decide (parenMatches (tvLineStr p ++ "\n") = [])
  && decide (pyFloat? (fmtFixed 10 p.1) = some p.1)
  && decide (pyFloat? (fmtFixed 10 p.2.1) = some p.2.1)
  && decide (pyFloat? (fmtFixed 10 p.2.2) = some p.2.2)

/-- Decidable facts about a written charge-multiplicity line: it matches
the charge-multiplicity pattern, both tokens parse as integers, and the
resulting parameters pass the validation step unchanged. -/
def wireChgMult (c m : Dec) : Bool :=
  decide (chgLineStr c m ++ "\n" ≠ "\n")
  && (reLink0Match (chgLineStr c m ++ "\n")).isNone
  && (reOutputTypeMatch (chgLineStr c m ++ "\n")).isNone
  && (chgLineStr c m).data.all (fun ch => decide (ch ≠ '\n'))
  && reChgMultMatch (chgLineStr c m ++ "\n")
  && decide (pySplitWS (chgLineStr c m ++ "\n") = [fmtFixed 0 c, fmtFixed 0 m])
  && (pyInt? (fmtFixed 0 c)).isSome
  && (pyInt? (fmtFixed 0 m)).isSome
  && decide (validateParams [("output_type", PyVal.pstr "P"),
        ("charge", PyVal.pint ((pyInt? (fmtFixed 0 c)).getD 0)),
        ("mult", PyVal.pint ((pyInt? (fmtFixed 0 m)).getD 0))]
      = .ok [("output_type", PyVal.pstr "P"),
        ("charge", PyVal.pint ((pyInt? (fmtFixed 0 c)).getD 0)),
        ("mult", PyVal.pint ((pyInt? (fmtFixed 0 m)).getD 0))])

/-- A blank line with no pending ReadIsotopes section only clears the
route and molecule-specification flags. -/
theorem processLine_blank (pz : ZmatFn) (st : GParseSt) (hri : st.readiso = none) :
    processLine pz st "\n" = .ok { st with route_section := false, atoms_section := false } := by
  unfold processLine
  simp only [hri]
  rfl

/-- Reading back the written charge-multiplicity line stores the two
integers and enters the molecule-specification section. -/
theorem processLine_chg (pz : ZmatFn) (st : GParseSt) (c m : Dec) (ci mi : Int)
    (hRoute : st.route_section = false)
    (hci : pyInt? (fmtFixed 0 c) = some ci) (hmi : pyInt? (fmtFixed 0 m) = some mi)
    (hw : wireChgMult c m = true) :
    processLine pz st (chgLineStr c m ++ "\n")
      = .ok { st with parameters := dictSet (dictSet st.parameters "charge" (.pint ci)) "mult" (.pint mi), atoms_section := true } := by
  simp only [wireChgMult, Bool.and_eq_true, decide_eq_true_eq, Option.isNone_iff_eq_none] at hw
  obtain ⟨⟨⟨⟨⟨⟨⟨⟨hne, hl0⟩, hot⟩, hnl⟩, hcg⟩, hsp⟩, hc1⟩, hm1⟩, hval⟩ := hw
  unfold processLine
  simp [hne, hl0, hot, hcg, hsp, hci, hmi, hRoute]
  rfl

/-- Reading back one written atom line appends its symbol and position
and pads every nuclei-property array. -/
theorem processLine_atom (pz : ZmatFn) (st : GParseSt) (s : String) (p : Dec × Dec × Dec)
    (hA : st.atoms_section = true) (hZ : st.zmatrix_type = false)
    (hR : st.route_section = false) (hw : wireAtomLine s p = true) :
    processLine pz st (atomLineStr s p ++ "\n")
      = .ok { st with nuclei_props := st.nuclei_props.map (fun kv => (kv.1, kv.2 ++ [PyLeaf.pnone])), symbols := st.symbols ++ [s], positions := st.positions ++ [p], atoms_saved := true } := by
  simp only [wireAtomLine, lineWireCommon, Bool.and_eq_true, and_assoc, decide_eq_true_eq,
    Option.isNone_iff_eq_none, Bool.not_eq_true'] at hw
  obtain ⟨hne, hl0, hot, hnl, hcg, hal, hsp, hpm, hcs, hTV, hf0, hf1, hf2, hf3, hstrip, hmem⟩ := hw
  unfold processLine atomsSectionStep saveNucleiProps
  simp [hne, hl0, hot, hcg, hal, hsp, hpm, hcs, hTV, hf0, hf1, hf2, hf3, hA, hZ, hR,
    except_ok_bind, List.mapM.loop]

/-- Reading back one written `TV` line records one periodic axis and one
cell row. -/
theorem processLine_tv (pz : ZmatFn) (st : GParseSt) (p : Dec × Dec × Dec)
    (hA : st.atoms_section = true) (hZ : st.zmatrix_type = false)
    (hR : st.route_section = false) (hn : st.npbc < 3)
    (hw : wireTvLine p = true) :
    processLine pz st (tvLineStr p ++ "\n")
      = .ok { st with pbc := st.pbc.set st.npbc true, cell := st.cell.set st.npbc p, npbc := st.npbc + 1, atoms_saved := true } := by
  simp only [wireTvLine, lineWireCommon, Bool.and_eq_true, and_assoc, decide_eq_true_eq,
    Option.isNone_iff_eq_none, Bool.not_eq_true'] at hw
  obtain ⟨hne, hl0, hot, hnl, hcg, hal, hsp, hpm, hf1, hf2, hf3⟩ := hw
  have hcs : convertToSymbol "TV" = Except.ok "TV" := rfl
  have hup : pyUpper "TV" = "TV" := rfl
  unfold processLine atomsSectionStep saveNucleiProps
  simp [hne, hl0, hot, hcg, hal, hsp, hpm, hf1, hf2, hf3, hA, hZ, hR, hn, hcs, hup,
    except_ok_bind, List.mapM.loop]

/-- Folding the parser over all written atom lines appends every symbol
and position in order. -/
theorem parse_atoms_fold (pz : ZmatFn) (sps : List (String × (Dec × Dec × Dec))) (st : GParseSt)
    (hA : st.atoms_section = true) (hZ : st.zmatrix_type = false) (hR : st.route_section = false)
    (hw : sps.all (fun sp => wireAtomLine sp.1 sp.2) = true) :
    List.foldlM (processLine pz) st (sps.map (fun sp => atomLineStr sp.1 sp.2 ++ "\n"))
      = .ok { st with
          nuclei_props := st.nuclei_props.map (fun kv => (kv.1, kv.2 ++ List.replicate sps.length PyLeaf.pnone)),
          symbols := st.symbols ++ sps.map Prod.fst,
          positions := st.positions ++ sps.map Prod.snd,
          atoms_saved := st.atoms_saved || !sps.isEmpty } := by
  induction sps generalizing st with
  | nil =>
    simp only [List.map_nil, List.foldlM_nil, List.length_nil, List.replicate_zero,
      List.append_nil, List.isEmpty_nil, Bool.not_true, Bool.or_false, Prod.mk.eta, List.map_id']
    rfl
  | cons sp rest ih =>
    simp only [List.all_cons, Bool.and_eq_true] at hw
    obtain ⟨hw1, hwrest⟩ := hw
    rw [List.map_cons, List.foldlM_cons, processLine_atom pz st sp.1 sp.2 hA hZ hR hw1]
    rw [except_ok_bind]
    rw [ih { st with nuclei_props := st.nuclei_props.map (fun kv => (kv.1, kv.2 ++ [PyLeaf.pnone])), symbols := st.symbols ++ [sp.1], positions := st.positions ++ [sp.2], atoms_saved := true } hA hZ hR hwrest]
    simp [List.map_map, List.append_assoc, List.replicate_succ, Function.comp]


/-- The nuclei-property view `write_gaussian_in` has when no such
parameters are given: every property is absent. -/
def gNucNone : List (String × PyVal) :=
  [("spin", .pnone), ("zeff", .pnone), ("qmom", .pnone), ("nmagm", .pnone),
   ("znuc", .pnone), ("radnuclear", .pnone)]

/-- With no parameters, no basis file and default properties, the writer
output is the five header lines, the atom lines, the TV lines and the
trailing blanks. -/
theorem writer_lines_ok (mt : Nat → Dec) (atoms : MAtoms) (al : List String)
    (hal : (List.range atoms.symbols.length).mapM (buildAtomLine mt gNucNone atoms)
      = .ok al) :
    writeGaussianInLines mt noBasisFS atoms none []
      = .ok (["#P", "", "Gaussian input prepared by ASE", "",
          fmtFixed 0 (atoms.initial_charges.foldl decAdd (0 : Dec)) ++ " "
            ++ fmtFixed 0 (decAdd (atoms.initial_magmoms.foldl decAdd (0 : Dec)) (1 : Dec))]
          ++ (al ++ (gaussianTvLines atoms ++ ["", "", ""]))) := by
  have hTop : gaussianTop [] = { methodV := .pnone, basisV := .pnone, fittingV := .pnone, outputType := "#P", basisfileV := .pnone, basisSetV := .pnone, params := [] } := rfl
  have hMp : gaussianMethodFromXc PyVal.pnone [] = .ok (PyVal.pnone, ([] : PyDict)) := rfl
  have hCm : gaussianChgMult atoms [] =
      (.pfloat (atoms.initial_charges.foldl decAdd (0 : Dec)),
       .pfloat (decAdd (atoms.initial_magmoms.foldl decAdd (0 : Dec)) (1 : Dec)),
       ([] : PyDict)) := rfl
  have hMisc : gaussianMisc [] = (.pnone, .pnone, .pnone, ([] : PyDict)) := rfl
  have hNuc : gaussianNuclei [] = (gNucNone, ([] : PyDict)) := by decide
  have hLk : gaussianLink0 [] = (([] : List String), ([] : PyDict)) := by decide
  have hSp : gaussianLink0Special [] = .ok (([] : List String), ([] : PyDict)) := by decide
  have hRoute : gaussianRouteLine "#P" .pnone .pnone .pnone = "#P" := rfl
  have hKw : gaussianRouteKw [] = .ok ([] : List String) := rfl
  have hIop : gaussianIopLines .pnone = .ok ([] : List String) := rfl
  have hExtra : gaussianExtraLines .pnone = .ok ([] : List String) := rfl
  have hForce : (["energy"].contains "forces" && !dictContains ([] : PyDict) "force") = false := rfl
  have hBasis : gaussianBasisLines noBasisFS .pnone .pnone .pnone = .ok ([] : List String) := rfl
  have hAddsec : gaussianAddsecLines .pnone = .ok ([] : List String) := rfl
  simp only [writeGaussianInLines, Option.getD_none, hTop, hMp, except_ok_bind, hCm, hMisc,
    hNuc, hLk, hSp, hRoute, hKw, hIop, hExtra, hForce, Bool.false_and, if_false,
    pyFmtDotZeroF, hal, hBasis, hAddsec, List.nil_append, List.append_nil]
  simp [List.append_assoc]

/-- A fallible map that succeeds pointwise succeeds with the pointwise
results. -/
theorem mapM_ok_of_pointwise {α β : Type} {ε : Type} (f : α → Except ε β) (g : α → β)
    (l : List α) (h : ∀ a ∈ l, f a = .ok (g a)) : l.mapM f = .ok (l.map g) := by
  induction l with
  | nil => rfl
  | cons a l ih =>
    rw [List.mapM_cons, h a (List.mem_cons_self a l), except_ok_bind,
      ih (fun b hb => h b (List.mem_cons_of_mem a hb)), except_ok_bind]
    rfl

/-- With no nuclei properties and an unchanged mass, the writer line for
one atom is exactly its padded symbol and coordinates. -/
theorem buildAtomLine_ok (mt : Nat → Dec) (atoms : MAtoms) (i : Nat) (s : String)
    (p : Dec × Dec × Dec) (m : Dec)
    (hs : atoms.symbols.get? i = some s) (hp : atoms.positions.get? i = some p)
    (hm : atoms.masses.get? i = some m)
    (hmem : chemicalSymbols.contains s = true)
    (hmass : decEqv (mt ((chemicalSymbols.indexOf? s).getD 0)) m = true)
    (hstrip : pyStripSet "(" (s ++ "(") = s) :
    buildAtomLine mt gNucNone atoms i = .ok (atomLineStr s p) := by
  have hmem' : s ∈ chemicalSymbols := by
    simpa using hmem
  have hidx : ∃ idx, chemicalSymbols.indexOf? s = some idx := by
    rcases ho : chemicalSymbols.indexOf? s with _ | idx
    · exact absurd (List.indexOf?_eq_none_iff.mp ho) (by simpa using hmem)
    · exact ⟨idx, rfl⟩
  obtain ⟨idx, hidx⟩ := hidx
  rw [hidx] at hmass
  simp only [Option.getD_some] at hmass
  unfold buildAtomLine
  simp only [hs, hp, hm, hidx, except_ok_bind, gNucNone]
  simp [hmass, hstrip, atomLineStr]

/-- The writer produces one line per atom, each the padded symbol and
coordinates. -/
theorem mapM_buildAtomLine (mt : Nat → Dec) (atoms : MAtoms)
    (hlen : atoms.positions.length = atoms.symbols.length)
    (hlm : atoms.symbols.length ≤ atoms.masses.length)
    (hwire : (atoms.symbols.zip atoms.positions).all
      (fun sp => wireAtomLine sp.1 sp.2) = true)
    (hmass : (atoms.symbols.zip atoms.masses).all
      (fun sm => decEqv (mt ((chemicalSymbols.indexOf? sm.1).getD 0)) sm.2) = true) :
    (List.range atoms.symbols.length).mapM (buildAtomLine mt gNucNone atoms)
      = .ok ((atoms.symbols.zip atoms.positions).map
          (fun sp => atomLineStr sp.1 sp.2)) := by
  rw [mapM_ok_of_pointwise (buildAtomLine mt gNucNone atoms)
    (fun i => atomLineStr (atoms.symbols.getD i "")
      (atoms.positions.getD i ((0 : Dec), (0 : Dec), (0 : Dec))))]
  · refine congrArg Except.ok ?_
    refine List.ext_getElem ?_ ?_
    · simp [hlen]
    · intro i hi hi2
      have hin : i < atoms.symbols.length := by simpa using hi
      have hip : i < atoms.positions.length := by rw [hlen]; exact hin
      simp [List.getD_eq_getElem?_getD, List.getElem?_eq_getElem, hin, hip]
  · intro i hi
    rw [List.mem_range] at hi
    have hip : i < atoms.positions.length := by rw [hlen]; exact hi
    have him : i < atoms.masses.length := lt_of_lt_of_le hi hlm
    have hiz : i < (atoms.symbols.zip atoms.positions).length := by
      rw [List.length_zip, hlen]; simpa using hi
    have hw := List.all_eq_true.mp hwire ((atoms.symbols.zip atoms.positions).get ⟨i, hiz⟩)
      (List.get_mem _ _ _)
    rw [List.get_eq_getElem, List.getElem_zip] at hw
    simp only [wireAtomLine, lineWireCommon, Bool.and_eq_true, and_assoc,
      decide_eq_true_eq, Option.isNone_iff_eq_none, Bool.not_eq_true'] at hw
    obtain ⟨-, -, -, -, -, -, -, -, -, -, -, -, -, -, hstrip, hmem⟩ := hw
    have hizm : i < (atoms.symbols.zip atoms.masses).length := by
      rw [List.length_zip]; exact lt_min hi him
    have hm := List.all_eq_true.mp hmass ((atoms.symbols.zip atoms.masses).get ⟨i, hizm⟩)
      (List.get_mem _ _ _)
    rw [List.get_eq_getElem, List.getElem_zip] at hm
    have := buildAtomLine_ok mt atoms i (atoms.symbols[i]) (atoms.positions[i])
      (atoms.masses[i]) (by simp [List.getElem?_eq_getElem, hi])
      (by simp [List.getElem?_eq_getElem, hip]) (by simp [List.getElem?_eq_getElem, him])
      hmem hm hstrip
    rw [this]
    simp [List.getD_eq_getElem?_getD, List.getElem?_eq_getElem, hi, hip]

/-- Splitting text that starts with a newline-free prefix followed by a
newline yields that prefix as the first line. -/
theorem toFileLinesGo_append (xs : List Char) (acc rest : List Char)
    (h : ('\n' : Char) ∉ xs) :
    toFileLinesGo acc (xs ++ '\n' :: rest)
      = String.mk (acc.reverse ++ xs ++ ['\n']) :: toFileLinesGo [] rest := by
  induction xs generalizing acc with
  | nil => simp [toFileLinesGo]
  | cons c cs ih =>
    have hc : ¬(c = '\n') := by
      intro e
      exact h (e ▸ List.mem_cons_self c cs)
    rw [List.cons_append, toFileLinesGo, if_neg hc,
      ih (c :: acc) (fun hm => h (List.mem_cons_of_mem c hm))]
    simp [List.reverse_cons, List.append_assoc]

/-- Joining newline-free lines with newlines and a trailing empty entry,
then iterating the file, returns the same lines each with its newline. -/
theorem toFileLines_joinNl (l : List String) (h : ∀ s ∈ l, ('\n' : Char) ∉ s.data) :
    toFileLines (joinNl (l ++ [""])) = l.map (fun s => s ++ "\n") := by
  induction l with
  | nil => rfl
  | cons x xs ih =>
    have hx : ('\n' : Char) ∉ x.data := h x (List.mem_cons_self x xs)
    have hj : joinNl ((x :: xs) ++ [""]) = x ++ ("\n" ++ joinNl (xs ++ [""])) := by
      cases xs with
      | nil => simp [joinNl, joinWith, String.append_assoc]
      | cons y ys => simp [joinNl, joinWith, String.append_assoc]
    rw [hj]
    have hdata : (x ++ ("\n" ++ joinNl (xs ++ [""]))).data
        = x.data ++ '\n' :: (joinNl (xs ++ [""])).data := by
      simp [String.data_append]
    rw [toFileLines, hdata, toFileLinesGo_append x.data [] _ hx]
    rw [List.map_cons]
    refine congrArg₂ List.cons ?_ (ih (fun s hs => h s (List.mem_cons_of_mem x hs)))
    apply congrArg String.mk
    simp [String.data_append]

/-- Chain one successful fold step with the rest of the fold. -/
theorem foldlM_cons_ok {σ α : Type} {ε : Type} {f : σ → α → Except ε σ} {b b' : σ}
    {a : α} {l : List α} {r : Except ε σ}
    (h1 : f b a = .ok b') (h2 : List.foldlM f b' l = r) :
    List.foldlM f b (a :: l) = r := by
  rw [List.foldlM_cons, h1, except_ok_bind, h2]

/-- Chain a successful fold over a list prefix with the fold over the
rest. -/
theorem foldlM_append_ok {σ α : Type} {ε : Type} {f : σ → α → Except ε σ} {b b' : σ}
    {l1 l2 : List α} {r : Except ε σ}
    (h1 : List.foldlM f b l1 = .ok b') (h2 : List.foldlM f b' l2 = r) :
    List.foldlM f b (l1 ++ l2) = r := by
  rw [List.foldlM_append, h1, except_ok_bind, h2]

/-- The parser state after the route line and title of a written file:
only the output type is stored. -/
def c1PreSt : GParseSt :=
  { initGParseSt with parameters := [("output_type", PyVal.pstr "P")] }

theorem c1_prefix_fold (pz : ZmatFn) :
    List.foldlM (processLine pz) initGParseSt
      ["#P\n", "\n", "Gaussian input prepared by ASE\n", "\n"] = .ok c1PreSt := rfl

/-- An all-None property array counts as absent. -/
theorem any_replicate_pnone (n : Nat) :
    (List.replicate n PyLeaf.pnone).any (fun v => decide (v ≠ PyLeaf.pnone)) = false := by
  simp

/-- The post-loop phase of `parse_gaussian_input` on a state with
validated parameters, no ReadIsotopes section, no basis set and all-None
nuclei properties returns the accumulated atoms unchanged. -/
theorem parsePost_c1 (st : GParseSt) (hv : validateParams st.parameters = .ok st.parameters)
    (hri : st.readiso = none) (hbs : st.basis_set = "")
    (hnuc : st.nuclei_props
      = nucleiPropNames.map (fun k => (k, List.replicate st.symbols.length PyLeaf.pnone)))
    (hlen : st.symbols.length = st.positions.length)
    (hall : st.symbols.all (fun s => chemicalSymbols.contains s) = true) :
    parsePost st = .ok { atoms := { symbols := st.symbols, positions := st.positions, pbc := st.pbc, cell := st.cell }, parameters := st.parameters } := by
  unfold parsePost
  rw [hv, except_ok_bind]
  rw [hri]
  simp only [hbs, hlen, hall, hnuc, except_ok_bind, ne_eq, not_true_eq_false, if_false,
    ite_self]
  simp only [addNucleiPropsToParams, nucleiPropNames, List.map_cons, List.map_nil,
    List.foldl_cons, List.foldl_nil, any_replicate_pnone, Bool.false_eq_true, if_false]
  rfl

/-- A string whose characters all differ from the newline character does
not contain it. -/
theorem data_all_ne_nl {s : String}
    (h : s.data.all (fun ch => decide (ch ≠ '\n')) = true) : ('\n' : Char) ∉ s.data := by
  rw [List.all_eq_true] at h
  intro hm
  have := h _ hm
  simp at this

/-- A wired atom line is newline-free and its symbol is a chemical
symbol. -/
theorem wireAtomLine_parts {s : String} {p : Dec × Dec × Dec}
    (h : wireAtomLine s p = true) :
    (('\n' : Char) ∉ (atomLineStr s p).data) ∧ chemicalSymbols.contains s = true := by
  simp only [wireAtomLine, lineWireCommon, Bool.and_eq_true, and_assoc] at h
  obtain ⟨-, -, -, hnl, -, -, -, -, -, -, -, -, -, -, -, hmem⟩ := h
  exact ⟨data_all_ne_nl hnl, hmem⟩

/-- A wired TV line is newline-free. -/
theorem wireTvLine_nl {p : Dec × Dec × Dec} (h : wireTvLine p = true) :
    ('\n' : Char) ∉ (tvLineStr p).data := by
  simp only [wireTvLine, lineWireCommon, Bool.and_eq_true, and_assoc] at h
  obtain ⟨-, -, -, hnl, -⟩ := h
  exact data_all_ne_nl hnl

/-- A wired charge-multiplicity line is newline-free. -/
theorem wireChgMult_nl {c m : Dec} (h : wireChgMult c m = true) :
    ('\n' : Char) ∉ (chgLineStr c m).data := by
  simp only [wireChgMult, Bool.and_eq_true, and_assoc] at h
  obtain ⟨-, -, -, hnl, -⟩ := h
  exact data_all_ne_nl hnl

/-- The parser state right after the route line of a written file. -/
def c1St1 : GParseSt :=
  { initGParseSt with parameters := [("output_type", PyVal.pstr "P")], route_section := true }

/-- Parsing the written route line stores the output type. -/
theorem c1_step1 (pz : ZmatFn) :
    processLine pz initGParseSt ("#P" ++ "\n") = .ok c1St1 := rfl

/-- The blank line after the route line leaves the route section. -/
theorem c1_step2 (pz : ZmatFn) :
    processLine pz c1St1 ("" ++ "\n") = .ok c1PreSt := rfl

/-- The title line of a written file changes nothing. -/
theorem c1_step3 (pz : ZmatFn) :
    processLine pz c1PreSt ("Gaussian input prepared by ASE" ++ "\n") = .ok c1PreSt := rfl

/-- The blank line after the title changes nothing. -/
theorem c1_step4 (pz : ZmatFn) :
    processLine pz c1PreSt ("" ++ "\n") = .ok c1PreSt := rfl

/-- The parser state after the charge-multiplicity line of a written
file. -/
def c1ChgSt (ci mi : Int) : GParseSt :=
  { c1PreSt with parameters := [("output_type", PyVal.pstr "P"), ("charge", PyVal.pint ci), ("mult", PyVal.pint mi)], atoms_section := true }

/-- The parser state after all atom lines of a written file. -/
def c1AtomSt (ci mi : Int) (sps : List (String × (Dec × Dec × Dec))) : GParseSt :=
  { c1ChgSt ci mi with nuclei_props := (c1ChgSt ci mi).nuclei_props.map (fun kv => (kv.1, kv.2 ++ List.replicate sps.length PyLeaf.pnone)), symbols := (c1ChgSt ci mi).symbols ++ sps.map Prod.fst, positions := (c1ChgSt ci mi).positions ++ sps.map Prod.snd, atoms_saved := (c1ChgSt ci mi).atoms_saved || !sps.isEmpty }

/-- The parser state at the end of a written file without TV lines. -/
def c1DoneSt (ci mi : Int) (sps : List (String × (Dec × Dec × Dec))) : GParseSt :=
  { c1AtomSt ci mi sps with route_section := false, atoms_section := false }

/-- Variant of the blank-line step stated for the written
empty-line-plus-newline form. -/
theorem processLine_blank2 (pz : ZmatFn) (st : GParseSt) (hri : st.readiso = none) :
    processLine pz st ("" ++ "\n")
      = .ok { st with route_section := false, atoms_section := false } :=
  processLine_blank pz st hri

/-- The state change of reading back one TV line. -/
def tvStep (st : GParseSt) (p : Dec × Dec × Dec) : GParseSt :=
  { st with pbc := st.pbc.set st.npbc true, cell := st.cell.set st.npbc p, npbc := st.npbc + 1, atoms_saved := true }

/-- The TV-line step restated through the state-change function. -/
theorem processLine_tv2 (pz : ZmatFn) (st : GParseSt) (p : Dec × Dec × Dec)
    (hA : st.atoms_section = true) (hZ : st.zmatrix_type = false)
    (hR : st.route_section = false) (hn : st.npbc < 3)
    (hw : wireTvLine p = true) :
    processLine pz st (tvLineStr p ++ "\n") = .ok (tvStep st p) :=
  processLine_tv pz st p hA hZ hR hn hw


set_option maxHeartbeats 2000000 in
/-- C1 (amended): restricted to structures the writer serialises
losslessly, the round trip is the identity on symbols, positions, cell
and periodic flags.  The restrictions: positions and symbols have equal
length, each symbol has its library mass, every written atom line
satisfies the decidable wire facts (tokenisation, ten-decimal float
round-trip, recognised symbol), the default charge/multiplicity line
parses back to its integers, periodicity holds on the first axes only,
the cell rows beyond them are zero, and the written TV lines satisfy
their wire facts.  Then `write_gaussian_in` followed by
`read_gaussian_in` returns the original symbols, positions, periodic
flags and cell. -/
theorem c1_roundtrip_amended (pz : ZmatFn) (mt : Nat → Dec) (atoms : MAtoms)
    (k : Nat) (hk : k ≤ 3) (r0 r1 r2 : Dec × Dec × Dec)
    (hlen : atoms.positions.length = atoms.symbols.length)
    (hlm : atoms.symbols.length ≤ atoms.masses.length)
    (hwire : (atoms.symbols.zip atoms.positions).all
      (fun sp => wireAtomLine sp.1 sp.2) = true)
    (hmassall : (atoms.symbols.zip atoms.masses).all
      (fun sm => decEqv (mt ((chemicalSymbols.indexOf? sm.1).getD 0)) sm.2) = true)
    (hchg : wireChgMult (atoms.initial_charges.foldl decAdd (0 : Dec))
      (decAdd (atoms.initial_magmoms.foldl decAdd (0 : Dec)) (1 : Dec)) = true)
    (hpbc : atoms.pbc = List.replicate k true ++ List.replicate (3 - k) false)
    (hcell : atoms.cell = [r0, r1, r2])
    (hcw : (atoms.cell.take k).all (fun r => wireTvLine r) = true)
    (hcz : (atoms.cell.drop k).all
      (fun r => decide (r = ((0 : Dec), (0 : Dec), (0 : Dec)))) = true) :
    gaussianRoundTrip pz mt atoms
      = .ok { symbols := atoms.symbols, positions := atoms.positions,
              pbc := atoms.pbc, cell := atoms.cell } := by
  have hchg2 := hchg
  simp only [wireChgMult, Bool.and_eq_true, and_assoc] at hchg2
  obtain ⟨-, -, -, -, -, -, hc1, hm1, hval⟩ := hchg2
  obtain ⟨ci, hci⟩ := Option.isSome_iff_exists.mp hc1
  obtain ⟨mi, hmi⟩ := Option.isSome_iff_exists.mp hm1
  rw [hci, hmi] at hval
  simp only [Option.getD_some] at hval
  simp only [decide_eq_true_eq] at hval
  have hal := mapM_buildAtomLine mt atoms hlen hlm hwire hmassall
  have hW := writer_lines_ok mt atoms _ hal
  unfold gaussianRoundTrip writeGaussianIn
  rw [hW]
  dsimp only [Except.map, Except.bind]
  interval_cases k
  · simp only [List.replicate] at hpbc
    rw [hcell] at hcw hcz
    simp only [List.take, List.drop, List.all_cons, List.all_nil, Bool.and_eq_true,
      decide_eq_true_eq, and_true, and_assoc] at hcw hcz
    obtain ⟨rfl, rfl, rfl⟩ := hcz
    have htv : gaussianTvLines atoms = [] := by
      simp [gaussianTvLines, hpbc, hcell, tvLineStr]
    rw [htv]
    have hsplit : (["#P", "", "Gaussian input prepared by ASE", "",
        fmtFixed 0 (List.foldl decAdd 0 atoms.initial_charges) ++ " " ++
          fmtFixed 0 (decAdd (List.foldl decAdd 0 atoms.initial_magmoms) 1)] ++
        (List.map (fun sp => atomLineStr sp.1 sp.2) (atoms.symbols.zip atoms.positions) ++
          ([] ++ ["", "", ""])))
        = (["#P", "", "Gaussian input prepared by ASE", "",
            chgLineStr (List.foldl decAdd 0 atoms.initial_charges)
            (decAdd (List.foldl decAdd 0 atoms.initial_magmoms) 1)] ++
           (List.map (fun sp => atomLineStr sp.1 sp.2) (atoms.symbols.zip atoms.positions)
             ++ ["", ""])) ++ [""] := by
      simp [chgLineStr, List.append_assoc]
    rw [hsplit]
    have hM : ∀ s ∈ (["#P", "", "Gaussian input prepared by ASE", "",
        chgLineStr (List.foldl decAdd 0 atoms.initial_charges)
            (decAdd (List.foldl decAdd 0 atoms.initial_magmoms) 1)] ++
        (List.map (fun sp => atomLineStr sp.1 sp.2) (atoms.symbols.zip atoms.positions)
          ++ ["", ""])), ('\n' : Char) ∉ s.data := by
      intro s hs
      simp only [List.mem_append, List.mem_cons, List.mem_map, List.not_mem_nil, or_false] at hs
      rcases hs with (rfl | rfl | rfl | rfl | rfl) | (⟨sp, hsp, rfl⟩ | (rfl | rfl))
      · decide
      · decide
      · decide
      · decide
      · exact wireChgMult_nl hchg
      · exact (wireAtomLine_parts (List.all_eq_true.mp hwire sp hsp)).1
      · decide
      · decide
    rw [toFileLines_joinNl _ hM]
    simp only [List.map_append, List.map_cons, List.map_nil, List.map_map, Function.comp_def]
    simp only [readGaussianIn, parseGaussianInput, parseCore]
    have hTVBL : List.foldlM (processLine pz)
        (c1AtomSt ci mi (atoms.symbols.zip atoms.positions)) [("" ++ "\n"), ("" ++ "\n")]
        = .ok ({ (c1AtomSt ci mi (atoms.symbols.zip atoms.positions)) with route_section := false, atoms_section := false } : GParseSt) :=
      foldlM_cons_ok (processLine_blank2 pz _ rfl) (foldlM_cons_ok (processLine_blank2 pz _ rfl) rfl)
    have hatoms : List.foldlM (processLine pz) (c1ChgSt ci mi)
        ((atoms.symbols.zip atoms.positions).map (fun sp => atomLineStr sp.1 sp.2 ++ "\n")
          ++ [("" ++ "\n"), ("" ++ "\n")])
        = .ok ({ (c1AtomSt ci mi (atoms.symbols.zip atoms.positions)) with route_section := false, atoms_section := false } : GParseSt) :=
      foldlM_append_ok
        (parse_atoms_fold pz (atoms.symbols.zip atoms.positions) (c1ChgSt ci mi) rfl rfl rfl hwire)
        hTVBL
    have hpre : List.foldlM (processLine pz) initGParseSt
        [("#P" ++ "\n"), ("" ++ "\n"), ("Gaussian input prepared by ASE" ++ "\n"), ("" ++ "\n"),
          (chgLineStr (List.foldl decAdd 0 atoms.initial_charges)
            (decAdd (List.foldl decAdd 0 atoms.initial_magmoms) 1) ++ "\n")]
        = .ok (c1ChgSt ci mi) :=
      foldlM_cons_ok (c1_step1 pz) (foldlM_cons_ok (c1_step2 pz)
        (foldlM_cons_ok (c1_step3 pz) (foldlM_cons_ok (c1_step4 pz)
          (foldlM_cons_ok (processLine_chg pz c1PreSt _ _ ci mi rfl hci hmi hchg) rfl))))
    have hCore := foldlM_append_ok hpre hatoms
    rw [hCore]
    rw [except_ok_bind, parsePost_c1]
    · dsimp only [Except.map]
      have hle1 : atoms.symbols.length ≤ atoms.positions.length := le_of_eq hlen.symm
      have hle2 : atoms.positions.length ≤ atoms.symbols.length := le_of_eq hlen
      simp only [tvStep, c1AtomSt, c1ChgSt, c1PreSt, initGParseSt, List.nil_append]
      rw [List.map_fst_zip _ _ hle1, List.map_snd_zip _ _ hle2]
      rw [hpbc, hcell]
      simp [List.set]
    · exact hval
    · rfl
    · rfl
    · simp [tvStep, c1AtomSt, c1ChgSt, c1PreSt, initGParseSt, nucleiPropNames]
    · simp [tvStep, c1AtomSt, c1ChgSt, c1PreSt, initGParseSt, List.length_zip]
    · simp only [tvStep, c1AtomSt, c1ChgSt, c1PreSt, initGParseSt, List.nil_append]
      rw [List.all_eq_true]
      intro x hx
      obtain ⟨sp, hsp, rfl⟩ := List.mem_map.mp hx
      exact (wireAtomLine_parts (List.all_eq_true.mp hwire sp hsp)).2
  · simp only [List.replicate] at hpbc
    rw [hcell] at hcw hcz
    simp only [List.take, List.drop, List.all_cons, List.all_nil, Bool.and_eq_true,
      decide_eq_true_eq, and_true, and_assoc] at hcw hcz
    obtain ⟨rfl, rfl⟩ := hcz
    have hw0 := hcw
    have htv : gaussianTvLines atoms = [tvLineStr r0] := by
      simp [gaussianTvLines, hpbc, hcell, tvLineStr]
    rw [htv]
    have hsplit : (["#P", "", "Gaussian input prepared by ASE", "",
        fmtFixed 0 (List.foldl decAdd 0 atoms.initial_charges) ++ " " ++
          fmtFixed 0 (decAdd (List.foldl decAdd 0 atoms.initial_magmoms) 1)] ++
        (List.map (fun sp => atomLineStr sp.1 sp.2) (atoms.symbols.zip atoms.positions) ++
          ([tvLineStr r0] ++ ["", "", ""])))
        = (["#P", "", "Gaussian input prepared by ASE", "",
            chgLineStr (List.foldl decAdd 0 atoms.initial_charges)
            (decAdd (List.foldl decAdd 0 atoms.initial_magmoms) 1)] ++
           (List.map (fun sp => atomLineStr sp.1 sp.2) (atoms.symbols.zip atoms.positions)
             ++ [tvLineStr r0, "", ""])) ++ [""] := by
      simp [chgLineStr, List.append_assoc]
    rw [hsplit]
    have hM : ∀ s ∈ (["#P", "", "Gaussian input prepared by ASE", "",
        chgLineStr (List.foldl decAdd 0 atoms.initial_charges)
            (decAdd (List.foldl decAdd 0 atoms.initial_magmoms) 1)] ++
        (List.map (fun sp => atomLineStr sp.1 sp.2) (atoms.symbols.zip atoms.positions)
          ++ [tvLineStr r0, "", ""])), ('\n' : Char) ∉ s.data := by
      intro s hs
      simp only [List.mem_append, List.mem_cons, List.mem_map, List.not_mem_nil, or_false] at hs
      rcases hs with (rfl | rfl | rfl | rfl | rfl) | (⟨sp, hsp, rfl⟩ | (rfl | rfl | rfl))
      · decide
      · decide
      · decide
      · decide
      · exact wireChgMult_nl hchg
      · exact (wireAtomLine_parts (List.all_eq_true.mp hwire sp hsp)).1
      · exact wireTvLine_nl hw0
      · decide
      · decide
    rw [toFileLines_joinNl _ hM]
    simp only [List.map_append, List.map_cons, List.map_nil, List.map_map, Function.comp_def]
    simp only [readGaussianIn, parseGaussianInput, parseCore]
    have hTVBL : List.foldlM (processLine pz)
        (c1AtomSt ci mi (atoms.symbols.zip atoms.positions)) [(tvLineStr r0 ++ "\n"), ("" ++ "\n"), ("" ++ "\n")]
        = .ok ({ (tvStep (c1AtomSt ci mi (atoms.symbols.zip atoms.positions)) r0) with route_section := false, atoms_section := false } : GParseSt) :=
      foldlM_cons_ok (processLine_tv2 pz (c1AtomSt ci mi (atoms.symbols.zip atoms.positions)) r0 rfl rfl rfl (by decide : (0:Nat) < 3) hw0) (foldlM_cons_ok (processLine_blank2 pz _ rfl) (foldlM_cons_ok (processLine_blank2 pz _ rfl) rfl))
    have hatoms : List.foldlM (processLine pz) (c1ChgSt ci mi)
        ((atoms.symbols.zip atoms.positions).map (fun sp => atomLineStr sp.1 sp.2 ++ "\n")
          ++ [(tvLineStr r0 ++ "\n"), ("" ++ "\n"), ("" ++ "\n")])
        = .ok ({ (tvStep (c1AtomSt ci mi (atoms.symbols.zip atoms.positions)) r0) with route_section := false, atoms_section := false } : GParseSt) :=
      foldlM_append_ok
        (parse_atoms_fold pz (atoms.symbols.zip atoms.positions) (c1ChgSt ci mi) rfl rfl rfl hwire)
        hTVBL
    have hpre : List.foldlM (processLine pz) initGParseSt
        [("#P" ++ "\n"), ("" ++ "\n"), ("Gaussian input prepared by ASE" ++ "\n"), ("" ++ "\n"),
          (chgLineStr (List.foldl decAdd 0 atoms.initial_charges)
            (decAdd (List.foldl decAdd 0 atoms.initial_magmoms) 1) ++ "\n")]
        = .ok (c1ChgSt ci mi) :=
      foldlM_cons_ok (c1_step1 pz) (foldlM_cons_ok (c1_step2 pz)
        (foldlM_cons_ok (c1_step3 pz) (foldlM_cons_ok (c1_step4 pz)
          (foldlM_cons_ok (processLine_chg pz c1PreSt _ _ ci mi rfl hci hmi hchg) rfl))))
    have hCore := foldlM_append_ok hpre hatoms
    rw [hCore]
    rw [except_ok_bind, parsePost_c1]
    · dsimp only [Except.map]
      have hle1 : atoms.symbols.length ≤ atoms.positions.length := le_of_eq hlen.symm
      have hle2 : atoms.positions.length ≤ atoms.symbols.length := le_of_eq hlen
      simp only [tvStep, c1AtomSt, c1ChgSt, c1PreSt, initGParseSt, List.nil_append]
      rw [List.map_fst_zip _ _ hle1, List.map_snd_zip _ _ hle2]
      rw [hpbc, hcell]
      simp [List.set]
    · exact hval
    · rfl
    · rfl
    · simp [tvStep, c1AtomSt, c1ChgSt, c1PreSt, initGParseSt, nucleiPropNames]
    · simp [tvStep, c1AtomSt, c1ChgSt, c1PreSt, initGParseSt, List.length_zip]
    · simp only [tvStep, c1AtomSt, c1ChgSt, c1PreSt, initGParseSt, List.nil_append]
      rw [List.all_eq_true]
      intro x hx
      obtain ⟨sp, hsp, rfl⟩ := List.mem_map.mp hx
      exact (wireAtomLine_parts (List.all_eq_true.mp hwire sp hsp)).2
  · simp only [List.replicate] at hpbc
    rw [hcell] at hcw hcz
    simp only [List.take, List.drop, List.all_cons, List.all_nil, Bool.and_eq_true,
      decide_eq_true_eq, and_true, and_assoc] at hcw hcz
    obtain rfl := hcz
    obtain ⟨hw0, hw1⟩ := hcw
    have htv : gaussianTvLines atoms = [tvLineStr r0, tvLineStr r1] := by
      simp [gaussianTvLines, hpbc, hcell, tvLineStr]
    rw [htv]
    have hsplit : (["#P", "", "Gaussian input prepared by ASE", "",
        fmtFixed 0 (List.foldl decAdd 0 atoms.initial_charges) ++ " " ++
          fmtFixed 0 (decAdd (List.foldl decAdd 0 atoms.initial_magmoms) 1)] ++
        (List.map (fun sp => atomLineStr sp.1 sp.2) (atoms.symbols.zip atoms.positions) ++
          ([tvLineStr r0, tvLineStr r1] ++ ["", "", ""])))
        = (["#P", "", "Gaussian input prepared by ASE", "",
            chgLineStr (List.foldl decAdd 0 atoms.initial_charges)
            (decAdd (List.foldl decAdd 0 atoms.initial_magmoms) 1)] ++
           (List.map (fun sp => atomLineStr sp.1 sp.2) (atoms.symbols.zip atoms.positions)
             ++ [tvLineStr r0, tvLineStr r1, "", ""])) ++ [""] := by
      simp [chgLineStr, List.append_assoc]
    rw [hsplit]
    have hM : ∀ s ∈ (["#P", "", "Gaussian input prepared by ASE", "",
        chgLineStr (List.foldl decAdd 0 atoms.initial_charges)
            (decAdd (List.foldl decAdd 0 atoms.initial_magmoms) 1)] ++
        (List.map (fun sp => atomLineStr sp.1 sp.2) (atoms.symbols.zip atoms.positions)
          ++ [tvLineStr r0, tvLineStr r1, "", ""])), ('\n' : Char) ∉ s.data := by
      intro s hs
      simp only [List.mem_append, List.mem_cons, List.mem_map, List.not_mem_nil, or_false] at hs
      rcases hs with (rfl | rfl | rfl | rfl | rfl) | (⟨sp, hsp, rfl⟩ | (rfl | rfl | rfl | rfl))
      · decide
      · decide
      · decide
      · decide
      · exact wireChgMult_nl hchg
      · exact (wireAtomLine_parts (List.all_eq_true.mp hwire sp hsp)).1
      · exact wireTvLine_nl hw0
      · exact wireTvLine_nl hw1
      · decide
      · decide
    rw [toFileLines_joinNl _ hM]
    simp only [List.map_append, List.map_cons, List.map_nil, List.map_map, Function.comp_def]
    simp only [readGaussianIn, parseGaussianInput, parseCore]
    have hTVBL : List.foldlM (processLine pz)
        (c1AtomSt ci mi (atoms.symbols.zip atoms.positions)) [(tvLineStr r0 ++ "\n"), (tvLineStr r1 ++ "\n"), ("" ++ "\n"), ("" ++ "\n")]
        = .ok ({ (tvStep (tvStep (c1AtomSt ci mi (atoms.symbols.zip atoms.positions)) r0) r1) with route_section := false, atoms_section := false } : GParseSt) :=
      foldlM_cons_ok (processLine_tv2 pz (c1AtomSt ci mi (atoms.symbols.zip atoms.positions)) r0 rfl rfl rfl (by decide : (0:Nat) < 3) hw0) (foldlM_cons_ok (processLine_tv2 pz (tvStep (c1AtomSt ci mi (atoms.symbols.zip atoms.positions)) r0) r1 rfl rfl rfl (by decide : (1:Nat) < 3) hw1) (foldlM_cons_ok (processLine_blank2 pz _ rfl) (foldlM_cons_ok (processLine_blank2 pz _ rfl) rfl)))
    have hatoms : List.foldlM (processLine pz) (c1ChgSt ci mi)
        ((atoms.symbols.zip atoms.positions).map (fun sp => atomLineStr sp.1 sp.2 ++ "\n")
          ++ [(tvLineStr r0 ++ "\n"), (tvLineStr r1 ++ "\n"), ("" ++ "\n"), ("" ++ "\n")])
        = .ok ({ (tvStep (tvStep (c1AtomSt ci mi (atoms.symbols.zip atoms.positions)) r0) r1) with route_section := false, atoms_section := false } : GParseSt) :=
      foldlM_append_ok
        (parse_atoms_fold pz (atoms.symbols.zip atoms.positions) (c1ChgSt ci mi) rfl rfl rfl hwire)
        hTVBL
    have hpre : List.foldlM (processLine pz) initGParseSt
        [("#P" ++ "\n"), ("" ++ "\n"), ("Gaussian input prepared by ASE" ++ "\n"), ("" ++ "\n"),
          (chgLineStr (List.foldl decAdd 0 atoms.initial_charges)
            (decAdd (List.foldl decAdd 0 atoms.initial_magmoms) 1) ++ "\n")]
        = .ok (c1ChgSt ci mi) :=
      foldlM_cons_ok (c1_step1 pz) (foldlM_cons_ok (c1_step2 pz)
        (foldlM_cons_ok (c1_step3 pz) (foldlM_cons_ok (c1_step4 pz)
          (foldlM_cons_ok (processLine_chg pz c1PreSt _ _ ci mi rfl hci hmi hchg) rfl))))
    have hCore := foldlM_append_ok hpre hatoms
    rw [hCore]
    rw [except_ok_bind, parsePost_c1]
    · dsimp only [Except.map]
      have hle1 : atoms.symbols.length ≤ atoms.positions.length := le_of_eq hlen.symm
      have hle2 : atoms.positions.length ≤ atoms.symbols.length := le_of_eq hlen
      simp only [tvStep, c1AtomSt, c1ChgSt, c1PreSt, initGParseSt, List.nil_append]
      rw [List.map_fst_zip _ _ hle1, List.map_snd_zip _ _ hle2]
      rw [hpbc, hcell]
      simp [List.set]
    · exact hval
    · rfl
    · rfl
    · simp [tvStep, c1AtomSt, c1ChgSt, c1PreSt, initGParseSt, nucleiPropNames]
    · simp [tvStep, c1AtomSt, c1ChgSt, c1PreSt, initGParseSt, List.length_zip]
    · simp only [tvStep, c1AtomSt, c1ChgSt, c1PreSt, initGParseSt, List.nil_append]
      rw [List.all_eq_true]
      intro x hx
      obtain ⟨sp, hsp, rfl⟩ := List.mem_map.mp hx
      exact (wireAtomLine_parts (List.all_eq_true.mp hwire sp hsp)).2
  · simp only [List.replicate] at hpbc
    rw [hcell] at hcw hcz
    simp only [List.take, List.drop, List.all_cons, List.all_nil, Bool.and_eq_true,
      decide_eq_true_eq, and_true, and_assoc] at hcw hcz
    obtain ⟨hw0, hw1, hw2⟩ := hcw
    have htv : gaussianTvLines atoms = [tvLineStr r0, tvLineStr r1, tvLineStr r2] := by
      simp [gaussianTvLines, hpbc, hcell, tvLineStr]
    rw [htv]
    have hsplit : (["#P", "", "Gaussian input prepared by ASE", "",
        fmtFixed 0 (List.foldl decAdd 0 atoms.initial_charges) ++ " " ++
          fmtFixed 0 (decAdd (List.foldl decAdd 0 atoms.initial_magmoms) 1)] ++
        (List.map (fun sp => atomLineStr sp.1 sp.2) (atoms.symbols.zip atoms.positions) ++
          ([tvLineStr r0, tvLineStr r1, tvLineStr r2] ++ ["", "", ""])))
        = (["#P", "", "Gaussian input prepared by ASE", "",
            chgLineStr (List.foldl decAdd 0 atoms.initial_charges)
            (decAdd (List.foldl decAdd 0 atoms.initial_magmoms) 1)] ++
           (List.map (fun sp => atomLineStr sp.1 sp.2) (atoms.symbols.zip atoms.positions)
             ++ [tvLineStr r0, tvLineStr r1, tvLineStr r2, "", ""])) ++ [""] := by
      simp [chgLineStr, List.append_assoc]
    rw [hsplit]
    have hM : ∀ s ∈ (["#P", "", "Gaussian input prepared by ASE", "",
        chgLineStr (List.foldl decAdd 0 atoms.initial_charges)
            (decAdd (List.foldl decAdd 0 atoms.initial_magmoms) 1)] ++
        (List.map (fun sp => atomLineStr sp.1 sp.2) (atoms.symbols.zip atoms.positions)
          ++ [tvLineStr r0, tvLineStr r1, tvLineStr r2, "", ""])), ('\n' : Char) ∉ s.data := by
      intro s hs
      simp only [List.mem_append, List.mem_cons, List.mem_map, List.not_mem_nil, or_false] at hs
      rcases hs with (rfl | rfl | rfl | rfl | rfl) | (⟨sp, hsp, rfl⟩ | (rfl | rfl | rfl | rfl | rfl))
      · decide
      · decide
      · decide
      · decide
      · exact wireChgMult_nl hchg
      · exact (wireAtomLine_parts (List.all_eq_true.mp hwire sp hsp)).1
      · exact wireTvLine_nl hw0
      · exact wireTvLine_nl hw1
      · exact wireTvLine_nl hw2
      · decide
      · decide
    rw [toFileLines_joinNl _ hM]
    simp only [List.map_append, List.map_cons, List.map_nil, List.map_map, Function.comp_def]
    simp only [readGaussianIn, parseGaussianInput, parseCore]
    have hTVBL : List.foldlM (processLine pz)
        (c1AtomSt ci mi (atoms.symbols.zip atoms.positions)) [(tvLineStr r0 ++ "\n"), (tvLineStr r1 ++ "\n"), (tvLineStr r2 ++ "\n"), ("" ++ "\n"), ("" ++ "\n")]
        = .ok ({ (tvStep (tvStep (tvStep (c1AtomSt ci mi (atoms.symbols.zip atoms.positions)) r0) r1) r2) with route_section := false, atoms_section := false } : GParseSt) :=
      foldlM_cons_ok (processLine_tv2 pz (c1AtomSt ci mi (atoms.symbols.zip atoms.positions)) r0 rfl rfl rfl (by decide : (0:Nat) < 3) hw0) (foldlM_cons_ok (processLine_tv2 pz (tvStep (c1AtomSt ci mi (atoms.symbols.zip atoms.positions)) r0) r1 rfl rfl rfl (by decide : (1:Nat) < 3) hw1) (foldlM_cons_ok (processLine_tv2 pz (tvStep (tvStep (c1AtomSt ci mi (atoms.symbols.zip atoms.positions)) r0) r1) r2 rfl rfl rfl (by decide : (2:Nat) < 3) hw2) (foldlM_cons_ok (processLine_blank2 pz _ rfl) (foldlM_cons_ok (processLine_blank2 pz _ rfl) rfl))))
    have hatoms : List.foldlM (processLine pz) (c1ChgSt ci mi)
        ((atoms.symbols.zip atoms.positions).map (fun sp => atomLineStr sp.1 sp.2 ++ "\n")
          ++ [(tvLineStr r0 ++ "\n"), (tvLineStr r1 ++ "\n"), (tvLineStr r2 ++ "\n"), ("" ++ "\n"), ("" ++ "\n")])
        = .ok ({ (tvStep (tvStep (tvStep (c1AtomSt ci mi (atoms.symbols.zip atoms.positions)) r0) r1) r2) with route_section := false, atoms_section := false } : GParseSt) :=
      foldlM_append_ok
        (parse_atoms_fold pz (atoms.symbols.zip atoms.positions) (c1ChgSt ci mi) rfl rfl rfl hwire)
        hTVBL
    have hpre : List.foldlM (processLine pz) initGParseSt
        [("#P" ++ "\n"), ("" ++ "\n"), ("Gaussian input prepared by ASE" ++ "\n"), ("" ++ "\n"),
          (chgLineStr (List.foldl decAdd 0 atoms.initial_charges)
            (decAdd (List.foldl decAdd 0 atoms.initial_magmoms) 1) ++ "\n")]
        = .ok (c1ChgSt ci mi) :=
      foldlM_cons_ok (c1_step1 pz) (foldlM_cons_ok (c1_step2 pz)
        (foldlM_cons_ok (c1_step3 pz) (foldlM_cons_ok (c1_step4 pz)
          (foldlM_cons_ok (processLine_chg pz c1PreSt _ _ ci mi rfl hci hmi hchg) rfl))))
    have hCore := foldlM_append_ok hpre hatoms
    rw [hCore]
    rw [except_ok_bind, parsePost_c1]
    · dsimp only [Except.map]
      have hle1 : atoms.symbols.length ≤ atoms.positions.length := le_of_eq hlen.symm
      have hle2 : atoms.positions.length ≤ atoms.symbols.length := le_of_eq hlen
      simp only [tvStep, c1AtomSt, c1ChgSt, c1PreSt, initGParseSt, List.nil_append]
      rw [List.map_fst_zip _ _ hle1, List.map_snd_zip _ _ hle2]
      rw [hpbc, hcell]
      simp [List.set]
    · exact hval
    · rfl
    · rfl
    · simp [tvStep, c1AtomSt, c1ChgSt, c1PreSt, initGParseSt, nucleiPropNames]
    · simp [tvStep, c1AtomSt, c1ChgSt, c1PreSt, initGParseSt, List.length_zip]
    · simp only [tvStep, c1AtomSt, c1ChgSt, c1PreSt, initGParseSt, List.nil_append]
      rw [List.all_eq_true]
      intro x hx
      obtain ⟨sp, hsp, rfl⟩ := List.mem_map.mp hx
      exact (wireAtomLine_parts (List.all_eq_true.mp hwire sp hsp)).2

/-- A two-atom structure, periodic along x, for the C1 witness. -/
def c1WitAtoms : MAtoms :=
  { symbols := ["H", "O"], positions := [(⟨15, 1⟩, 0, 0), (0, ⟨25, 1⟩, 0)],
    pbc := [true, false, false],
    cell := [(⟨10, 0⟩, 0, 0), (0, 0, 0), (0, 0, 0)],
    masses := [⟨15, 1⟩, ⟨85, 1⟩], initial_charges := [0, 0], initial_magmoms := [0, 0] }

/-- Witness for the amended C1 round trip: a concrete two-atom
structure periodic along x only, with the spec-modelled z-matrix reader
and mass table. -/
theorem c1_roundtrip_amended_witness :
    (c1WitAtoms.positions.length = c1WitAtoms.symbols.length)
    ∧ ((c1WitAtoms.symbols.zip c1WitAtoms.positions).all
        (fun sp => wireAtomLine sp.1 sp.2) = true)
    ∧ (wireChgMult (c1WitAtoms.initial_charges.foldl decAdd (0 : Dec))
        (decAdd (c1WitAtoms.initial_magmoms.foldl decAdd (0 : Dec)) (1 : Dec)) = true)
    ∧ gaussianRoundTrip pzModel sampleMasses c1WitAtoms
        = .ok { symbols := c1WitAtoms.symbols, positions := c1WitAtoms.positions,
                pbc := c1WitAtoms.pbc, cell := c1WitAtoms.cell } :=
  ⟨by decide, by decide, by decide,
   c1_roundtrip_amended pzModel sampleMasses c1WitAtoms 1 (by decide)
     (⟨10, 0⟩, 0, 0) (0, 0, 0) (0, 0, 0)
     (by decide) (by decide) (by decide) (by decide) (by decide)
     (by decide) (by decide) (by decide) (by decide)⟩
